import Mathlib

/-!
# DeviceScript VM core: operand decoder, breakpoint table, dispatch loop, result pipe

A shallow embedding of `runtime/devicescript/vm_main.c` and of the result-pipe part of
`runtime/devicescript/devsdbg.c`, followed by theorems about the embedded functions.

Conventions of the embedding

* C unsigned/signed machine integers are `Nat`/`Int`; where a value is stored into a
  narrower field the store is written with an explicit `% 2 ^ w`.
* A C array together with its element count (`brk_list`/`brk_count`) is a `List` whose
  length is the count.  A loop `for (i = 0; i < cnt; ++i)` over such an array is a
  structural recursion over the list; the head of the argument list is `l[i]`.
* Pointers to heap records (activation frames, fibers) are addresses (`Nat`, `0` is `NULL`)
  into a store kept in the context.
* A `JD_ASSERT` that fails, and a read outside an array, make the function return `none`.
* Constants, tables and handlers that live in headers or files outside the two sources
  are fields of `devs_config` and `devs_host`.
-/

namespace DeviceScript

open scoped List

/-- Constants from `devs_internal.h`, `devs_bytecode.h` and the Jacdac headers, which are not
part of the two source files.  Every definition below takes them as parameters. -/
structure devs_config where
  /-- Number of hash buckets of the breakpoint jump table (`DEVS_BRK_HASH_SIZE`). -/
  DEVS_BRK_HASH_SIZE : Nat
  /-- Capacity cap of the breakpoint list (`DEVS_BRK_MAX_COUNT`). -/
  DEVS_BRK_MAX_COUNT : Nat
  /-- Width in bits of `devs_pc_t`. -/
  devs_pc_bits : Nat
  /-- First byte value that starts a multi-byte integer (`DEVS_FIRST_MULTIBYTE_INT`). -/
  DEVS_FIRST_MULTIBYTE_INT : Nat
  /-- Size of the value stack (`DEVS_MAX_STACK_DEPTH`). -/
  DEVS_MAX_STACK_DEPTH : Nat
  /-- Step budget of one `devs_vm_exec_opcodes` call (`DEVS_MAX_STEPS`). -/
  DEVS_MAX_STEPS : Nat
  /-- First opcode of the direct-constant range (`DEVS_DIRECT_CONST_OP`). -/
  DEVS_DIRECT_CONST_OP : Nat
  /-- Offset subtracted from a direct constant (`DEVS_DIRECT_CONST_OFFSET`). -/
  DEVS_DIRECT_CONST_OFFSET : Nat
  /-- One past the last valid opcode (`DEVS_OP_PAST_LAST`). -/
  DEVS_OP_PAST_LAST : Nat
  /-- Flag bit mask `DEVS_BYTECODEFLAG_TAKES_NUMBER`. -/
  DEVS_BYTECODEFLAG_TAKES_NUMBER : Nat
  /-- Flag bit mask `DEVS_BYTECODEFLAG_IS_STMT`. -/
  DEVS_BYTECODEFLAG_IS_STMT : Nat
  /-- Panic code `DEVS_PANIC_TIMEOUT`. -/
  DEVS_PANIC_TIMEOUT : Nat
  /-- Suspension cause `JD_DEVS_DBG_SUSPENSION_TYPE_BREAKPOINT`. -/
  JD_DEVS_DBG_SUSPENSION_TYPE_BREAKPOINT : Nat
  /-- Payload size of a serial frame (`JD_SERIAL_PAYLOAD_SIZE`). -/
  JD_SERIAL_PAYLOAD_SIZE : Nat

/-- A runtime value (`value_t`): its 64-bit pattern. -/
abbrev value_t := Nat

/-- The fields of `devs_activation_t` that `vm_main.c` reads and writes. -/
structure devs_activation where
  pc : Nat
  maxpc : Nat

/-- The field of `devs_fiber_t` that `vm_main.c` writes. -/
structure devs_fiber where
  ret_val : value_t

/-- The fields of `devs_ctx_t` used by `vm_main.c`.

`frames` and `fibers` are the heap records reachable through `devs_activation_t *` and
`devs_fiber_t *`; `failures` and `panics` record the calls of `devs_runtime_failure` and
`devs_panic`; `not_implemented` is raised in the context in which the program stops at a
`TODO()`. -/
structure devs_ctx where
  /-- Bytes of the program image, `img.data[i]`. -/
  img_data : Nat → Nat
  frames : Nat → devs_activation
  fibers : Nat → devs_fiber
  /-- Address of the current frame, `0` for `NULL`. -/
  curr_fn : Nat
  /-- Address of the current fiber, `0` for `NULL`. -/
  curr_fiber : Nat
  stack_top : Nat
  the_stack : Nat → value_t
  stack_top_for_gc : Nat
  jmp_pc : Int
  literal_int : Int
  in_throw : Nat
  exn_val : value_t
  suspension : Nat
  /-- The array `brk_list[0 .. brk_count)`; `[]` is the `NULL` list with `brk_count = 0`. -/
  brk_list : List Nat
  /-- The array `brk_jump_tbl[0 .. DEVS_BRK_HASH_SIZE)` of bytes. -/
  brk_jump_tbl : List Nat
  /-- The heap words (of type `devs_pc_t`) that follow the block of `brk_list`, as far as
  they can be read: what `l[i]` yields for `i ≥ brk_count`.  The functions of this file
  never write them; how a reallocation of the array changes them is not tracked. -/
  brk_behind : List Nat
  failures : List Nat
  panics : List Nat
  not_implemented : Nat

/-- The count `ctx->brk_count`: the number of slots of `brk_list`. -/
def devs_ctx.brk_count (ctx : devs_ctx) : Nat := ctx.brk_list.length

/-- Modelled from the spec: `devs_runtime_failure` is defined outside the two source files.
The spec says a fatal VM failure carries a distinct numeric cause code; the callers continue
with the statement after the call.  The model records the code and returns. -/
def devs_runtime_failure (ctx : devs_ctx) (code : Nat) : devs_ctx :=
  { ctx with failures := ctx.failures ++ [code] }

/-- Modelled from the spec: `devs_panic` is defined outside the two source files.  The spec
says a fatal panic is distinct from an ordinary failure; the model records the code. -/
def devs_panic (ctx : devs_ctx) (code : Nat) : devs_ctx :=
  { ctx with panics := ctx.panics ++ [code] }

/-- Modelled from the spec: the `TODO()` marker comes from a header outside the sources; the
spec calls it an explicit not-implemented stop.  The program stops at the marker: the
statement after it is not run and the function that holds it does not return (as
`devs_vm_resume`, an `int` function that ends on `TODO()` without a `return`, shows).
`TODO ctx` is the context at the stop, in which the stop is recorded; every caller in this
file ends there. -/
def TODO (ctx : devs_ctx) : devs_ctx :=
  { ctx with not_implemented := ctx.not_implemented + 1 }

/-! ## Breakpoint table (`vm_main.c`, lines 52-149) -/

/-- Source: `devs_vm_suspend`.  The function stores the cause and stops at its `TODO()`; it
does not return.  The result is the context at the stop. -/
def devs_vm_suspend (ctx : devs_ctx) (cause : Nat) : devs_ctx :=
  TODO { ctx with suspension := cause }

/-- Source: `brk_hash`, `pc & (DEVS_BRK_HASH_SIZE - 1)`. -/
def brk_hash (cfg : devs_config) (pc : Nat) : Nat :=
  pc &&& (cfg.DEVS_BRK_HASH_SIZE - 1)

/-- The loop of `recompute_brk_jump_tbl`: `i` is the index of the head of the list argument.
The stored index is truncated to the byte-sized table element. -/
def recompute_loop (cfg : devs_config) : Nat → List Nat → List Nat → List Nat
  | _, [], tbl => tbl
  | i, x :: rest, tbl =>
    if x ≠ 0 ∧ tbl.getD (brk_hash cfg x) 0 = 0 then
      recompute_loop cfg (i + 1) rest (tbl.set (brk_hash cfg x) (i % 256))
    else
      recompute_loop cfg (i + 1) rest tbl

/-- Source: `recompute_brk_jump_tbl`; the `memset` clears the `DEVS_BRK_HASH_SIZE` bytes. -/
def recompute_brk_jump_tbl (cfg : devs_config) (ctx : devs_ctx) : devs_ctx :=
  { ctx with
    brk_jump_tbl :=
      recompute_loop cfg 0 ctx.brk_list (List.replicate cfg.DEVS_BRK_HASH_SIZE 0) }

/-- Source: `devs_vm_clear_breakpoints`. -/
def devs_vm_clear_breakpoints (cfg : devs_config) (ctx : devs_ctx) : devs_ctx :=
  recompute_brk_jump_tbl cfg { ctx with brk_list := [] }

/-- The loop of `devs_vm_clear_breakpoint` on the slots from index `i` on: at the first slot
equal to `pc` the rest is moved one slot left (`memmove`) and the last slot is zeroed.
`none` when no slot matches. -/
def brk_remove (pc : Nat) : List Nat → Option (List Nat)
  | [] => none
  | x :: rest =>
    if x = pc then some (rest ++ [0])
    else (brk_remove pc rest).map (fun r => x :: r)

/-- Source: `devs_vm_clear_breakpoint`.  `none` when `JD_ASSERT(pc == (devs_pc_t)pc)` fails. -/
def devs_vm_clear_breakpoint (cfg : devs_config) (ctx : devs_ctx) (pc : Nat) :
    Option (Bool × devs_ctx) :=
  if pc = 0 then some (false, ctx)
  else if pc % 2 ^ cfg.devs_pc_bits ≠ pc then none
  else
    match brk_remove pc ctx.brk_list with
    | some l => some (true, recompute_brk_jump_tbl cfg { ctx with brk_list := l })
    | none => some (false, ctx)

/-- The insertion loop of `devs_vm_set_breakpoint` on the slots from index `i` on, with the
current value of `was_in_section`.  `none` is the `return 0` exit (already present);
`some l` is the array after the loop has ended (by `break` or by `i` reaching `cnt`).
The `memmove` of `cnt - i - 1` slots drops the last slot of the array. -/
def brk_insert (cfg : devs_config) (pc : Nat) : Bool → List Nat → Option (List Nat)
  | _, [] => some []
  | was_in_section, x :: rest =>
    let in_section : Bool := brk_hash cfg x == brk_hash cfg pc
    if x = 0 then some (pc :: rest)
    else if (was_in_section && !in_section) || (in_section && decide (pc ≤ x)) then
      if x = pc then none
      else some (pc :: (x :: rest).dropLast)
    else (brk_insert cfg pc in_section rest).map (fun r => x :: r)

/-- The first part of `devs_vm_set_breakpoint` (lines 97-112): the array the insertion loop
works on, grown when the array is empty or its last slot is in use; `none` is the
`return -1` exit.  `jd_alloc` returns zeroed memory, so the slots added by growth hold `0`. -/
def brk_grow (cfg : devs_config) (l : List Nat) : Option (List Nat) :=
  let cnt := l.length
  if cnt = 0 ∨ l.getD (cnt - 1) 0 ≠ 0 then
    if cnt ≥ cfg.DEVS_BRK_MAX_COUNT then none
    else
      let cnt2 := if cnt * 2 + 8 > cfg.DEVS_BRK_MAX_COUNT then cfg.DEVS_BRK_MAX_COUNT
        else cnt * 2 + 8
      some (l ++ List.replicate (cnt2 - cnt) 0)
  else some l

/-- Source: `devs_vm_set_breakpoint`.  The result is the returned status and the context;
`none` when `JD_ASSERT(pc == (devs_pc_t)pc)` fails. -/
def devs_vm_set_breakpoint (cfg : devs_config) (ctx : devs_ctx) (pc : Nat) :
    Option (Int × devs_ctx) :=
  if pc % 2 ^ cfg.devs_pc_bits ≠ pc then none
  else if pc = 0 then some (-2, ctx)
  else
    match brk_grow cfg ctx.brk_list with
    | none => some (-1, ctx)
    | some l =>
      match brk_insert cfg pc false l with
      | none => some (0, { ctx with brk_list := l })
      | some l2 => some (1, recompute_brk_jump_tbl cfg { ctx with brk_list := l2 })

/-- The scan loop of `devs_vm_chk_brk` on the words `l[i]`, `l[i+1]`, ... : the slots of
the array from index `i` on, followed by the readable heap words behind the array, since the
loop tests neither `i < brk_count` nor the zero sentinel.  `some true`: a word equal to `pc`
was found; `some false`: a word greater than `pc` was found; `none`: the loop reads past
the last readable word. -/
def chk_scan (pc : Nat) : List Nat → Option Bool
  | [] => none
  | x :: rest =>
    if pc ≥ x then
      if pc = x then some true else chk_scan pc rest
    else some false

/-- How a call of `devs_vm_chk_brk` ends. -/
inductive chk_brk_result where
  /-- The function returns false; `ctx` is the context, unchanged. -/
  | returned_false (ctx : devs_ctx)
  /-- A word equal to the program counter was found: `devs_vm_suspend` is called and the
  program stops at its `TODO()`; `ctx` is the context at the stop.  The `return true` that
  follows the call is not reached. -/
  | suspend_stop (ctx : devs_ctx)

/-- Whether the call ended in `devs_vm_suspend`. -/
def chk_brk_result.is_hit : chk_brk_result → Bool
  | chk_brk_result.returned_false _ => false
  | chk_brk_result.suspend_stop _ => true

/-- Source: `devs_vm_chk_brk`.  `none` when the scan reads past the readable memory. -/
def devs_vm_chk_brk (cfg : devs_config) (ctx : devs_ctx) (frame : devs_activation) :
    Option chk_brk_result :=
  let pc := frame.pc
  let i := ctx.brk_jump_tbl.getD (brk_hash cfg pc) 0
  if i ≠ 0 then
    match chk_scan pc ((ctx.brk_list ++ ctx.brk_behind).drop i) with
    | some true =>
      some (chk_brk_result.suspend_stop
        (devs_vm_suspend ctx cfg.JD_DEVS_DBG_SUSPENSION_TYPE_BREAKPOINT))
    | some false => some (chk_brk_result.returned_false ctx)
    | none => none
  else some (chk_brk_result.returned_false ctx)

/-- The live breakpoints of a context: the nonzero slots of `brk_list`, in array order. -/
def brk_live (ctx : devs_ctx) : List Nat := ctx.brk_list.filter (fun x => x ≠ 0)

/-- A context as `devs_ctx` memory is when freshly zero-allocated, with a given image and
heap; its breakpoint list is `NULL` and its jump table is all zero. -/
def devs_ctx_zero (cfg : devs_config) (img : Nat → Nat) (frames : Nat → devs_activation) :
    devs_ctx :=
  { img_data := img, frames := frames, fibers := fun _ => { ret_val := 0 },
    curr_fn := 0, curr_fiber := 0, stack_top := 0, the_stack := fun _ => 0,
    stack_top_for_gc := 0, jmp_pc := 0, literal_int := 0, in_throw := 0, exn_val := 0,
    suspension := 0, brk_list := [],
    brk_jump_tbl := List.replicate cfg.DEVS_BRK_HASH_SIZE 0, brk_behind := [],
    failures := [], panics := [], not_implemented := 0 }

/-- Sample values of the constants, used to evaluate the code on concrete inputs. -/
def sample_config : devs_config :=
  { DEVS_BRK_HASH_SIZE := 32, DEVS_BRK_MAX_COUNT := 8, devs_pc_bits := 16,
    DEVS_FIRST_MULTIBYTE_INT := 248, DEVS_MAX_STACK_DEPTH := 10, DEVS_MAX_STEPS := 3,
    DEVS_DIRECT_CONST_OP := 128, DEVS_DIRECT_CONST_OFFSET := 16, DEVS_OP_PAST_LAST := 100,
    DEVS_BYTECODEFLAG_TAKES_NUMBER := 16, DEVS_BYTECODEFLAG_IS_STMT := 8,
    DEVS_PANIC_TIMEOUT := 2, JD_DEVS_DBG_SUSPENSION_TYPE_BREAKPOINT := 2,
    JD_SERIAL_PAYLOAD_SIZE := 236 }

/-- A zeroed context with an empty image, for the breakpoint scenarios. -/
def sample_ctx : devs_ctx :=
  devs_ctx_zero sample_config (fun _ => 0) (fun _ => { pc := 0, maxpc := 0 })

/-- Runs `devs_vm_set_breakpoint` and keeps the context. -/
def set_then (cfg : devs_config) (pc : Nat) (ctx : devs_ctx) : Option devs_ctx :=
  (devs_vm_set_breakpoint cfg ctx pc).map Prod.snd

/-- Runs `devs_vm_clear_breakpoint` and keeps the context. -/
def clear_then (cfg : devs_config) (pc : Nat) (ctx : devs_ctx) : Option devs_ctx :=
  (devs_vm_clear_breakpoint cfg ctx pc).map Prod.snd

/-- The outcome of `devs_vm_chk_brk` for a frame whose program counter is `pc`: `some true`
when the check hits (it ends in `devs_vm_suspend`), `some false` when it returns false,
`none` when the scan reads past the readable memory. -/
def chk_at (cfg : devs_config) (pc : Nat) (ctx : devs_ctx) : Option Bool :=
  (devs_vm_chk_brk cfg ctx { pc := pc, maxpc := pc + 1 }).map chk_brk_result.is_hit

/-- The context after `devs_vm_set_breakpoint cfg ctx pc` (the context itself when the
assertion of the call fails). -/
def set_get (cfg : devs_config) (pc : Nat) (ctx : devs_ctx) : devs_ctx :=
  match devs_vm_set_breakpoint cfg ctx pc with
  | some (_, c) => c
  | none => ctx

/-- The context after `devs_vm_clear_breakpoint cfg ctx pc`. -/
def clear_get (cfg : devs_config) (pc : Nat) (ctx : devs_ctx) : devs_ctx :=
  match devs_vm_clear_breakpoint cfg ctx pc with
  | some (_, c) => c
  | none => ctx

/-- The scenario of the spec: breakpoints 10, 5 and 20 are set, in this order, on an empty
table. -/
def brk_scenario : devs_ctx :=
  set_get sample_config 20 (set_get sample_config 5 (set_get sample_config 10 sample_ctx))

/-- A table filled to the capacity cap of `sample_config`: breakpoints 1 to 8. -/
def brk_full : devs_ctx :=
  set_get sample_config 8 (set_get sample_config 7 (set_get sample_config 6
    (set_get sample_config 5 (set_get sample_config 4 (set_get sample_config 3
      (set_get sample_config 2 (set_get sample_config 1 sample_ctx)))))))

/-! ## Operand decoder (`vm_main.c`, lines 4-37) -/

/-- Source: `devs_vm_fetch_byte`; `frame` is the address of the activation record.  The
result is the returned byte and the context, in which either `frame->pc` has advanced or
failure 60100 is recorded. -/
def devs_vm_fetch_byte (frame : Nat) (ctx : devs_ctx) : Nat × devs_ctx :=
  let f := ctx.frames frame
  if f.pc < f.maxpc then
    (ctx.img_data f.pc % 256,
      { ctx with frames := Function.update ctx.frames frame { f with pc := f.pc + 1 } })
  else (0, devs_runtime_failure ctx 60100)

/-- The value of an `int32_t` with the given 32-bit pattern. -/
def int32_of_bits (r : Nat) : Int :=
  if r % 2 ^ 32 < 2 ^ 31 then ((r % 2 ^ 32 : Nat) : Int) else ((r % 2 ^ 32 : Nat) : Int) - 2 ^ 32

/-- Reduction of an integer into the range of `int32_t` (two's complement wrap-around). -/
def int32_wrap (x : Int) : Int := (x + 2 ^ 31) % 2 ^ 32 - 2 ^ 31

/-- The `for` loop of `devs_vm_fetch_int`: `n` iterations are left, `r` is the 32-bit pattern
of the accumulator (`r <<= 8; r |= b`). -/
def fetch_int_loop (frame : Nat) : Nat → Nat → devs_ctx → Nat × devs_ctx
  | 0, r, ctx => (r, ctx)
  | n + 1, r, ctx =>
    let res := devs_vm_fetch_byte frame ctx
    fetch_int_loop frame n (((r * 256) % 2 ^ 32) ||| res.1) res.2

/-- Source: `devs_vm_fetch_int`. -/
def devs_vm_fetch_int (cfg : devs_config) (frame : Nat) (ctx : devs_ctx) : Int × devs_ctx :=
  let res := devs_vm_fetch_byte frame ctx
  let v := res.1
  if v < cfg.DEVS_FIRST_MULTIBYTE_INT then ((v : Int), res.2)
  else
    let n : Bool := (v &&& 4) != 0
    let len := (v &&& 3) + 1
    let acc := fetch_int_loop frame len 0 res.2
    (if n then int32_wrap (- int32_of_bits acc.1) else int32_of_bits acc.1, acc.2)

/-- Source: `devs_vm_push`. -/
def devs_vm_push (cfg : devs_config) (ctx : devs_ctx) (v : value_t) : devs_ctx :=
  if ctx.stack_top ≥ cfg.DEVS_MAX_STACK_DEPTH then devs_runtime_failure ctx 60101
  else
    { ctx with
      the_stack := Function.update ctx.the_stack ctx.stack_top v
      stack_top := ctx.stack_top + 1 }

/-! ## Dispatch loop (`vm_main.c`, lines 151-204) -/

/-- The collaborators of the dispatch loop that live outside the two source files: the
per-opcode flags table, the opcode handlers (`devs_vm_op_handlers[op]`, called as statement
or as expression handler with the frame address and the context), and two value
constructors. -/
structure devs_host where
  DEVS_OP_PROPS : Nat → Nat
  stmt_handler : Nat → Nat → devs_ctx → devs_ctx
  expr_handler : Nat → Nat → devs_ctx → value_t × devs_ctx
  devs_value_from_int : Int → value_t
  devs_undefined : value_t

/-- How the first part of `devs_vm_exec_opcode` (lines 152-173) ends. -/
inductive exec_decoded where
  /-- The breakpoint check hit: the program stopped in `devs_vm_suspend`, `ctx` is the
  context at the stop.  Nothing after the check is run. -/
  | suspended (ctx : devs_ctx)
  /-- A direct constant was pushed: the function returns. -/
  | direct_const (ctx : devs_ctx)
  /-- The opcode is not valid: failure 60102 was raised. -/
  | invalid (ctx : devs_ctx)
  /-- The handler of opcode `op` with flags `flags` is to be called on `ctx`. -/
  | dispatch (op flags : Nat) (ctx : devs_ctx)

/-- Source: `devs_vm_exec_opcode`, lines 152-173: breakpoint check, opcode fetch, operand
decoding and the record of the stack height for the collector.  `none` when the breakpoint
check reads past the readable memory.  The value `frame->pc - 1` stored in `jmp_pc` is kept as an
integer. -/
def exec_decode (cfg : devs_config) (host : devs_host) (ctx : devs_ctx) (frame : Nat) :
    Option exec_decoded :=
  match devs_vm_chk_brk cfg ctx (ctx.frames frame) with
  | none => none
  | some (chk_brk_result.suspend_stop ctx1) => some (exec_decoded.suspended ctx1)
  | some (chk_brk_result.returned_false ctx1) =>
    let res := devs_vm_fetch_byte frame ctx1
    let op := res.1
    if op ≥ cfg.DEVS_DIRECT_CONST_OP then
      let v : Int := (op : Int) - cfg.DEVS_DIRECT_CONST_OP - cfg.DEVS_DIRECT_CONST_OFFSET
      some (exec_decoded.direct_const (devs_vm_push cfg res.2 (host.devs_value_from_int v)))
    else if op ≥ cfg.DEVS_OP_PAST_LAST then
      some (exec_decoded.invalid (devs_runtime_failure res.2 60102))
    else
      let flags := host.DEVS_OP_PROPS op
      if flags &&& cfg.DEVS_BYTECODEFLAG_TAKES_NUMBER ≠ 0 then
        let lit := devs_vm_fetch_int cfg frame
          { res.2 with jmp_pc := ((res.2.frames frame).pc : Int) - 1 }
        some (exec_decoded.dispatch op flags
          { lit.2 with literal_int := lit.1, stack_top_for_gc := lit.2.stack_top })
      else
        some (exec_decoded.dispatch op flags
          { res.2 with stack_top_for_gc := res.2.stack_top })

/-- Source: `devs_vm_exec_opcode`, lines 177-184: the call of the handler of `op`, as a
statement (followed by the check of the stack height) or as an expression (followed by the
push of the result). -/
def exec_handler (cfg : devs_config) (host : devs_host) (op flags frame : Nat)
    (ctx : devs_ctx) : devs_ctx :=
  if flags &&& cfg.DEVS_BYTECODEFLAG_IS_STMT ≠ 0 then
    let c := host.stmt_handler op frame ctx
    if c.stack_top ≠ 0 then devs_runtime_failure c 60103 else c
  else
    let r := host.expr_handler op frame ctx
    devs_vm_push cfg r.2 r.1

/-- Source: `devs_vm_exec_opcode`, lines 186-192: delivery of a raised exception. -/
def exec_throw (host : devs_host) (ctx : devs_ctx) : devs_ctx :=
  if ctx.in_throw ≠ 0 then
    let c1 := { ctx with stack_top := 0, in_throw := 0 }
    let c2 :=
      if c1.curr_fiber ≠ 0 then
        { c1 with
          fibers := Function.update c1.fibers c1.curr_fiber
            { c1.fibers c1.curr_fiber with ret_val := c1.exn_val } }
      else c1
    { c2 with exn_val := host.devs_undefined }
  else ctx

/-- Source: `devs_vm_exec_opcode`.  The result is the context in which the step returns;
`none` when the step does not return: the breakpoint check reads past the readable memory,
or it hits and the program stops in `devs_vm_suspend`. -/
def devs_vm_exec_opcode (cfg : devs_config) (host : devs_host) (ctx : devs_ctx)
    (frame : Nat) : Option devs_ctx :=
  match exec_decode cfg host ctx frame with
  | none => none
  | some (exec_decoded.suspended _) => none
  | some (exec_decoded.direct_const c) => some c
  | some (exec_decoded.invalid c) => some c
  | some (exec_decoded.dispatch op flags c) =>
    some (exec_throw host (exec_handler cfg host op flags frame c))

/-- The `while` loop of `devs_vm_exec_opcodes`.  `maxsteps` is the 32-bit unsigned counter,
`steps` counts the calls of `devs_vm_exec_opcode` made so far.  The result is the final
counter, the number of calls and the context.  `none` when the fuel runs out or a step
has no result. -/
def exec_loop (cfg : devs_config) (host : devs_host) :
    Nat → Nat → Nat → devs_ctx → Option (Nat × Nat × devs_ctx)
  | 0, _, _, _ => none
  | fuel + 1, maxsteps, steps, ctx =>
    if ctx.curr_fn = 0 then some (maxsteps, steps, ctx)
    else
      let m := (maxsteps + 2 ^ 32 - 1) % 2 ^ 32
      if m = 0 then some (m, steps, ctx)
      else
        match devs_vm_exec_opcode cfg host ctx ctx.curr_fn with
        | none => none
        | some c => exec_loop cfg host fuel m (steps + 1) c

/-- Source: `devs_vm_exec_opcodes`.  The result is the number of opcode steps executed and
the context.  The counter reaches zero after at most `2 ^ 32` decrements, so the fuel
`2 ^ 32 + 1` is never used up. -/
def devs_vm_exec_opcodes (cfg : devs_config) (host : devs_host) (ctx : devs_ctx) :
    Option (Nat × devs_ctx) :=
  match exec_loop cfg host (2 ^ 32 + 1) (cfg.DEVS_MAX_STEPS % 2 ^ 32) 0 ctx with
  | none => none
  | some (m, steps, c) =>
    some (steps, if m = 0 then devs_panic c cfg.DEVS_PANIC_TIMEOUT else c)

/-- The context after `n` calls of `devs_vm_exec_opcode` on the current frame. -/
def exec_steps (cfg : devs_config) (host : devs_host) : Nat → devs_ctx → Option devs_ctx
  | 0, ctx => some ctx
  | n + 1, ctx =>
    match devs_vm_exec_opcode cfg host ctx ctx.curr_fn with
    | none => none
    | some c => exec_steps cfg host n c

/-! ## Result pipe (`devsdbg.c`, lines 10-95) -/

/-- A status returned by `jd_opipe_write`: `JD_PIPE_OK`, `JD_PIPE_TRY_AGAIN`, or any other
value. -/
inductive jd_pipe_status where
  | OK
  | TRY_AGAIN
  | error (code : Int)
  deriving DecidableEq

/-- The transport end of the result pipe (`jd_opipe_desc_t`), which is outside the sources:
whether it is open and the writes it has accepted since it was opened, each as the
offset into `pipe_data` and the size. -/
structure jd_opipe_desc_t where
  opened : Bool
  accepted : List (Nat × Nat)

/-- The fields of `struct srv_state` used by the result pipe.  `pipe_data` is `none` for
`NULL` and otherwise the size of the buffer; `write_calls` counts the calls of
`jd_opipe_write` made so far. -/
structure srv_state where
  enabled : Nat
  suspended : Nat
  pipe_cmd : Nat
  pipe_elt_size : Nat
  pipe_num_elts : Nat
  pipe_curr_elt : Nat
  pipe_data : Option Nat
  results_pipe : jd_opipe_desc_t
  write_calls : Nat

/-- Source: `devsdbg_stop_pipe`. -/
def devsdbg_stop_pipe (state : srv_state) : srv_state :=
  if state.pipe_cmd = 0 then state
  else
    { state with
      results_pipe := { state.results_pipe with opened := false }
      pipe_cmd := 0
      pipe_data := none }

/-- Source: `devsdbg_pipe_alloc`.  `alloc_ok` tells whether `jd_alloc` returns a buffer;
`none` when one of the two assertions fails. -/
def devsdbg_pipe_alloc (cfg : devs_config) (state : srv_state) (elt_size num_elts : Nat)
    (alloc_ok : Bool) : Option srv_state :=
  if ¬ elt_size < cfg.JD_SERIAL_PAYLOAD_SIZE - 8 then none
  else if ¬ num_elts < 1000 then none
  else
    let st1 := devsdbg_stop_pipe state
    let data : Option Nat :=
      if num_elts ≠ 0 then (if alloc_ok then some (elt_size * num_elts) else none) else none
    let st2 :=
      { st1 with
        pipe_elt_size := elt_size % 2 ^ 8
        pipe_num_elts := num_elts % 2 ^ 16
        pipe_curr_elt := 0
        pipe_data := data }
    some (if data = none then { st2 with pipe_num_elts := 0 } else st2)

/-- Source: `devsdbg_open_results_pipe`; `service_command` is `cmd->pkt->service_command`.
The result is the returned pointer (`pipe_data`) and the state. -/
def devsdbg_open_results_pipe (cfg : devs_config) (state : srv_state)
    (service_command elt_size num_elts : Nat) (alloc_ok : Bool) :
    Option (Option Nat × srv_state) :=
  let n := if state.enabled = 0 ∨ state.suspended = 0 then 0 else num_elts
  match devsdbg_pipe_alloc cfg state elt_size n alloc_ok with
  | none => none
  | some st1 =>
    let st2 :=
      { st1 with
        results_pipe := { opened := true, accepted := [] }
        pipe_cmd := service_command % 2 ^ 8 }
    some (st2.pipe_data, st2)

/-- The call `jd_opipe_write(&state->results_pipe, pipe_data + off, sz)`: the status is the
one the transport gives to this call, an accepted write is recorded. -/
def jd_opipe_write (tr : Nat → jd_pipe_status) (state : srv_state) (off sz : Nat) :
    jd_pipe_status × srv_state :=
  let r := tr state.write_calls
  (r,
    { state with
      write_calls := state.write_calls + 1
      results_pipe :=
        if r = jd_pipe_status.OK then
          { state.results_pipe with accepted := state.results_pipe.accepted ++ [(off, sz)] }
        else state.results_pipe })

/-- The `while` loop of `devsdbg_process`; `tr` gives the status of the `n`-th call of
`jd_opipe_write`.  `none` when the fuel runs out. -/
def devsdbg_process_loop (tr : Nat → jd_pipe_status) : Nat → srv_state → Option srv_state
  | 0, _ => none
  | fuel + 1, state =>
    if state.pipe_cmd = 0 then some state
    else if state.pipe_curr_elt ≥ state.pipe_num_elts then
      devsdbg_process_loop tr fuel (devsdbg_stop_pipe state)
    else
      let sz := state.pipe_elt_size
      let w := jd_opipe_write tr state (state.pipe_curr_elt * sz) sz
      match w.1 with
      | jd_pipe_status.OK =>
        devsdbg_process_loop tr fuel
          { w.2 with pipe_curr_elt := (w.2.pipe_curr_elt + 1) % 2 ^ 16 }
      | jd_pipe_status.TRY_AGAIN => some w.2
      | jd_pipe_status.error _ => devsdbg_process_loop tr fuel (devsdbg_stop_pipe w.2)

/-- Source: `devsdbg_process`.  Every iteration but the last two advances the cursor, so
the fuel `pipe_num_elts - pipe_curr_elt + 2` is never used up. -/
def devsdbg_process (tr : Nat → jd_pipe_status) (state : srv_state) : Option srv_state :=
  devsdbg_process_loop tr (state.pipe_num_elts - state.pipe_curr_elt + 2) state

/-- The state after `n` calls of `devsdbg_process`. -/
def pump (tr : Nat → jd_pipe_status) : Nat → srv_state → Option srv_state
  | 0, state => some state
  | n + 1, state =>
    match devsdbg_process tr state with
    | none => none
    | some st => pump tr n st

/-- The writes of elements `0 .. n-1` of size `sz`, in cursor order. -/
def pipe_elements (sz n : Nat) : List (Nat × Nat) :=
  (List.range n).map (fun j => (j * sz, sz))

/-! ## Notions used to state the claims -/

/-- The context in which `frame->pc` has advanced by `n`. -/
def frame_advance (frame n : Nat) (ctx : devs_ctx) : devs_ctx :=
  { ctx with
    frames := Function.update ctx.frames frame
      { ctx.frames frame with pc := (ctx.frames frame).pc + n } }

/-- The number written by a list of bytes, most significant byte first. -/
def be_value (bs : List Nat) : Nat := bs.foldl (fun a b => a * 256 + b) 0

/-- The encodings of an integer `x` in the variable-length scheme, as the spec describes
them: the single byte `x` when `0 ≤ x < DEVS_FIRST_MULTIBYTE_INT`; or a prefix byte `v`
from `DEVS_FIRST_MULTIBYTE_INT` on, whose two low bits hold the length minus one and whose
bit 2 holds the sign, followed by that many magnitude bytes, most significant first. -/
def int_encoding (cfg : devs_config) (x : Int) (bs : List Nat) : Prop :=
  (∃ v : Nat, bs = [v] ∧ v < 256 ∧ v < cfg.DEVS_FIRST_MULTIBYTE_INT ∧ x = (v : Int)) ∨
  (∃ (v : Nat) (mag : List Nat), bs = v :: mag ∧ v < 256 ∧ cfg.DEVS_FIRST_MULTIBYTE_INT ≤ v ∧
    mag.length = (v &&& 3) + 1 ∧ (∀ b ∈ mag, b < 256) ∧
    x = if v &&& 4 ≠ 0 then - (be_value mag : Int) else (be_value mag : Int))

/-- The context as the handler of `op` returns it, before `devs_vm_exec_opcode` checks the
stack height (statement) or pushes the result (expression). -/
def handler_result (cfg : devs_config) (host : devs_host) (op flags frame : Nat)
    (ctx : devs_ctx) : devs_ctx :=
  if flags &&& cfg.DEVS_BYTECODEFLAG_IS_STMT ≠ 0 then host.stmt_handler op frame ctx
  else (host.expr_handler op frame ctx).2

/-- A host in which every opcode is a statement whose handler does nothing. -/
def idle_host : devs_host :=
  { DEVS_OP_PROPS := fun _ => 8
    stmt_handler := fun _ _ c => c
    expr_handler := fun _ _ c => (0, c)
    devs_value_from_int := fun _ => 0
    devs_undefined := 0 }

/-- A host in which every opcode is a statement that jumps back to program counter 0. -/
def jump_host : devs_host :=
  { DEVS_OP_PROPS := fun _ => 8
    stmt_handler := fun _ frame c =>
      { c with frames := Function.update c.frames frame { c.frames frame with pc := 0 } }
    expr_handler := fun _ _ c => (0, c)
    devs_value_from_int := fun _ => 0
    devs_undefined := 0 }

/-- A host in which every opcode is an expression whose handler raises exception 77. -/
def throw_host : devs_host :=
  { DEVS_OP_PROPS := fun _ => 0
    stmt_handler := fun _ _ c => c
    expr_handler := fun _ _ c => (5, { c with in_throw := 1, exn_val := 77 })
    devs_value_from_int := fun _ => 0
    devs_undefined := 0 }

/-- A context that runs the frame at address 1 over an image of opcodes 1, with an empty
breakpoint table, fiber 1 current and `top` values on the stack. -/
def run_ctx (top : Nat) : devs_ctx :=
  { devs_ctx_zero sample_config (fun _ => 1) (fun _ => { pc := 0, maxpc := 4 }) with
    curr_fn := 1, curr_fiber := 1, stack_top := top }

/-- The invariant of a result pipe of `K` elements of size `sz`: the elements accepted by
the transport are exactly those below the cursor, in cursor order, and a closed pipe has
no buffer. -/
def pipe_inv (K sz : Nat) (st : srv_state) : Prop :=
  st.pipe_num_elts = K ∧ st.pipe_elt_size = sz ∧ st.pipe_curr_elt ≤ K ∧ K < 2 ^ 16 ∧
  st.results_pipe.accepted = pipe_elements sz st.pipe_curr_elt ∧
  (st.pipe_cmd = 0 → st.pipe_data = none)

/-- A service state with no pipe open, as after `devsdbg_init`; `en` and `su` are the
`enabled` and `suspended` flags. -/
def srv_idle (en su : Nat) : srv_state :=
  { enabled := en, suspended := su, pipe_cmd := 0, pipe_elt_size := 0, pipe_num_elts := 0,
    pipe_curr_elt := 0, pipe_data := none,
    results_pipe := { opened := false, accepted := [] }, write_calls := 0 }

/-- A transport that asks to try again at its second call and accepts every other write. -/
def tr_busy_once : Nat → jd_pipe_status :=
  fun i => if i = 1 then jd_pipe_status.TRY_AGAIN else jd_pipe_status.OK

/-- Contiguous buckets: whenever `a`, `c`, `b` occur in this order and `a`, `b` fall in the
same hash bucket, `c` falls in that bucket too. -/
def brk_contig (cfg : devs_config) (l : List Nat) : Prop :=
  ∀ a c b, [a, c, b] <+ l → brk_hash cfg a = brk_hash cfg b → brk_hash cfg c = brk_hash cfg a

/-- Ascending buckets: an entry is smaller than every later entry of its hash bucket. -/
def brk_asc (cfg : devs_config) (l : List Nat) : Prop :=
  ∀ a b, [a, b] <+ l → brk_hash cfg a = brk_hash cfg b → a < b

/-- The shape of a well-formed breakpoint array: live (nonzero) entries in contiguous,
ascending buckets, followed by zero slots only. -/
def brk_inv (cfg : devs_config) (l : List Nat) : Prop :=
  ∃ live k, l = live ++ List.replicate k 0 ∧ (∀ x ∈ live, x ≠ 0) ∧
    brk_contig cfg live ∧ brk_asc cfg live

/-- The contexts reachable from a context with an empty breakpoint table by
`devs_vm_set_breakpoint`, `devs_vm_clear_breakpoint` and `devs_vm_clear_breakpoints`. -/
inductive brk_reachable (cfg : devs_config) : devs_ctx → Prop
  | empty (ctx : devs_ctx) (h1 : ctx.brk_list = [])
      (h2 : ctx.brk_jump_tbl = List.replicate cfg.DEVS_BRK_HASH_SIZE 0) : brk_reachable cfg ctx
  | set (ctx ctx2 : devs_ctx) (pc : Nat) (r : Int) (h : brk_reachable cfg ctx)
      (hs : devs_vm_set_breakpoint cfg ctx pc = some (r, ctx2)) : brk_reachable cfg ctx2
  | clear (ctx ctx2 : devs_ctx) (pc : Nat) (r : Bool) (h : brk_reachable cfg ctx)
      (hs : devs_vm_clear_breakpoint cfg ctx pc = some (r, ctx2)) : brk_reachable cfg ctx2
  | clear_all (ctx : devs_ctx) (h : brk_reachable cfg ctx) :
      brk_reachable cfg (devs_vm_clear_breakpoints cfg ctx)

/-- The indices at which the scan loop of `devs_vm_chk_brk` reads `l[i]`, in order; the loop
is entered at index `i` and the list argument holds the readable words from `i` on.  When
the loop reads past the last readable word, the index of that read is the last one
listed. -/
def chk_scan_reads (pc : Nat) : Nat → List Nat → List Nat
  | i, [] => [i]
  | i, x :: rest =>
    if pc ≥ x then
      if pc = x then [i] else i :: chk_scan_reads pc (i + 1) rest
    else [i]

/-- The indices `i` of the reads `l[i]` of `devs_vm_chk_brk`. -/
def chk_brk_reads (cfg : devs_config) (ctx : devs_ctx) (frame : devs_activation) : List Nat :=
  let pc := frame.pc
  let i := ctx.brk_jump_tbl.getD (brk_hash cfg pc) 0
  if i ≠ 0 then chk_scan_reads pc i ((ctx.brk_list ++ ctx.brk_behind).drop i) else []

/-! ## Debugger: value expansion (`devsdbg.c`, lines 97-329) -/

/-- Constants of `jacdac/dist/c/devicescriptdebugger.h` and of the DeviceScript headers used
by `devsdbg.c`; none of them is defined in the two source files.  The three `sizeof_*`
fields are the sizes of the wire records. -/
structure dbg_config where
  JD_DEVS_DBG_FUN_IDX_MAIN : Nat
  JD_DEVS_DBG_VALUE_TAG_OBJ_BOUND_FUNCTION : Nat
  JD_DEVS_DBG_VALUE_TAG_IMG_BUFFER : Nat
  JD_DEVS_DBG_VALUE_TAG_BUILTIN_OBJECT : Nat
  JD_DEVS_DBG_VALUE_TAG_OBJ_MAP : Nat
  JD_DEVS_DBG_VALUE_TAG_ROLE_MEMBER : Nat
  JD_DEVS_DBG_VALUE_TAG_SPECIAL : Nat
  JD_DEVS_DBG_VALUE_TAG_EXOTIC : Nat
  JD_DEVS_DBG_VALUE_TAG_NUMBER : Nat
  JD_DEVS_DBG_VALUE_TAG_OBJ_ARRAY : Nat
  JD_DEVS_DBG_VALUE_TAG_IMG_ROLE : Nat
  JD_DEVS_DBG_VALUE_TAG_FIBER : Nat
  JD_DEVS_DBG_VALUE_TAG_OBJ_STRING : Nat
  JD_DEVS_DBG_VALUE_TAG_OBJ_BUFFER : Nat
  JD_DEVS_DBG_VALUE_TAG_OBJ_PACKET : Nat
  JD_DEVS_DBG_VALUE_TAG_UNHANDLED : Nat
  JD_DEVS_DBG_VALUE_TAG_IMG_STRING_BUILTIN : Nat
  JD_DEVS_DBG_VALUE_TAG_IMG_STRING_ASCII : Nat
  JD_DEVS_DBG_VALUE_TAG_IMG_STRING_UTF8 : Nat
  JD_DEVS_DBG_VALUE_SPECIAL_NULL : Nat
  JD_DEVS_DBG_VALUE_SPECIAL_TRUE : Nat
  JD_DEVS_DBG_VALUE_SPECIAL_FALSE : Nat
  DEVS_HANDLE_TYPE_IMG_BUFFERISH : Nat
  DEVS_HANDLE_TYPE_SPECIAL : Nat
  DEVS_HANDLE_TYPE_GC_OBJECT : Nat
  DEVS_HANDLE_TYPE_ROLE_MEMBER : Nat
  DEVS_STRIDX__SHIFT : Nat
  DEVS_SPECIAL_BUILTIN_OBJ_FIRST : Nat
  DEVS_ROLE_MASK : Nat
  DEVS_ROLE_BITS : Nat
  DEVS_OBJECT_TYPE_NULL : Nat
  DEVS_OBJECT_TYPE_EXOTIC : Nat
  DEVS_OBJECT_TYPE_BOOL : Nat
  DEVS_OBJECT_TYPE_NUMBER : Nat
  DEVS_OBJECT_TYPE_ARRAY : Nat
  DEVS_OBJECT_TYPE_ROLE : Nat
  DEVS_OBJECT_TYPE_FIBER : Nat
  DEVS_OBJECT_TYPE_STRING : Nat
  DEVS_OBJECT_TYPE_BUFFER : Nat
  DEVS_OBJECT_TYPE_PACKET : Nat
  DEVS_GC_TAG_STRING : Nat
  DEVS_GC_TAG_BUFFER : Nat
  DEVS_GC_TAG_PACKET : Nat
  DEVS_GC_TAG_ACTIVATION : Nat
  DEVS_GC_TAG_ARRAY : Nat
  DEVS_GC_TAG_HALF_STATIC_MAP : Nat
  JD_DEVS_DBG_STRING_STATIC_TAG_MASK : Nat
  JD_DEVS_DBG_STRING_STATIC_INDEX_MASK : Nat
  JD_DEVS_DBG_STRING_STATIC_INDICATOR_MASK : Nat
  JD_DEVS_DBG_STRING_UNHANDLED : Nat
  DEVS_BUILTIN_STRING___PROTO__ : Nat
  JD_DEVS_DBG_VALUE_INDEX_CURRENT_EXCEPTION : Nat
  JD_DEVS_DBG_VALUE_INDEX_RETURN_VALUE : Nat
  JD_DEVS_DBG_VALUE_INDEX_ROLE_OBJECT : Nat
  JD_DEVS_DBG_READ_INDEXED_MODIFIER_OBJECT : Nat
  JD_DEVS_DBG_READ_INDEXED_MODIFIER_GLOBALS : Nat
  JD_DEVS_DBG_READ_INDEXED_MODIFIER_ROLES : Nat
  JD_DEVS_DBG_CMD_READ_FIBERS : Nat
  JD_DEVS_DBG_CMD_READ_STACK : Nat
  JD_DEVS_DBG_CMD_READ_INDEXED_VALUES : Nat
  JD_DEVS_DBG_CMD_READ_NAMED_VALUES : Nat
  JD_DEVS_DBG_CMD_READ_VALUE : Nat
  JD_DEVS_DBG_CMD_CLEAR_BREAKPOINT : Nat
  JD_DEVS_DBG_CMD_CLEAR_BREAKPOINTS : Nat
  JD_DEVS_DBG_CMD_SET_BREAKPOINT : Nat
  JD_DEVS_DBG_CMD_HALT : Nat
  JD_DEVS_DBG_CMD_RESUME : Nat
  JD_DEVS_DBG_CMD_RESTART_AND_HALT : Nat
  JD_DEVS_DBG_REG_ENABLED : Nat
  JD_DEVS_DBG_REG_BREAK_AT_HANDLED_EXN : Nat
  JD_DEVS_DBG_REG_BREAK_AT_UNHANDLED_EXN : Nat
  JD_DEVS_DBG_SUSPENSION_TYPE_HALT : Nat
  JD_DEVS_DBG_SUSPENSION_TYPE_NONE : Nat
  sizeof_stackframe : Nat
  sizeof_value : Nat
  sizeof_key_value : Nat

/-- The wire record `jd_devs_dbg_value_t`.  The widths of its fields are declared outside
the sources; the values are kept as written. -/
structure jd_devs_dbg_value_t where
  tag : Nat
  v0 : Nat
  v1 : Nat
  fn_idx : Nat
  deriving DecidableEq

/-- The wire record `jd_devs_dbg_key_value_t`: the key followed by a value record. -/
structure jd_devs_dbg_key_value_t where
  key : Nat
  value : jd_devs_dbg_value_t
  deriving DecidableEq

/-- The incoming packet: command, service index, and `pkt->data` as the argument structures
of the commands see it. -/
structure jd_packet_t where
  service_command : Nat
  service_index : Nat
  read_stack_fiber_handle : Nat
  read_indexed_modifier : Nat
  read_indexed_obj : Nat
  read_named_obj : Nat
  read_value_index : Nat
  read_value_arg : Nat
  data_u16 : Nat

/-- The object model and the service framework as `devsdbg.c` uses them; all of it is
defined outside the two source files.  Pointers are addresses, `0` for `NULL`.  Linked
chains (`ctx->fibers`/`f->next`, `fib->activation`/`a->caller`) are given as lists of
addresses.  `devs_get_fnidx` returns the function index, the bound `this` and the closure.
`words_of_u64` is the way eight bytes copied by `memcpy` over the fields `v0`, `v1` are
read back as the two words; `devs_value_to_double` gives the eight bytes of the double.
`devs_maplike_iter_count` is the result of `devs_maplike_iter` called without a callback,
`devs_maplike_iter_cb` its result and the pairs handed to the callback when called with
one.  `uninit_value` is the content of a local record that was not initialised. -/
structure dbg_host where
  devs_get_fnidx : devs_ctx → value_t → Int × value_t × Nat
  devs_is_null : value_t → Bool
  devs_handle_is_ptr : value_t → Bool
  devs_handle_type : value_t → Nat
  devs_handle_value : value_t → Nat
  devs_handle_is_builtin : Nat → Bool
  devs_handle_ptr_value : devs_ctx → value_t → Nat
  devs_value_from_gc_obj : devs_ctx → Nat → value_t
  devs_value_from_handle : Nat → Nat → value_t
  devs_gc_obj_valid : devs_ctx → Nat → Bool
  devs_is_map : devs_ctx → Nat → Bool
  devs_value_typeof : devs_ctx → value_t → Nat
  devs_value_to_bool : devs_ctx → value_t → Bool
  devs_value_to_double : devs_ctx → value_t → Nat
  words_of_u64 : Nat → Nat × Nat
  devs_gc_tag : devs_ctx → Nat → Nat
  array_length : devs_ctx → Nat → Nat
  array_attached : devs_ctx → Nat → Nat
  array_data : devs_ctx → Nat → Nat → value_t
  buffer_length : devs_ctx → Nat → Nat
  buffer_attached : devs_ctx → Nat → Nat
  packet_payload_length : devs_ctx → Nat → Nat
  activation_num_slots : devs_ctx → Nat → Nat
  activation_slots : devs_ctx → Nat → Nat → value_t
  activation_closure : devs_ctx → Nat → Nat
  activation_fn_idx : devs_ctx → Nat → Nat
  devs_object_get_attached_enum : devs_ctx → value_t → Nat
  devs_maplike_get_proto : devs_ctx → Nat → Nat
  devs_maplike_is_map : devs_ctx → Nat → Bool
  devs_maplike_iter_count : devs_ctx → Nat → Nat
  devs_maplike_iter_cb : devs_ctx → Nat → Nat × List (value_t × value_t)
  devs_maplike_to_value : devs_ctx → Nat → value_t
  devs_builtin_string : Nat → value_t
  fibers : devs_ctx → List Nat
  fiber_handle_tag : devs_ctx → Nat → Nat
  devs_fiber_by_tag : devs_ctx → Nat → Nat
  fiber_activations : devs_ctx → Nat → List Nat
  devs_img_num_roles : devs_ctx → Nat
  role_attached : devs_ctx → Nat → Nat
  num_globals : devs_ctx → Nat
  globals : devs_ctx → Nat → value_t
  devs_is_suspended : devs_ctx → Bool
  service_handle_register_final : srv_state → jd_packet_t → Nat × srv_state
  uninit_value : jd_devs_dbg_value_t

/-- The constant `HAS_NAMED` (`0x80000000`). -/
def HAS_NAMED : Nat := 0x80000000

/-- Source: `ptr_value`. -/
def ptr_value (host : dbg_host) (ctx : devs_ctx) (ptr : Nat) : Nat :=
  if ptr = 0 then 0
  else host.devs_handle_value (host.devs_value_from_gc_obj ctx ptr)

/-- Source: `map_fn_idx`; the result type is `uint16_t`. -/
def map_fn_idx (dc : dbg_config) (idx : Nat) : Nat :=
  if idx = 0 then dc.JD_DEVS_DBG_FUN_IDX_MAIN % 2 ^ 16
  else idx % 2 ^ 16

/-- Source: `to_gc_obj`; `none` when the assertion fails. -/
def to_gc_obj (dc : dbg_config) (host : dbg_host) (ctx : devs_ctx) (ref : Nat) : Option Nat :=
  if ref = 0 then some 0
  else
    let r := host.devs_handle_ptr_value ctx
      (host.devs_value_from_handle dc.DEVS_HANDLE_TYPE_GC_OBJECT ref)
    if host.devs_gc_obj_valid ctx r then some r else none

/-- Source: `obj_get_props`, lines 308-313: the prototype of the attached object `obj` that
is shown to the debugger, `0` when there is none or when it is made invisible. -/
def visible_proto (dc : dbg_config) (host : dbg_host) (ctx : devs_ctx) (obj : Nat) : Nat :=
  let proto := host.devs_maplike_get_proto ctx obj
  if proto ≠ 0 ∧ host.devs_maplike_is_map ctx obj = true ∧
      host.devs_gc_tag ctx obj = dc.DEVS_GC_TAG_HALF_STATIC_MAP then 0
  else proto

/-- Source: `obj_get_props` called with `trg = NULL`, as `expand_value` and the first pass
of `read_named` call it: the number of properties. -/
def obj_get_props_null (dc : dbg_config) (host : dbg_host) (ctx : devs_ctx) (v : value_t) :
    Nat :=
  let obj := host.devs_object_get_attached_enum ctx v
  if obj = 0 then 0
  else
    let idx := if visible_proto dc host ctx obj ≠ 0 then 1 else 0
    idx + host.devs_maplike_iter_count ctx obj

/-- Source: `expand_value`, the second `switch` (lines 179-252), on the runtime type.
`none` when an assertion fails. -/
def expand_by_type (dc : dbg_config) (host : dbg_host) (ctx : devs_ctx)
    (trg : jd_devs_dbg_value_t) (v : value_t) : Option jd_devs_dbg_value_t :=
  let hv := host.devs_handle_value v
  let t := host.devs_value_typeof ctx v
  if t = dc.DEVS_OBJECT_TYPE_NULL then
    some { trg with tag := dc.JD_DEVS_DBG_VALUE_TAG_SPECIAL
                    v0 := dc.JD_DEVS_DBG_VALUE_SPECIAL_NULL }
  else if t = dc.DEVS_OBJECT_TYPE_EXOTIC then
    some { trg with tag := dc.JD_DEVS_DBG_VALUE_TAG_EXOTIC
                    v0 := (host.words_of_u64 v).1
                    v1 := (host.words_of_u64 v).2 }
  else if t = dc.DEVS_OBJECT_TYPE_BOOL then
    some { trg with tag := dc.JD_DEVS_DBG_VALUE_TAG_SPECIAL
                    v0 := if host.devs_value_to_bool ctx v then
                            dc.JD_DEVS_DBG_VALUE_SPECIAL_TRUE
                          else dc.JD_DEVS_DBG_VALUE_SPECIAL_FALSE }
  else if t = dc.DEVS_OBJECT_TYPE_NUMBER then
    some { trg with tag := dc.JD_DEVS_DBG_VALUE_TAG_NUMBER
                    v0 := (host.words_of_u64 (host.devs_value_to_double ctx v)).1
                    v1 := (host.words_of_u64 (host.devs_value_to_double ctx v)).2 }
  else if t = dc.DEVS_OBJECT_TYPE_ARRAY then
    let arr := host.devs_handle_ptr_value ctx v
    some { trg with tag := dc.JD_DEVS_DBG_VALUE_TAG_OBJ_ARRAY
                    v0 := hv
                    v1 := if host.array_attached ctx arr ≠ 0 then
                            host.array_length ctx arr ||| HAS_NAMED
                          else host.array_length ctx arr }
  else if t = dc.DEVS_OBJECT_TYPE_ROLE then
    some { trg with tag := dc.JD_DEVS_DBG_VALUE_TAG_IMG_ROLE
                    v0 := hv
                    v1 := obj_get_props_null dc host ctx v }
  else if t = dc.DEVS_OBJECT_TYPE_FIBER then
    some { trg with tag := dc.JD_DEVS_DBG_VALUE_TAG_FIBER, v0 := hv }
  else if t = dc.DEVS_OBJECT_TYPE_STRING then
    if host.devs_gc_tag ctx (host.devs_handle_ptr_value ctx v) = dc.DEVS_GC_TAG_STRING then
      some { trg with tag := dc.JD_DEVS_DBG_VALUE_TAG_OBJ_STRING, v0 := hv }
    else none
  else if t = dc.DEVS_OBJECT_TYPE_BUFFER then
    let b := host.devs_handle_ptr_value ctx v
    if host.devs_gc_tag ctx b = dc.DEVS_GC_TAG_BUFFER then
      some { trg with tag := dc.JD_DEVS_DBG_VALUE_TAG_OBJ_BUFFER
                      v0 := hv
                      v1 := if host.buffer_attached ctx b ≠ 0 then
                              host.buffer_length ctx b ||| HAS_NAMED
                            else host.buffer_length ctx b }
    else none
  else if t = dc.DEVS_OBJECT_TYPE_PACKET then
    let b := host.devs_handle_ptr_value ctx v
    if host.devs_gc_tag ctx b = dc.DEVS_GC_TAG_PACKET then
      some { trg with tag := dc.JD_DEVS_DBG_VALUE_TAG_OBJ_PACKET
                      v0 := hv
                      v1 := host.packet_payload_length ctx b ||| HAS_NAMED }
    else none
  else
    some { trg with tag := dc.JD_DEVS_DBG_VALUE_TAG_UNHANDLED
                    v0 := (host.words_of_u64 v).1
                    v1 := (host.words_of_u64 v).2 }

/-- Source: `expand_value`, the first `switch` (lines 144-177), on the handle type; a case
that ends in `break` goes on to the second `switch`. -/
def expand_by_handle (dc : dbg_config) (host : dbg_host) (ctx : devs_ctx)
    (trg : jd_devs_dbg_value_t) (v : value_t) : Option jd_devs_dbg_value_t :=
  let htp := host.devs_handle_type v
  let hv := host.devs_handle_value v
  if htp = dc.DEVS_HANDLE_TYPE_IMG_BUFFERISH then
    some { trg with tag := dc.JD_DEVS_DBG_VALUE_TAG_IMG_BUFFER + (hv >>> dc.DEVS_STRIDX__SHIFT)
                    v0 := hv &&& ((1 <<< dc.DEVS_STRIDX__SHIFT) - 1) }
  else if htp = dc.DEVS_HANDLE_TYPE_SPECIAL then
    if host.devs_handle_is_builtin hv then
      some { trg with tag := dc.JD_DEVS_DBG_VALUE_TAG_BUILTIN_OBJECT
                      v0 := (hv + 2 ^ 32 - dc.DEVS_SPECIAL_BUILTIN_OBJ_FIRST % 2 ^ 32) % 2 ^ 32 }
    else expand_by_type dc host ctx trg v
  else if htp = dc.DEVS_HANDLE_TYPE_GC_OBJECT then
    if host.devs_is_map ctx (host.devs_handle_ptr_value ctx v) then
      some { trg with tag := dc.JD_DEVS_DBG_VALUE_TAG_OBJ_MAP
                      v0 := hv
                      v1 := obj_get_props_null dc host ctx v }
    else expand_by_type dc host ctx trg v
  else if htp = dc.DEVS_HANDLE_TYPE_ROLE_MEMBER then
    some { trg with tag := dc.JD_DEVS_DBG_VALUE_TAG_ROLE_MEMBER
                    v0 := hv &&& dc.DEVS_ROLE_MASK
                    v1 := hv >>> dc.DEVS_ROLE_BITS }
  else expand_by_type dc host ctx trg v

/-- Source: `expand_value`.  `trg` is the record as it is before the call: the function
writes `tag` and the fields of its case and leaves the others.  `none` when an assertion
fails. -/
def expand_value (dc : dbg_config) (host : dbg_host) (ctx : devs_ctx)
    (trg : jd_devs_dbg_value_t) (v : value_t) : Option jd_devs_dbg_value_t :=
  let fi := host.devs_get_fnidx ctx v
  let fnidx := fi.1
  let this_val := fi.2.1
  let clo := fi.2.2
  if fnidx ≥ 0 then
    if clo ≠ 0 ∧ host.devs_is_null this_val = false then
      if host.devs_handle_is_ptr v then
        some { trg with tag := dc.JD_DEVS_DBG_VALUE_TAG_OBJ_BOUND_FUNCTION
                        v0 := host.devs_handle_value v }
      else none
    else
      let v2 := if clo ≠ 0 then host.devs_value_from_gc_obj ctx clo else this_val
      expand_by_handle dc host ctx { trg with fn_idx := map_fn_idx dc fnidx.toNat } v2
  else expand_by_handle dc host ctx trg v

/-- The 32-bit complement `~x`. -/
def bnot32 (x : Nat) : Nat := (2 ^ 32 - 1) ^^^ (x % 2 ^ 32)

/-- Source: `expand_key_value`.  The local `tmp` is not initialised; it is used for the key
and then for the value.  `none` when an assertion fails. -/
def expand_key_value (dc : dbg_config) (host : dbg_host) (ctx : devs_ctx)
    (key v : value_t) : Option jd_devs_dbg_key_value_t :=
  match expand_value dc host ctx host.uninit_value key with
  | none => none
  | some tmp =>
    let k : Option Nat :=
      if tmp.tag = dc.JD_DEVS_DBG_VALUE_TAG_IMG_STRING_BUILTIN ∨
          tmp.tag = dc.JD_DEVS_DBG_VALUE_TAG_IMG_STRING_ASCII ∨
          tmp.tag = dc.JD_DEVS_DBG_VALUE_TAG_IMG_STRING_UTF8 then
        if ((tmp.tag <<< 24) % 2 ^ 32) &&& bnot32 dc.JD_DEVS_DBG_STRING_STATIC_TAG_MASK ≠ 0 then
          none
        else if ((tmp.v0 <<< 1) % 2 ^ 32) &&&
            bnot32 dc.JD_DEVS_DBG_STRING_STATIC_INDEX_MASK ≠ 0 then none
        else
          some (dc.JD_DEVS_DBG_STRING_STATIC_INDICATOR_MASK ||| ((tmp.tag <<< 24) % 2 ^ 32)
            ||| ((tmp.v0 <<< 1) % 2 ^ 32))
      else if tmp.tag = dc.JD_DEVS_DBG_VALUE_TAG_OBJ_STRING then
        if tmp.v0 &&& dc.JD_DEVS_DBG_STRING_STATIC_INDICATOR_MASK
            = dc.JD_DEVS_DBG_STRING_STATIC_INDICATOR_MASK then none
        else some tmp.v0
      else some dc.JD_DEVS_DBG_STRING_UNHANDLED
    match k with
    | none => none
    | some key2 =>
      match expand_value dc host ctx tmp v with
      | none => none
      | some tmp2 => some { key := key2, value := tmp2 }

/-- The calls of `kv_add` made by `devs_maplike_iter`: one record per pair, written at
`trg++`.  `none` when an assertion fails. -/
def kv_add_all (dc : dbg_config) (host : dbg_host) (ctx : devs_ctx) :
    List (value_t × value_t) → Option (List jd_devs_dbg_key_value_t)
  | [] => some []
  | p :: rest =>
    match expand_key_value dc host ctx p.1 p.2 with
    | none => none
    | some r =>
      match kv_add_all dc host ctx rest with
      | none => none
      | some rs => some (r :: rs)

/-- Source: `obj_get_props` called with a buffer `trg`: the returned count and the records
written to the buffer, in order.  `none` when an assertion fails. -/
def obj_get_props (dc : dbg_config) (host : dbg_host) (ctx : devs_ctx) (v : value_t) :
    Option (Nat × List jd_devs_dbg_key_value_t) :=
  let obj := host.devs_object_get_attached_enum ctx v
  if obj = 0 then some (0, [])
  else
    let proto := visible_proto dc host ctx obj
    let first : Option (List jd_devs_dbg_key_value_t) :=
      if proto ≠ 0 then
        (expand_key_value dc host ctx (host.devs_builtin_string dc.DEVS_BUILTIN_STRING___PROTO__)
          (host.devs_maplike_to_value ctx proto)).map (fun r => [r])
      else some []
    match first with
    | none => none
    | some recs1 =>
      let idx := if proto ≠ 0 then 1 else 0
      let it := host.devs_maplike_iter_cb ctx obj
      match kv_add_all dc host ctx it.2 with
      | none => none
      | some recs2 => some (idx + it.1, recs1 ++ recs2)

/-! ## Debugger: commands (`devsdbg.c`, lines 331-542) -/

/-- Source: `devs_vm_resume` (`vm_main.c`).  `(some (-1), ctx)`: the function returns -1.
`(none, c)`: the function stores the cause `NONE` and stops at its `TODO()`, it does not
return; `c` is the context at the stop. -/
def devs_vm_resume (dc : dbg_config) (host : dbg_host) (ctx : devs_ctx) :
    Option Int × devs_ctx :=
  if host.devs_is_suspended ctx = false then (some (-1), ctx)
  else (none, TODO { ctx with suspension := dc.JD_DEVS_DBG_SUSPENSION_TYPE_NONE })

/-- One element of the buffer that `devsdbg_open_results_pipe` returns, as the command that
opened the pipe fills it. -/
inductive dbg_cell where
  | word (w : Nat)
  | stackframe (self pc closure fn_idx : Nat)
  | value (r : jd_devs_dbg_value_t)
  | key_value (r : jd_devs_dbg_key_value_t)

/-- What `devsdbg_handle_packet` works on: the service state, the context returned by
`devicescriptmgr_get_ctx()` (`none` for `NULL`), the elements written into the buffer of
the result pipe, the records passed to `jd_send` (service index, command, record), and
the number of `TODO()` markers passed by the dispatcher: the program stops at the first
one, so a call that returns leaves the number as it was. -/
structure dbg_world where
  state : srv_state
  ctx : Option devs_ctx
  pipe_cells : List dbg_cell
  sent : List (Nat × Nat × jd_devs_dbg_value_t)
  not_implemented : Nat

/-- The call `devsdbg_open_results_pipe(cmd, elt_size, num_elts)` on the world: the returned
pointer and the world, whose buffer is new (zeroed, shown as no cells written). -/
def open_pipe (cfg : devs_config) (w : dbg_world) (pkt : jd_packet_t)
    (elt_size num_elts : Nat) (alloc_ok : Bool) : Option (Option Nat × dbg_world) :=
  match devsdbg_open_results_pipe cfg w.state pkt.service_command elt_size num_elts alloc_ok with
  | none => none
  | some (data, st) => some (data, { w with state := st, pipe_cells := [] })

/-- Source: `send_empty`. -/
def send_empty (cfg : devs_config) (w : dbg_world) (pkt : jd_packet_t) (alloc_ok : Bool) :
    Option dbg_world :=
  (open_pipe cfg w pkt 1 0 alloc_ok).map Prod.snd

/-- The record of a zeroed buffer element. -/
def zero_value : jd_devs_dbg_value_t := { tag := 0, v0 := 0, v1 := 0, fn_idx := 0 }

/-- The loop `for (i = 0; i < num; ++i) expand_value(ctx, r + i, vals[i])` from index `i`
with `n` elements left.  `none` when an assertion fails. -/
def expand_values (dc : dbg_config) (host : dbg_host) (ctx : devs_ctx)
    (vals : Nat → value_t) : Nat → Nat → Option (List dbg_cell)
  | 0, _ => some []
  | n + 1, i =>
    match expand_value dc host ctx zero_value (vals i) with
    | none => none
    | some r =>
      match expand_values dc host ctx vals n (i + 1) with
      | none => none
      | some rs => some (dbg_cell.value r :: rs)

/-- Source: `send_values`. -/
def send_values (cfg : devs_config) (dc : dbg_config) (host : dbg_host) (w : dbg_world)
    (pkt : jd_packet_t) (ctx : devs_ctx) (num : Nat) (vals : Nat → value_t)
    (alloc_ok : Bool) : Option dbg_world :=
  match open_pipe cfg w pkt dc.sizeof_value num alloc_ok with
  | none => none
  | some (none, w1) => some w1
  | some (some _, w1) =>
    match expand_values dc host ctx vals num 0 with
    | none => none
    | some cells => some { w1 with pipe_cells := cells }

/-- Source: `obj_length`. -/
def obj_length (dc : dbg_config) (host : dbg_host) (ctx : devs_ctx) (obj : Nat) : Nat :=
  if host.devs_gc_tag ctx obj = dc.DEVS_GC_TAG_ACTIVATION then host.activation_num_slots ctx obj
  else if host.devs_gc_tag ctx obj = dc.DEVS_GC_TAG_ARRAY then host.array_length ctx obj
  else 0

/-- Source: `read_indexed`.  `none` when an assertion fails or `JD_PANIC()` is reached. -/
def read_indexed (cfg : devs_config) (dc : dbg_config) (host : dbg_host) (w : dbg_world)
    (pkt : jd_packet_t) (ctx : devs_ctx) (alloc_ok : Bool) : Option dbg_world :=
  if pkt.read_indexed_modifier = dc.JD_DEVS_DBG_READ_INDEXED_MODIFIER_OBJECT then
    match to_gc_obj dc host ctx pkt.read_indexed_obj with
    | none => none
    | some obj =>
      let len := obj_length dc host ctx obj
      if len = 0 then send_empty cfg w pkt alloc_ok
      else if host.devs_gc_tag ctx obj = dc.DEVS_GC_TAG_ARRAY then
        send_values cfg dc host w pkt ctx len (host.array_data ctx obj) alloc_ok
      else if host.devs_gc_tag ctx obj = dc.DEVS_GC_TAG_ACTIVATION then
        send_values cfg dc host w pkt ctx len (host.activation_slots ctx obj) alloc_ok
      else none
  else if pkt.read_indexed_modifier = dc.JD_DEVS_DBG_READ_INDEXED_MODIFIER_GLOBALS then
    send_values cfg dc host w pkt ctx (host.num_globals ctx) (host.globals ctx) alloc_ok
  else if pkt.read_indexed_modifier = dc.JD_DEVS_DBG_READ_INDEXED_MODIFIER_ROLES then
    send_values cfg dc host w pkt ctx (host.devs_img_num_roles ctx)
      (fun i => host.devs_value_from_gc_obj ctx (host.role_attached ctx i)) alloc_ok
  else send_empty cfg w pkt alloc_ok

/-- The call `jd_send(service_index, service_command, &trg, sizeof(trg))`. -/
def jd_send (w : dbg_world) (pkt : jd_packet_t) (trg : jd_devs_dbg_value_t) : dbg_world :=
  { w with sent := w.sent ++ [(pkt.service_index, pkt.service_command, trg)] }

/-- Source: `respond_value`; the local `trg` is not initialised before `expand_value`. -/
def respond_value (dc : dbg_config) (host : dbg_host) (w : dbg_world) (pkt : jd_packet_t)
    (ctx : devs_ctx) (v : value_t) : Option dbg_world :=
  match expand_value dc host ctx host.uninit_value v with
  | none => none
  | some trg => some (jd_send w pkt trg)

/-- Source: `respond_no_value`; the initialiser `{.tag = ...}` zeroes the other fields. -/
def respond_no_value (dc : dbg_config) (w : dbg_world) (pkt : jd_packet_t) : dbg_world :=
  jd_send w pkt { tag := dc.JD_DEVS_DBG_VALUE_TAG_UNHANDLED, v0 := 0, v1 := 0, fn_idx := 0 }

/-- Source: `read_value`. -/
def read_value (dc : dbg_config) (host : dbg_host) (w : dbg_world) (pkt : jd_packet_t)
    (ctx : devs_ctx) : Option dbg_world :=
  if pkt.read_value_index = dc.JD_DEVS_DBG_VALUE_INDEX_CURRENT_EXCEPTION then
    if host.devs_is_null ctx.exn_val = true ∧ ctx.curr_fiber ≠ 0 then
      respond_value dc host w pkt ctx (ctx.fibers ctx.curr_fiber).ret_val
    else respond_value dc host w pkt ctx ctx.exn_val
  else if pkt.read_value_index = dc.JD_DEVS_DBG_VALUE_INDEX_RETURN_VALUE then
    let f := host.devs_fiber_by_tag ctx pkt.read_value_arg
    if f ≠ 0 then respond_value dc host w pkt ctx ctx.exn_val
    else some (respond_no_value dc w pkt)
  else if pkt.read_value_index = dc.JD_DEVS_DBG_VALUE_INDEX_ROLE_OBJECT then
    if pkt.read_value_arg < host.devs_img_num_roles ctx then
      respond_value dc host w pkt ctx
        (host.devs_value_from_gc_obj ctx (host.role_attached ctx pkt.read_value_arg))
    else some (respond_no_value dc w pkt)
  else some (respond_no_value dc w pkt)

/-- Source: `read_named`.  `none` when an assertion fails, among them
`JD_ASSERT(len == l2)`. -/
def read_named (cfg : devs_config) (dc : dbg_config) (host : dbg_host) (w : dbg_world)
    (pkt : jd_packet_t) (ctx : devs_ctx) (alloc_ok : Bool) : Option dbg_world :=
  match to_gc_obj dc host ctx pkt.read_named_obj with
  | none => none
  | some obj =>
    let v := host.devs_value_from_gc_obj ctx obj
    let len := obj_get_props_null dc host ctx v
    match open_pipe cfg w pkt dc.sizeof_key_value len alloc_ok with
    | none => none
    | some (none, w1) => some w1
    | some (some _, w1) =>
      match obj_get_props dc host ctx v with
      | none => none
      | some (l2, recs) =>
        if len = l2 then some { w1 with pipe_cells := recs.map dbg_cell.key_value }
        else none

/-- The cells of the `READ_STACK` answer: one stack frame record per activation. -/
def stack_cells (dc : dbg_config) (host : dbg_host) (ctx : devs_ctx) (acts : List Nat) :
    List dbg_cell :=
  acts.map (fun a =>
    dbg_cell.stackframe (ptr_value host ctx a) (ctx.frames a).pc
      (ptr_value host ctx (host.activation_closure ctx a))
      (map_fn_idx dc (host.activation_fn_idx ctx a)))

/-- Source: `devsdbg_handle_packet`.  The context is `w.ctx`; `alloc_ok` tells whether a
`jd_alloc` of the pipe buffer succeeds.  `none` when the call does not return: an assertion
fails, or the program stops at a `TODO()` (in `devs_vm_suspend`, in `devs_vm_resume`, or in
the dispatcher itself). -/
def devsdbg_handle_packet (cfg : devs_config) (dc : dbg_config) (host : dbg_host)
    (w : dbg_world) (pkt : jd_packet_t) (alloc_ok : Bool) : Option dbg_world :=
  let c := pkt.service_command
  if c = dc.JD_DEVS_DBG_CMD_READ_FIBERS then
    let fibs : List Nat := match w.ctx with
      | some ctx => host.fibers ctx
      | none => []
    match open_pipe cfg w pkt 4 fibs.length alloc_ok with
    | none => none
    | some (none, w1) => some w1
    | some (some _, w1) =>
      match w.ctx with
      | some ctx =>
        some { w1 with
          pipe_cells := fibs.map (fun f => dbg_cell.word (host.fiber_handle_tag ctx f)) }
      | none => some w1
  else if c = dc.JD_DEVS_DBG_CMD_READ_STACK then
    let fib : Nat := match w.ctx with
      | some ctx => host.devs_fiber_by_tag ctx pkt.read_stack_fiber_handle
      | none => 0
    let acts : List Nat := match w.ctx with
      | some ctx => if fib ≠ 0 then host.fiber_activations ctx fib else []
      | none => []
    match open_pipe cfg w pkt dc.sizeof_stackframe acts.length alloc_ok with
    | none => none
    | some (none, w1) => some w1
    | some (some _, w1) =>
      match w.ctx with
      | some ctx => some { w1 with pipe_cells := stack_cells dc host ctx acts }
      | none => some w1
  else if c = dc.JD_DEVS_DBG_CMD_READ_INDEXED_VALUES then
    match w.ctx with
    | none => send_empty cfg w pkt alloc_ok
    | some ctx => read_indexed cfg dc host w pkt ctx alloc_ok
  else if c = dc.JD_DEVS_DBG_CMD_READ_NAMED_VALUES then
    match w.ctx with
    | none => send_empty cfg w pkt alloc_ok
    | some ctx => read_named cfg dc host w pkt ctx alloc_ok
  else if c = dc.JD_DEVS_DBG_CMD_READ_VALUE then
    match w.ctx with
    | none => some (respond_no_value dc w pkt)
    | some ctx => read_value dc host w pkt ctx
  else if c = dc.JD_DEVS_DBG_CMD_CLEAR_BREAKPOINT then
    match w.ctx with
    | none => some w
    | some ctx =>
      match devs_vm_clear_breakpoint cfg ctx pkt.data_u16 with
      | none => none
      | some r => some { w with ctx := some r.2 }
  else if c = dc.JD_DEVS_DBG_CMD_CLEAR_BREAKPOINTS then
    match w.ctx with
    | none => some w
    | some ctx => some { w with ctx := some (devs_vm_clear_breakpoints cfg ctx) }
  else if c = dc.JD_DEVS_DBG_CMD_SET_BREAKPOINT then
    match w.ctx with
    | none => some w
    | some ctx =>
      match devs_vm_set_breakpoint cfg ctx pkt.data_u16 with
      | none => none
      | some r => some { w with ctx := some r.2 }
  else if c = dc.JD_DEVS_DBG_CMD_HALT then
    match w.ctx with
    | none => some w
    | some _ => none
  else if c = dc.JD_DEVS_DBG_CMD_RESUME then
    match w.ctx with
    | none => some w
    | some ctx =>
      match (devs_vm_resume dc host ctx).1 with
      | some _ => some w
      | none => none
  else if c = dc.JD_DEVS_DBG_CMD_RESTART_AND_HALT then none
  else
    let r := host.service_handle_register_final w.state pkt
    let w1 := { w with state := r.2 }
    if r.1 = dc.JD_DEVS_DBG_REG_ENABLED ∨ r.1 = dc.JD_DEVS_DBG_REG_BREAK_AT_HANDLED_EXN ∨
        r.1 = dc.JD_DEVS_DBG_REG_BREAK_AT_UNHANDLED_EXN then none
    else some w1

/-- The key-value pairs that the buffered call of `obj_get_props` passes to
`expand_key_value` for the attached object `obj`, in order: the `__proto__` pair when a
prototype is visible, then the pairs of `devs_maplike_iter`. -/
def props_pairs (dc : dbg_config) (host : dbg_host) (ctx : devs_ctx) (obj : Nat) :
    List (value_t × value_t) :=
  (if visible_proto dc host ctx obj ≠ 0 then
    [(host.devs_builtin_string dc.DEVS_BUILTIN_STRING___PROTO__,
      host.devs_maplike_to_value ctx (visible_proto dc host ctx obj))]
   else []) ++ (host.devs_maplike_iter_cb ctx obj).2

/-- The case labels of the outer `switch` of `devsdbg_handle_packet`, in source order. -/
def dbg_commands (dc : dbg_config) : List Nat :=
  [dc.JD_DEVS_DBG_CMD_READ_FIBERS, dc.JD_DEVS_DBG_CMD_READ_STACK,
   dc.JD_DEVS_DBG_CMD_READ_INDEXED_VALUES, dc.JD_DEVS_DBG_CMD_READ_NAMED_VALUES,
   dc.JD_DEVS_DBG_CMD_READ_VALUE, dc.JD_DEVS_DBG_CMD_CLEAR_BREAKPOINT,
   dc.JD_DEVS_DBG_CMD_CLEAR_BREAKPOINTS, dc.JD_DEVS_DBG_CMD_SET_BREAKPOINT,
   dc.JD_DEVS_DBG_CMD_HALT, dc.JD_DEVS_DBG_CMD_RESUME, dc.JD_DEVS_DBG_CMD_RESTART_AND_HALT]

/-! ### A sample debugger configuration and heap, for evaluations -/

/-- Sample values of the constants of the debugger service, pairwise distinct within each
group. -/
def sample_dbg_config : dbg_config :=
  { JD_DEVS_DBG_FUN_IDX_MAIN := 49999
    JD_DEVS_DBG_VALUE_TAG_OBJ_BOUND_FUNCTION := 0x57
    JD_DEVS_DBG_VALUE_TAG_IMG_BUFFER := 0x20
    JD_DEVS_DBG_VALUE_TAG_BUILTIN_OBJECT := 0x05
    JD_DEVS_DBG_VALUE_TAG_OBJ_MAP := 0x52
    JD_DEVS_DBG_VALUE_TAG_ROLE_MEMBER := 0x32
    JD_DEVS_DBG_VALUE_TAG_SPECIAL := 0x02
    JD_DEVS_DBG_VALUE_TAG_EXOTIC := 0x06
    JD_DEVS_DBG_VALUE_TAG_NUMBER := 0x01
    JD_DEVS_DBG_VALUE_TAG_OBJ_ARRAY := 0x51
    JD_DEVS_DBG_VALUE_TAG_IMG_ROLE := 0x30
    JD_DEVS_DBG_VALUE_TAG_FIBER := 0x03
    JD_DEVS_DBG_VALUE_TAG_OBJ_STRING := 0x54
    JD_DEVS_DBG_VALUE_TAG_OBJ_BUFFER := 0x53
    JD_DEVS_DBG_VALUE_TAG_OBJ_PACKET := 0x56
    JD_DEVS_DBG_VALUE_TAG_UNHANDLED := 0x07
    JD_DEVS_DBG_VALUE_TAG_IMG_STRING_BUILTIN := 0x21
    JD_DEVS_DBG_VALUE_TAG_IMG_STRING_ASCII := 0x22
    JD_DEVS_DBG_VALUE_TAG_IMG_STRING_UTF8 := 0x23
    JD_DEVS_DBG_VALUE_SPECIAL_NULL := 1
    JD_DEVS_DBG_VALUE_SPECIAL_TRUE := 2
    JD_DEVS_DBG_VALUE_SPECIAL_FALSE := 3
    DEVS_HANDLE_TYPE_IMG_BUFFERISH := 5
    DEVS_HANDLE_TYPE_SPECIAL := 1
    DEVS_HANDLE_TYPE_GC_OBJECT := 4
    DEVS_HANDLE_TYPE_ROLE_MEMBER := 3
    DEVS_STRIDX__SHIFT := 14
    DEVS_SPECIAL_BUILTIN_OBJ_FIRST := 0x40
    DEVS_ROLE_MASK := 0x3ff
    DEVS_ROLE_BITS := 10
    DEVS_OBJECT_TYPE_NULL := 0
    DEVS_OBJECT_TYPE_EXOTIC := 1
    DEVS_OBJECT_TYPE_BOOL := 2
    DEVS_OBJECT_TYPE_NUMBER := 3
    DEVS_OBJECT_TYPE_ARRAY := 4
    DEVS_OBJECT_TYPE_ROLE := 5
    DEVS_OBJECT_TYPE_FIBER := 6
    DEVS_OBJECT_TYPE_STRING := 7
    DEVS_OBJECT_TYPE_BUFFER := 8
    DEVS_OBJECT_TYPE_PACKET := 9
    DEVS_GC_TAG_STRING := 6
    DEVS_GC_TAG_BUFFER := 5
    DEVS_GC_TAG_PACKET := 7
    DEVS_GC_TAG_ACTIVATION := 9
    DEVS_GC_TAG_ARRAY := 4
    DEVS_GC_TAG_HALF_STATIC_MAP := 10
    JD_DEVS_DBG_STRING_STATIC_TAG_MASK := 0x7f000000
    JD_DEVS_DBG_STRING_STATIC_INDEX_MASK := 0x00fffffe
    JD_DEVS_DBG_STRING_STATIC_INDICATOR_MASK := 0x80000001
    JD_DEVS_DBG_STRING_UNHANDLED := 0
    DEVS_BUILTIN_STRING___PROTO__ := 20
    JD_DEVS_DBG_VALUE_INDEX_CURRENT_EXCEPTION := 0x81
    JD_DEVS_DBG_VALUE_INDEX_RETURN_VALUE := 0x82
    JD_DEVS_DBG_VALUE_INDEX_ROLE_OBJECT := 0x83
    JD_DEVS_DBG_READ_INDEXED_MODIFIER_OBJECT := 1
    JD_DEVS_DBG_READ_INDEXED_MODIFIER_GLOBALS := 2
    JD_DEVS_DBG_READ_INDEXED_MODIFIER_ROLES := 3
    JD_DEVS_DBG_CMD_READ_FIBERS := 0x80
    JD_DEVS_DBG_CMD_READ_STACK := 0x81
    JD_DEVS_DBG_CMD_READ_INDEXED_VALUES := 0x82
    JD_DEVS_DBG_CMD_READ_NAMED_VALUES := 0x83
    JD_DEVS_DBG_CMD_READ_VALUE := 0x84
    JD_DEVS_DBG_CMD_CLEAR_BREAKPOINT := 0x91
    JD_DEVS_DBG_CMD_CLEAR_BREAKPOINTS := 0x92
    JD_DEVS_DBG_CMD_SET_BREAKPOINT := 0x90
    JD_DEVS_DBG_CMD_HALT := 0x94
    JD_DEVS_DBG_CMD_RESUME := 0x93
    JD_DEVS_DBG_CMD_RESTART_AND_HALT := 0x95
    JD_DEVS_DBG_REG_ENABLED := 1
    JD_DEVS_DBG_REG_BREAK_AT_HANDLED_EXN := 0x81
    JD_DEVS_DBG_REG_BREAK_AT_UNHANDLED_EXN := 0x80
    JD_DEVS_DBG_SUSPENSION_TYPE_HALT := 3
    JD_DEVS_DBG_SUSPENSION_TYPE_NONE := 0
    sizeof_stackframe := 12
    sizeof_value := 12
    sizeof_key_value := 16 }

/-- A handle value of the sample heap: a 64-bit pattern whose top 16 bits are set, with the
handle type in bits 32-47 and the handle value in the low 32 bits.  Every other pattern is a
number. -/
def mk_handle (tp hv : Nat) : value_t := 0xFFFF * 2 ^ 48 + tp * 2 ^ 32 + hv

/-- The null value of the sample heap. -/
def sample_null : value_t := mk_handle 1 0

/-- The number 42.0 (its IEEE bit pattern) in the sample heap. -/
def sample_42 : value_t := 0x4045000000000000

/-- A sample heap for the debugger.  Object 7 is a map with two own properties and the
prototype 9; object 8 is a half-static map with one property and the same prototype; the
fiber with handle tag 5 is at address 1.  No value is a function. -/
def sample_dbg_host : dbg_host :=
  { devs_get_fnidx := fun _ _ => (-1, 0, 0)
    devs_is_null := fun v => v == sample_null
    devs_handle_is_ptr := fun v => v / 2 ^ 48 == 0xFFFF && (v / 2 ^ 32) % 2 ^ 16 == 4
    devs_handle_type := fun v => if v / 2 ^ 48 = 0xFFFF then (v / 2 ^ 32) % 2 ^ 16 else 0
    devs_handle_value := fun v => v % 2 ^ 32
    devs_handle_is_builtin := fun hv => decide (0x40 ≤ hv)
    devs_handle_ptr_value := fun _ v => v % 2 ^ 32
    devs_value_from_gc_obj := fun _ p => mk_handle 4 p
    devs_value_from_handle := fun tp hv => mk_handle tp hv
    devs_gc_obj_valid := fun _ _ => true
    devs_is_map := fun _ p => p == 7 || p == 8 || p == 9
    devs_value_typeof := fun _ v =>
      if v = sample_null then 0 else if v / 2 ^ 48 = 0xFFFF then 11 else 3
    devs_value_to_bool := fun _ v => v != sample_null
    devs_value_to_double := fun _ v => v
    words_of_u64 := fun x => (x % 2 ^ 32, x / 2 ^ 32)
    devs_gc_tag := fun _ p => if p = 8 then 10 else 3
    array_length := fun _ _ => 0
    array_attached := fun _ _ => 0
    array_data := fun _ _ _ => sample_null
    buffer_length := fun _ _ => 0
    buffer_attached := fun _ _ => 0
    packet_payload_length := fun _ _ => 0
    activation_num_slots := fun _ _ => 0
    activation_slots := fun _ _ _ => sample_null
    activation_closure := fun _ _ => 0
    activation_fn_idx := fun _ _ => 0
    devs_object_get_attached_enum := fun _ v =>
      if v / 2 ^ 48 = 0xFFFF ∧ (v / 2 ^ 32) % 2 ^ 16 = 4 then v % 2 ^ 32 else 0
    devs_maplike_get_proto := fun _ p => if p = 7 ∨ p = 8 then 9 else 0
    devs_maplike_is_map := fun _ p => p == 7 || p == 8 || p == 9
    devs_maplike_iter_count := fun _ p => if p = 7 then 2 else if p = 8 then 1 else 0
    devs_maplike_iter_cb := fun _ p =>
      if p = 7 then (2, [(mk_handle 5 (2 ^ 14 + 3), sample_42), (mk_handle 5 (2 ^ 14 + 4), sample_null)])
      else if p = 8 then (1, [(mk_handle 5 (2 ^ 14 + 3), sample_42)])
      else (0, [])
    devs_maplike_to_value := fun _ p => mk_handle 4 p
    devs_builtin_string := fun i => mk_handle 5 (2 ^ 14 + i)
    fibers := fun _ => [1]
    fiber_handle_tag := fun _ f => if f = 1 then 5 else 0
    devs_fiber_by_tag := fun _ t => if t = 5 then 1 else 0
    fiber_activations := fun _ _ => []
    devs_img_num_roles := fun _ => 0
    role_attached := fun _ _ => 0
    num_globals := fun _ => 0
    globals := fun _ _ => sample_null
    devs_is_suspended := fun ctx => decide (ctx.suspension ≠ 0)
    service_handle_register_final := fun st _ => (0, st)
    uninit_value := { tag := 0xAA, v0 := 0xAAAAAAAA, v1 := 0xAAAAAAAA, fn_idx := 0xAAAA } }

/-- A sample context: no exception is pending (`exn_val` is null) and the fiber at address 1
has the return value 42. -/
def sample_dbg_ctx : devs_ctx :=
  { sample_ctx with
    exn_val := sample_null
    fibers := fun _ => { ret_val := sample_42 } }

/-- The `READ_VALUE` request for the return value of the fiber with handle tag `tag`. -/
def read_return_value_pkt (tag : Nat) : jd_packet_t :=
  { service_command := sample_dbg_config.JD_DEVS_DBG_CMD_READ_VALUE
    service_index := 1
    read_stack_fiber_handle := 0
    read_indexed_modifier := 0
    read_indexed_obj := 0
    read_named_obj := 0
    read_value_index := sample_dbg_config.JD_DEVS_DBG_VALUE_INDEX_RETURN_VALUE
    read_value_arg := tag
    data_u16 := 0 }

/-- A debugger world with the sample context, enabled and suspended, no pipe open. -/
def sample_world : dbg_world :=
  { state := srv_idle 1 1, ctx := some sample_dbg_ctx, pipe_cells := [], sent := [],
    not_implemented := 0 }

/-- The world after `devsdbg_open_results_pipe(cmd, elt_size, 0)`: the old pipe is stopped, a
pipe of zero elements with no buffer is open for the command of the packet. -/
def zero_pipe_world (w : dbg_world) (pkt : jd_packet_t) (elt_size : Nat) : dbg_world :=
  { w with
    state :=
      { devsdbg_stop_pipe w.state with
        pipe_elt_size := elt_size % 2 ^ 8
        pipe_num_elts := 0
        pipe_curr_elt := 0
        pipe_data := none
        results_pipe := { opened := true, accepted := [] }
        pipe_cmd := pkt.service_command % 2 ^ 8 }
    pipe_cells := [] }

/-- A debugger world without a context (`devicescriptmgr_get_ctx()` returns `NULL`). -/
def no_ctx_world : dbg_world := { sample_world with ctx := none }

/-- A service state with an open pipe of three elements of twelve bytes, none sent yet. -/
def srv_open3 : srv_state :=
  { srv_idle 1 1 with
    pipe_cmd := 128, pipe_elt_size := 12, pipe_num_elts := 3, pipe_data := some 36,
    results_pipe := { opened := true, accepted := [] } }

/-- The context `run_ctx 0` with the frames at the end of their code (`pc = maxpc = 4`). -/
def end_ctx : devs_ctx :=
  { run_ctx 0 with frames := fun _ => { pc := 4, maxpc := 4 } }

/-! ### Scenarios for the jump table, the breakpoint hit and the pump -/

/-- The table after breakpoints 5 and 37, which share a hash bucket, are set on an empty
table. -/
def brk_pair : devs_ctx := set_get sample_config 37 (set_get sample_config 5 sample_ctx)

/-- The scenario table (10, 5, 20 set on an empty table) in a heap where the word behind
the array holds 37. -/
def brk_behind_scenario : devs_ctx :=
  set_get sample_config 20 (set_get sample_config 5 (set_get sample_config 10
    { sample_ctx with brk_behind := [37] }))

/-- The scenario table (10, 5, 20 set) with every frame at program counter 5. -/
def hit_ctx : devs_ctx :=
  { brk_scenario with frames := fun _ => { pc := 5, maxpc := 38 }, curr_fn := 1 }

/-- The `while` loop of `devsdbg_process` with its trace: the final state, the number of
executions of the loop body, and the offsets `pipe_curr_elt * sz` passed to
`jd_opipe_write`, in order.  `none` when the fuel runs out. -/
def process_run (tr : Nat → jd_pipe_status) :
    Nat → srv_state → Option (srv_state × Nat × List Nat)
  | 0, _ => none
  | fuel + 1, state =>
    if state.pipe_cmd = 0 then some (state, 0, [])
    else if state.pipe_curr_elt ≥ state.pipe_num_elts then
      (process_run tr fuel (devsdbg_stop_pipe state)).map
        (fun r => (r.1, r.2.1 + 1, r.2.2))
    else
      let sz := state.pipe_elt_size
      let off := state.pipe_curr_elt * sz
      let w := jd_opipe_write tr state off sz
      match w.1 with
      | jd_pipe_status.OK =>
        (process_run tr fuel
          { w.2 with pipe_curr_elt := (w.2.pipe_curr_elt + 1) % 2 ^ 16 }).map
          (fun r => (r.1, r.2.1 + 1, off :: r.2.2))
      | jd_pipe_status.TRY_AGAIN => some (w.2, 1, [off])
      | jd_pipe_status.error _ =>
        (process_run tr fuel (devsdbg_stop_pipe w.2)).map
          (fun r => (r.1, r.2.1 + 1, off :: r.2.2))

/-! ## Lemmas on sublists -/

theorem sub_append_cons {l a b : List Nat} {p : Nat} (h : l <+ a ++ p :: b) :
    l <+ a ++ b ∨ ∃ l1 l2, l = l1 ++ p :: l2 ∧ l1 <+ a ∧ l2 <+ b := by
  rcases List.sublist_append_iff.1 h with ⟨l1, l2, rfl, h1, h2⟩
  rcases List.sublist_cons_iff.1 h2 with h3 | ⟨r, rfl, h3⟩
  · exact Or.inl (h1.append h3)
  · exact Or.inr ⟨l1, r, rfl, h1, h3⟩

theorem sub2_append_cons {x y p : Nat} {a b : List Nat} (h : [x, y] <+ a ++ p :: b) :
    [x, y] <+ a ++ b ∨ (x = p ∧ y ∈ b) ∨ (y = p ∧ x ∈ a) := by
  rcases sub_append_cons h with h | ⟨l1, l2, e, h1, h2⟩
  · exact Or.inl h
  · match l1, e, h1 with
    | [], e, _ =>
      simp at e
      obtain ⟨rfl, rfl⟩ := e
      exact Or.inr (Or.inl ⟨rfl, by simpa using h2⟩)
    | [z], e, h1 =>
      simp at e
      obtain ⟨rfl, rfl, rfl⟩ := e
      exact Or.inr (Or.inr ⟨rfl, by simpa using h1⟩)
    | _ :: _ :: _, e, _ => simp at e

theorem sub3_append_cons {x c y p : Nat} {a b : List Nat} (h : [x, c, y] <+ a ++ p :: b) :
    [x, c, y] <+ a ++ b ∨ (x = p ∧ [c, y] <+ b) ∨ (c = p ∧ x ∈ a ∧ y ∈ b) ∨
      (y = p ∧ [x, c] <+ a) := by
  rcases sub_append_cons h with h | ⟨l1, l2, e, h1, h2⟩
  · exact Or.inl h
  · match l1, e, h1 with
    | [], e, _ =>
      simp at e
      obtain ⟨rfl, rfl⟩ := e
      exact Or.inr (Or.inl ⟨rfl, h2⟩)
    | [z], e, h1 =>
      simp at e
      obtain ⟨rfl, rfl, rfl⟩ := e
      exact Or.inr (Or.inr (Or.inl ⟨rfl, by simpa using h1, by simpa using h2⟩))
    | [z, w], e, h1 =>
      simp at e
      obtain ⟨rfl, rfl, rfl, rfl⟩ := e
      exact Or.inr (Or.inr (Or.inr ⟨rfl, h1⟩))
    | _ :: _ :: _ :: _, e, _ => simp at e

theorem sub2_of_mem {x y : Nat} {a b : List Nat} (hx : x ∈ a) (hy : y ∈ b) :
    [x, y] <+ a ++ b := by
  have h1 : [x] <+ a := by simpa using hx
  have h2 : [y] <+ b := by simpa using hy
  simpa using h1.append h2

theorem sub3_of_mem_sub {x c y : Nat} {a b : List Nat} (hx : x ∈ a) (hy : [c, y] <+ b) :
    [x, c, y] <+ a ++ b := by
  have h1 : [x] <+ a := by simpa using hx
  simpa using h1.append hy

theorem sub2_mem_right {x y : Nat} {l : List Nat} (h : [x, y] <+ l) : y ∈ l := by
  have : [y] <+ [x, y] := by simp
  simpa using this.trans h

theorem sub2_mem_left {x y : Nat} {l : List Nat} (h : [x, y] <+ l) : x ∈ l := by
  have : [x] <+ [x, y] := by simp
  simpa using this.trans h

theorem sub2_append_left {x c : Nat} {a0 a1 : List Nat} (h : [x, c] <+ a0 ++ a1) :
    x ∈ a0 ∨ [x, c] <+ a1 := by
  rcases List.sublist_append_iff.1 h with ⟨l1, l2, e, h1, h2⟩
  match l1, e, h1 with
  | [], e, _ =>
    simp at e
    subst e
    exact Or.inr h2
  | z :: r, e, h1 =>
    simp at e
    obtain ⟨rfl, -⟩ := e
    have : [x] <+ x :: r := by simp
    exact Or.inl (by simpa using this.trans h1)

theorem sub2_cons_tail {c y b0 : Nat} {b : List Nat} (h : [c, y] <+ b0 :: b) : y ∈ b := by
  rcases List.sublist_cons_iff.1 h with h | ⟨r, e, h⟩
  · exact sub2_mem_right h
  · simp at e
    obtain ⟨-, rfl⟩ := e
    simpa using h

/-! ## The insertion loop keeps the buckets contiguous and ascending -/

/-- In a list `a0 ++ a1 ++ b0 :: b` where `a1` is the part of bucket `h` scanned so far and
the scan stopped at `b0`, a later entry of bucket `h` forces `b0` into bucket `h`. -/
theorem brk_stop_in_bucket (cfg : devs_config) {a0 a1 b : List Nat} {b0 y pc : Nat}
    (hc : brk_contig cfg (a0 ++ a1 ++ b0 :: b))
    (h1 : ∀ x ∈ a1, brk_hash cfg x = brk_hash cfg pc ∧ x < pc)
    (hb : a1 = [] → brk_hash cfg b0 = brk_hash cfg pc)
    (hy : y ∈ b) (hyh : brk_hash cfg y = brk_hash cfg pc) :
    brk_hash cfg b0 = brk_hash cfg pc := by
  cases a1 with
  | nil => exact hb rfl
  | cons z r =>
    have hz := (h1 z (by simp)).1
    have hs : [z, b0, y] <+ a0 ++ z :: r ++ b0 :: b := by
      have e1 : [z] <+ a0 ++ z :: r := by simp
      have e2 : [b0, y] <+ b0 :: b := by simpa using hy
      simpa using e1.append e2
    have := hc z b0 y hs (by rw [hz, hyh])
    rw [this, hz]

theorem brk_order_insert (cfg : devs_config) {a0 a1 b : List Nat} {pc : Nat}
    (hc : brk_contig cfg (a0 ++ a1 ++ b)) (ha : brk_asc cfg (a0 ++ a1 ++ b))
    (h0 : ∀ x ∈ a0, brk_hash cfg x ≠ brk_hash cfg pc)
    (h1 : ∀ x ∈ a1, brk_hash cfg x = brk_hash cfg pc ∧ x < pc)
    (hb : ∀ b0 ∈ b.head?, (brk_hash cfg b0 = brk_hash cfg pc → pc < b0) ∧
      (a1 = [] → brk_hash cfg b0 = brk_hash cfg pc)) :
    brk_contig cfg (a0 ++ a1 ++ pc :: b) ∧ brk_asc cfg (a0 ++ a1 ++ pc :: b) := by
  constructor
  · intro x c y hs he
    rcases sub3_append_cons hs with h | ⟨rfl, h⟩ | ⟨rfl, hx, hy⟩ | ⟨rfl, h⟩
    · exact hc x c y h he
    · -- the new entry comes first
      cases b with
      | nil => simp at h
      | cons b0 b =>
        have hb0 := hb b0 (by simp)
        have hyb : y ∈ b := sub2_cons_tail h
        have hb0h := brk_stop_in_bucket cfg hc h1 hb0.2 hyb he.symm
        rcases List.sublist_cons_iff.1 h with h2 | ⟨r, e, -⟩
        · have hs2 : [b0, c, y] <+ a0 ++ a1 ++ b0 :: b := by
            have e2 : [b0, c, y] <+ b0 :: b := by simpa using h2
            exact e2.trans (List.sublist_append_right _ _)
          have := hc b0 c y hs2 (by rw [hb0h, he])
          rw [this, hb0h]
        · simp at e
          rw [e.1, hb0h]
    · -- the new entry is in the middle
      by_contra hne
      have hx0 : x ∈ a0 := by
        rcases List.mem_append.1 hx with h | h
        · exact h
        · exact absurd (h1 x h).1.symm hne
      have hxh := h0 x hx0
      cases b with
      | nil => simp at hy
      | cons b0 b =>
        have hb0 := hb b0 (by simp)
        cases a1 with
        | nil =>
          have hb0h := hb0.2 rfl
          rcases List.mem_cons.1 hy with rfl | hy2
          · exact hxh (he.trans hb0h)
          · have hs2 : [x, b0, y] <+ a0 ++ [] ++ b0 :: b := by
              have e2 : [b0, y] <+ b0 :: b := by simpa using hy2
              simpa using sub3_of_mem_sub hx0 e2
            have := hc x b0 y hs2 he
            exact hxh (this.symm.trans hb0h)
        | cons z r =>
          have hz := (h1 z (by simp)).1
          have hs2 : [x, z, y] <+ a0 ++ z :: r ++ b0 :: b := by
            have e1 : [x, z] <+ a0 ++ z :: r := sub2_of_mem hx0 (by simp)
            have e2 : [y] <+ b0 :: b := by simpa using hy
            simpa using e1.append e2
          have := hc x z y hs2 he
          exact hxh (this.symm.trans hz)
    · -- the new entry comes last
      rcases sub2_append_left h with hx0 | h2
      · exact absurd he (h0 x hx0)
      · rw [(h1 c (sub2_mem_right h2)).1, he]
  · intro x y hs he
    rcases sub2_append_cons hs with h | ⟨rfl, hy⟩ | ⟨rfl, hx⟩
    · exact ha x y h he
    · cases b with
      | nil => simp at hy
      | cons b0 b =>
        have hb0 := hb b0 (by simp)
        rcases List.mem_cons.1 hy with rfl | hy2
        · exact hb0.1 he.symm
        · have hb0h := brk_stop_in_bucket cfg hc h1 hb0.2 hy2 he.symm
          have hs2 : [b0, y] <+ a0 ++ a1 ++ b0 :: b := by
            have e2 : [b0, y] <+ b0 :: b := by simpa using hy2
            exact e2.trans (List.sublist_append_right _ _)
          have := ha b0 y hs2 (by rw [hb0h, he])
          exact lt_trans (hb0.1 hb0h) this
    · rcases List.mem_append.1 hx with h | h
      · exact absurd he (h0 x h)
      · exact (h1 x h).2

/-! ## What the insertion loop computes -/

theorem dropLast_zero_tail (x : Nat) (rest : List Nat) (k : Nat) :
    (x :: (rest ++ List.replicate (k + 1) 0)).dropLast = x :: (rest ++ List.replicate k 0) := by
  rw [List.replicate_succ', ← List.append_assoc, ← List.cons_append, List.dropLast_concat]

/-- The loop entered inside the bucket of `pc` (`was_in_section` set). -/
theorem brk_insert_in_section (cfg : devs_config) (pc k : Nat) :
    ∀ live : List Nat, (∀ x ∈ live, x ≠ 0) →
      (brk_insert cfg pc true (live ++ List.replicate (k + 1) 0) = none ∧ pc ∈ live) ∨
      ∃ a b, live = a ++ b ∧
        brk_insert cfg pc true (live ++ List.replicate (k + 1) 0)
          = some (a ++ pc :: b ++ List.replicate k 0) ∧
        (∀ x ∈ a, brk_hash cfg x = brk_hash cfg pc ∧ x < pc) ∧
        (∀ b0 ∈ b.head?, brk_hash cfg b0 = brk_hash cfg pc → pc < b0) := by
  intro live
  induction live with
  | nil =>
    intro _
    refine Or.inr ⟨[], [], rfl, ?_, by simp, by simp⟩
    simp [List.replicate_succ, brk_insert]
  | cons x rest ih =>
    intro hnz
    have hx : x ≠ 0 := hnz x (by simp)
    have hrest : ∀ y ∈ rest, y ≠ 0 := fun y hy => hnz y (by simp [hy])
    by_cases hin : brk_hash cfg x = brk_hash cfg pc
    · by_cases hle : pc ≤ x
      · by_cases hxp : x = pc
        · left
          simp [brk_insert, hx, hin, hle, hxp]
          intro h
          omega
        · right
          refine ⟨[], x :: rest, rfl, ?_, by simp, ?_⟩
          · have := dropLast_zero_tail x rest k
            simp [brk_insert, hx, hin, hle, hxp, this]
          · intro b0 hb0 _
            simp at hb0
            omega
      · rcases ih hrest with ⟨h1, h2⟩ | ⟨a, b, e, h1, h2, h3⟩
        · left
          simp [brk_insert, hx, hin, hle, h1, h2]
        · right
          refine ⟨x :: a, b, by simp [e], ?_, ?_, h3⟩
          · simp [brk_insert, hx, hin, hle, h1]
          · intro y hy
            rcases List.mem_cons.1 hy with rfl | hy
            · exact ⟨hin, by omega⟩
            · exact h2 y hy
    · by_cases hxp : x = pc
      · exact absurd (by rw [hxp]) hin
      · right
        refine ⟨[], x :: rest, rfl, ?_, by simp, ?_⟩
        · have := dropLast_zero_tail x rest k
          simp [brk_insert, hx, hin, hxp, this]
        · intro b0 hb0 hh
          simp at hb0
          subst hb0
          exact absurd hh hin

/-- The loop as `devs_vm_set_breakpoint` starts it (`was_in_section` clear) on an array of
nonzero entries `live` followed by at least one zero slot: either `pc` is found (exit
`return 0`), or `pc` is put between a scanned part `a0 ++ a1` and the rest `b`. -/
theorem brk_insert_spec (cfg : devs_config) (pc k : Nat) :
    ∀ live : List Nat, (∀ x ∈ live, x ≠ 0) →
      (brk_insert cfg pc false (live ++ List.replicate (k + 1) 0) = none ∧ pc ∈ live) ∨
      ∃ a0 a1 b, live = a0 ++ a1 ++ b ∧
        brk_insert cfg pc false (live ++ List.replicate (k + 1) 0)
          = some (a0 ++ a1 ++ pc :: b ++ List.replicate k 0) ∧
        (∀ x ∈ a0, brk_hash cfg x ≠ brk_hash cfg pc) ∧
        (∀ x ∈ a1, brk_hash cfg x = brk_hash cfg pc ∧ x < pc) ∧
        (∀ b0 ∈ b.head?, (brk_hash cfg b0 = brk_hash cfg pc → pc < b0) ∧
          (a1 = [] → brk_hash cfg b0 = brk_hash cfg pc)) := by
  intro live
  induction live with
  | nil =>
    intro _
    refine Or.inr ⟨[], [], [], rfl, ?_, by simp, by simp, by simp⟩
    simp [List.replicate_succ, brk_insert]
  | cons x rest ih =>
    intro hnz
    have hx : x ≠ 0 := hnz x (by simp)
    have hrest : ∀ y ∈ rest, y ≠ 0 := fun y hy => hnz y (by simp [hy])
    by_cases hin : brk_hash cfg x = brk_hash cfg pc
    · by_cases hle : pc ≤ x
      · by_cases hxp : x = pc
        · left
          simp [brk_insert, hx, hin, hle, hxp]
          intro h
          omega
        · right
          refine ⟨[], [], x :: rest, rfl, ?_, by simp, by simp, ?_⟩
          · have := dropLast_zero_tail x rest k
            simp [brk_insert, hx, hin, hle, hxp, this]
          · intro b0 hb0
            simp at hb0
            subst hb0
            exact ⟨fun _ => by omega, fun _ => hin⟩
      · rcases brk_insert_in_section cfg pc k rest hrest with ⟨h1, h2⟩ | ⟨a, b, e, h1, h2, h3⟩
        · left
          simp [brk_insert, hx, hin, hle, h1, h2]
        · right
          refine ⟨[], x :: a, b, by simp [e], ?_, by simp, ?_, ?_⟩
          · simp [brk_insert, hx, hin, hle, h1]
          · intro y hy
            rcases List.mem_cons.1 hy with rfl | hy
            · exact ⟨hin, by omega⟩
            · exact h2 y hy
          · intro b0 hb0
            exact ⟨h3 b0 hb0, fun h => by simp at h⟩
    · have hbq : (brk_hash cfg x == brk_hash cfg pc) = false := by simp [hin]
      rcases ih hrest with ⟨h1, h2⟩ | ⟨a0, a1, b, e, h1, h2, h3, h4⟩
      · left
        simp [brk_insert, hx, hin, hbq, h1, h2]
      · right
        refine ⟨x :: a0, a1, b, by simp [e], ?_, ?_, h3, h4⟩
        · simp [brk_insert, hx, hin, hbq, h1]
        · intro y hy
          rcases List.mem_cons.1 hy with rfl | hy
          · exact hin
          · exact h2 y hy

/-! ## The growth step and the whole of `devs_vm_set_breakpoint` -/

theorem brk_last_slot (l : List Nat) : l.getD (l.length - 1) 0 = l.getLast?.getD 0 := by
  rw [List.getD_eq_getElem?_getD, List.getLast?_eq_getElem?]

theorem brk_live_eq (ctx : devs_ctx) (live : List Nat) (k : Nat)
    (hl : ctx.brk_list = live ++ List.replicate k 0) (hnz : ∀ x ∈ live, x ≠ 0) :
    brk_live ctx = live := by
  unfold brk_live
  rw [hl, List.filter_append]
  have h1 : List.filter (fun x => decide (x ≠ 0)) live = live := by
    rw [List.filter_eq_self]
    intro x hx
    simpa using hnz x hx
  have h2 : List.filter (fun x => decide (x ≠ 0)) (List.replicate k 0) = [] := by
    rw [List.filter_eq_nil_iff]
    intro x hx
    simp [List.eq_of_mem_replicate hx]
  rw [h1, h2, List.append_nil]

/-- The growth step on an array of nonzero entries followed by `k` zero slots: it fails
exactly when there is no zero slot and the array has `DEVS_BRK_MAX_COUNT` slots or more;
otherwise the array afterwards has the same entries and at least one zero slot. -/
theorem brk_grow_spec (cfg : devs_config) (live : List Nat) (k : Nat)
    (hnz : ∀ x ∈ live, x ≠ 0) :
    (k = 0 ∧ cfg.DEVS_BRK_MAX_COUNT ≤ live.length ∧
      brk_grow cfg (live ++ List.replicate k 0) = none) ∨
    (¬ (k = 0 ∧ cfg.DEVS_BRK_MAX_COUNT ≤ live.length) ∧
      ∃ k2, brk_grow cfg (live ++ List.replicate k 0) = some (live ++ List.replicate (k2 + 1) 0) ∧
        (live.length + (k2 + 1) = live.length + k ∨
          live.length + (k2 + 1) ≤ cfg.DEVS_BRK_MAX_COUNT)) := by
  cases k with
  | zero =>
    have hcond : live.length = 0 ∨ live.getD (live.length - 1) 0 ≠ 0 := by
      cases hlast : live.getLast? with
      | none =>
        left
        simpa using hlast
      | some z =>
        right
        rw [brk_last_slot, hlast]
        exact hnz z (List.mem_of_getLast?_eq_some hlast)
    by_cases hmax : cfg.DEVS_BRK_MAX_COUNT ≤ live.length
    · left
      refine ⟨rfl, hmax, ?_⟩
      simp only [brk_grow, List.replicate_zero, List.append_nil]
      rw [if_pos hcond, if_pos hmax]
    · right
      refine ⟨fun h => hmax h.2, ?_⟩
      by_cases hbig : live.length * 2 + 8 > cfg.DEVS_BRK_MAX_COUNT
      · refine ⟨cfg.DEVS_BRK_MAX_COUNT - live.length - 1, ?_, Or.inr (by omega)⟩
        simp only [brk_grow, List.replicate_zero, List.append_nil]
        rw [if_pos hcond, if_neg hmax, if_pos hbig]
        have : cfg.DEVS_BRK_MAX_COUNT - live.length
            = cfg.DEVS_BRK_MAX_COUNT - live.length - 1 + 1 := by omega
        rw [← this]
      · refine ⟨live.length + 7, ?_, Or.inr (by omega)⟩
        simp only [brk_grow, List.replicate_zero, List.append_nil]
        rw [if_pos hcond, if_neg hmax, if_neg hbig]
        have : live.length * 2 + 8 - live.length = live.length + 7 + 1 := by omega
        rw [this]
  | succ k =>
    right
    refine ⟨by simp, k, ?_, Or.inl rfl⟩
    have hcond : ¬ ((live ++ List.replicate (k + 1) 0).length = 0 ∨
        (live ++ List.replicate (k + 1) 0).getD
          ((live ++ List.replicate (k + 1) 0).length - 1) 0 ≠ 0) := by
      rw [brk_last_slot]
      have : (live ++ List.replicate (k + 1) 0).getLast? = some 0 := by
        rw [List.replicate_succ', ← List.append_assoc, List.getLast?_concat]
      rw [this]
      simp
    simp only [brk_grow]
    rw [if_neg hcond]

/-- With contiguous ascending buckets the loop finds a breakpoint that is present. -/
theorem brk_insert_found (cfg : devs_config) (pc k : Nat) (live : List Nat)
    (hnz : ∀ x ∈ live, x ≠ 0) (hc : brk_contig cfg live) (ha : brk_asc cfg live)
    (hmem : pc ∈ live) :
    brk_insert cfg pc false (live ++ List.replicate (k + 1) 0) = none := by
  rcases brk_insert_spec cfg pc k live hnz with ⟨h, -⟩ | ⟨a0, a1, b, e, -, h0, h1, hb⟩
  · exact h
  · exfalso
    subst e
    rcases List.mem_append.1 hmem with hm | hm
    · rcases List.mem_append.1 hm with hm | hm
      · exact h0 pc hm rfl
      · exact absurd (h1 pc hm).2 (lt_irrefl _)
    · cases b with
      | nil => simp at hm
      | cons b0 b =>
        have hb0 := hb b0 (by simp)
        rcases List.mem_cons.1 hm with rfl | hm2
        · have := hb0.2
          cases a1 with
          | nil => exact absurd (hb0.1 (this rfl)) (lt_irrefl _)
          | cons z r =>
            have hz := h1 z (by simp)
            have hs : [z, pc] <+ a0 ++ z :: r ++ pc :: b :=
              sub2_of_mem (by simp) (by simp)
            have := ha z pc hs hz.1
            omega
        · have hb0h := brk_stop_in_bucket cfg hc h1 hb0.2 hm2 rfl
          have hs : [b0, pc] <+ a0 ++ a1 ++ b0 :: b := by
            have e2 : [b0, pc] <+ b0 :: b := by simpa using hm2
            exact e2.trans (List.sublist_append_right _ _)
          have h3 := ha b0 pc hs hb0h
          have h4 := hb0.1 hb0h
          omega

/-- What `devs_vm_set_breakpoint` does on a well-formed array, for a nonzero `pc` that fits
`devs_pc_t`: capacity exhausted, already present, or inserted. -/
theorem set_breakpoint_spec (cfg : devs_config) (ctx : devs_ctx) (pc : Nat)
    (live : List Nat) (k : Nat)
    (hl : ctx.brk_list = live ++ List.replicate k 0) (hnz : ∀ x ∈ live, x ≠ 0)
    (hc : brk_contig cfg live) (ha : brk_asc cfg live)
    (hpc : pc ≠ 0) (hfit : pc % 2 ^ cfg.devs_pc_bits = pc) :
    (k = 0 ∧ cfg.DEVS_BRK_MAX_COUNT ≤ live.length ∧
      devs_vm_set_breakpoint cfg ctx pc = some (-1, ctx)) ∨
    (¬ (k = 0 ∧ cfg.DEVS_BRK_MAX_COUNT ≤ live.length) ∧ pc ∈ live ∧
      ∃ k2, devs_vm_set_breakpoint cfg ctx pc
          = some (0, { ctx with brk_list := live ++ List.replicate (k2 + 1) 0 }) ∧
        (live.length + (k2 + 1) = live.length + k ∨
          live.length + (k2 + 1) ≤ cfg.DEVS_BRK_MAX_COUNT)) ∨
    (¬ (k = 0 ∧ cfg.DEVS_BRK_MAX_COUNT ≤ live.length) ∧ pc ∉ live ∧
      ∃ a b k2, live = a ++ b ∧
        devs_vm_set_breakpoint cfg ctx pc
          = some (1, recompute_brk_jump_tbl cfg
              { ctx with brk_list := a ++ pc :: b ++ List.replicate k2 0 }) ∧
        brk_contig cfg (a ++ pc :: b) ∧ brk_asc cfg (a ++ pc :: b) ∧
        (live.length + (k2 + 1) = live.length + k ∨
          live.length + (k2 + 1) ≤ cfg.DEVS_BRK_MAX_COUNT)) := by
  rcases brk_grow_spec cfg live k hnz with ⟨hk, hmax, hg⟩ | ⟨hno, k2, hg, hlen⟩
  · left
    refine ⟨hk, hmax, ?_⟩
    simp [devs_vm_set_breakpoint, hfit, hpc, hl, hg]
  · right
    by_cases hmem : pc ∈ live
    · left
      refine ⟨hno, hmem, k2, ?_, hlen⟩
      have hi := brk_insert_found cfg pc k2 live hnz hc ha hmem
      simp [devs_vm_set_breakpoint, hfit, hpc, hl, hg, hi]
    · right
      rcases brk_insert_spec cfg pc k2 live hnz with ⟨-, h⟩ | ⟨a0, a1, b, e, hi, h0, h1, hb⟩
      · exact absurd h hmem
      · have hord := brk_order_insert cfg (e ▸ hc) (e ▸ ha) h0 h1 hb
        refine ⟨hno, hmem, a0 ++ a1, b, k2, e, ?_, hord.1, hord.2, hlen⟩
        simp [devs_vm_set_breakpoint, hfit, hpc, hl, hg, hi]

/-! ## Removal -/

theorem brk_remove_zeros (pc k : Nat) (hpc : pc ≠ 0) :
    brk_remove pc (List.replicate k 0) = none := by
  induction k with
  | zero => rfl
  | succ k ih =>
    have : (0 : Nat) ≠ pc := fun h => hpc h.symm
    simp [List.replicate_succ, brk_remove, this, ih]

/-- The removal loop on a well-formed array: the first slot holding `pc` is taken out and a
zero slot is added at the end. -/
theorem brk_remove_spec (pc k : Nat) (hpc : pc ≠ 0) :
    ∀ live : List Nat,
      (pc ∉ live ∧ brk_remove pc (live ++ List.replicate k 0) = none) ∨
      ∃ a b, live = a ++ pc :: b ∧ pc ∉ a ∧
        brk_remove pc (live ++ List.replicate k 0)
          = some (a ++ b ++ List.replicate (k + 1) 0) := by
  intro live
  induction live with
  | nil =>
    left
    exact ⟨by simp, by simpa using brk_remove_zeros pc k hpc⟩
  | cons x rest ih =>
    by_cases hx : x = pc
    · right
      refine ⟨[], rest, by simp [hx], by simp, ?_⟩
      simp [brk_remove, hx, List.replicate_succ']
    · rcases ih with ⟨h1, h2⟩ | ⟨a, b, e, h1, h2⟩
      · left
        refine ⟨?_, ?_⟩
        · simp only [List.mem_cons, not_or]
          exact ⟨fun h => hx h.symm, h1⟩
        · simp [brk_remove, hx, h2]
      · right
        refine ⟨x :: a, b, by simp [e], ?_, ?_⟩
        · simp only [List.mem_cons, not_or]
          exact ⟨fun h => hx h.symm, h1⟩
        · simp [brk_remove, hx, h2]

theorem brk_contig_sublist (cfg : devs_config) {l l2 : List Nat} (h : l2 <+ l)
    (hc : brk_contig cfg l) : brk_contig cfg l2 :=
  fun a c b hs he => hc a c b (hs.trans h) he

theorem brk_asc_sublist (cfg : devs_config) {l l2 : List Nat} (h : l2 <+ l)
    (ha : brk_asc cfg l) : brk_asc cfg l2 :=
  fun a b hs he => ha a b (hs.trans h) he

/-- What `devs_vm_clear_breakpoint` does on a well-formed array. -/
theorem clear_breakpoint_spec (cfg : devs_config) (ctx : devs_ctx) (pc : Nat)
    (live : List Nat) (k : Nat)
    (hl : ctx.brk_list = live ++ List.replicate k 0)
    (hpc : pc ≠ 0) (hfit : pc % 2 ^ cfg.devs_pc_bits = pc) :
    (pc ∉ live ∧ devs_vm_clear_breakpoint cfg ctx pc = some (false, ctx)) ∨
    ∃ a b, live = a ++ pc :: b ∧ pc ∉ a ∧
      devs_vm_clear_breakpoint cfg ctx pc
        = some (true, recompute_brk_jump_tbl cfg
            { ctx with brk_list := a ++ b ++ List.replicate (k + 1) 0 }) := by
  rcases brk_remove_spec pc k hpc live with ⟨h1, h2⟩ | ⟨a, b, e, h1, h2⟩
  · left
    refine ⟨h1, ?_⟩
    simp [devs_vm_clear_breakpoint, hpc, hfit, hl, h2]
  · right
    refine ⟨a, b, e, h1, ?_⟩
    simp [devs_vm_clear_breakpoint, hpc, hfit, hl, h2]

/-! ## The invariant of reachable breakpoint tables -/

theorem brk_inv_empty (cfg : devs_config) : brk_inv cfg [] :=
  ⟨[], 0, rfl, by simp, fun _ _ _ h => by simp at h, fun _ _ h => by simp at h⟩

/-- Every reachable table is well formed and has at most `DEVS_BRK_MAX_COUNT` slots. -/
theorem brk_reachable_inv (cfg : devs_config) (ctx : devs_ctx) (h : brk_reachable cfg ctx) :
    brk_inv cfg ctx.brk_list ∧ ctx.brk_list.length ≤ cfg.DEVS_BRK_MAX_COUNT := by
  induction h with
  | empty ctx h1 _ =>
    rw [h1]
    exact ⟨brk_inv_empty cfg, Nat.zero_le _⟩
  | set ctx ctx2 pc r _ hs ih =>
    obtain ⟨⟨live, k, hl, hnz, hc, ha⟩, hlen⟩ := ih
    by_cases hfit : pc % 2 ^ cfg.devs_pc_bits = pc
    · by_cases hpc : pc = 0
      · simp [devs_vm_set_breakpoint, hpc] at hs
        rw [← hs.2]
        exact ⟨⟨live, k, hl, hnz, hc, ha⟩, hlen⟩
      · rw [hl] at hlen
        rcases set_breakpoint_spec cfg ctx pc live k hl hnz hc ha hpc hfit with
          ⟨-, -, e⟩ | ⟨-, -, k2, e, hk⟩ | ⟨-, -, a, b, k2, e1, e, hc2, ha2, hk⟩
        · rw [e] at hs
          simp at hs
          rw [← hs.2, hl]
          exact ⟨⟨live, k, rfl, hnz, hc, ha⟩, hlen⟩
        · rw [e] at hs
          simp at hs
          rw [← hs.2]
          refine ⟨⟨live, k2 + 1, rfl, hnz, hc, ha⟩, ?_⟩
          simp only [List.length_append, List.length_replicate] at hlen ⊢
          omega
        · rw [e] at hs
          simp at hs
          rw [← hs.2]
          refine ⟨⟨a ++ pc :: b, k2, ?_, ?_, hc2, ha2⟩, ?_⟩
          · simp [recompute_brk_jump_tbl]
          · intro x hx
            rcases List.mem_append.1 hx with hx | hx
            · exact hnz x (by rw [e1]; exact List.mem_append_left _ hx)
            · rcases List.mem_cons.1 hx with rfl | hx
              · exact hpc
              · exact hnz x (by rw [e1]; exact List.mem_append_right _ hx)
          · have : live.length = a.length + b.length := by rw [e1]; simp
            simp only [recompute_brk_jump_tbl, List.length_append, List.length_replicate,
              List.length_cons] at hlen ⊢
            omega
    · simp [devs_vm_set_breakpoint, hfit] at hs
  | clear ctx ctx2 pc r _ hs ih =>
    obtain ⟨⟨live, k, hl, hnz, hc, ha⟩, hlen⟩ := ih
    by_cases hpc : pc = 0
    · simp [devs_vm_clear_breakpoint, hpc] at hs
      rw [← hs.2]
      exact ⟨⟨live, k, hl, hnz, hc, ha⟩, hlen⟩
    · by_cases hfit : pc % 2 ^ cfg.devs_pc_bits = pc
      · rw [hl] at hlen
        rcases clear_breakpoint_spec cfg ctx pc live k hl hpc hfit with
          ⟨-, e⟩ | ⟨a, b, e1, -, e⟩
        · rw [e] at hs
          simp at hs
          rw [← hs.2, hl]
          exact ⟨⟨live, k, rfl, hnz, hc, ha⟩, hlen⟩
        · rw [e] at hs
          simp at hs
          rw [← hs.2]
          have hsub : a ++ b <+ live := by
            rw [e1]
            exact List.Sublist.append (List.Sublist.refl a) (List.sublist_cons_self pc b)
          refine ⟨⟨a ++ b, k + 1, by simp [recompute_brk_jump_tbl], ?_,
            brk_contig_sublist cfg hsub hc, brk_asc_sublist cfg hsub ha⟩, ?_⟩
          · intro x hx
            exact hnz x (hsub.subset hx)
          · have : live.length = a.length + b.length + 1 := by rw [e1]; simp; omega
            simp only [recompute_brk_jump_tbl, List.length_append, List.length_replicate] at hlen ⊢
            omega
      · simp [devs_vm_clear_breakpoint, hpc, hfit] at hs
  | clear_all ctx _ _ =>
    exact ⟨brk_inv_empty cfg, Nat.zero_le _⟩

theorem idx2_sublist (l : List Nat) (i j : Nat) (hij : i < j) (hj : j < l.length) :
    [l.getD i 0, l.getD j 0] <+ l := by
  have hi : i < l.length := lt_trans hij hj
  have h := @List.map_getElem_sublist _ l [⟨i, hi⟩, ⟨j, hj⟩] (by simp [hij])
  rw [List.getD_eq_getElem _ _ hi, List.getD_eq_getElem _ _ hj]
  simpa using h

theorem idx3_sublist (l : List Nat) (i j k : Nat) (hij : i < j) (hjk : j < k)
    (hk : k < l.length) : [l.getD i 0, l.getD j 0, l.getD k 0] <+ l := by
  have hj : j < l.length := lt_trans hjk hk
  have hi : i < l.length := lt_trans hij hj
  have h := @List.map_getElem_sublist _ l [⟨i, hi⟩, ⟨j, hj⟩, ⟨k, hk⟩]
    (by simp [hij, hjk, lt_trans hij hjk])
  rw [List.getD_eq_getElem _ _ hi, List.getD_eq_getElem _ _ hj, List.getD_eq_getElem _ _ hk]
  simpa using h

/-- A sublist of a well-formed array that ends in a nonzero entry lies in the live part. -/
theorem sub_live_of_last_ne_zero {live : List Nat} {k : Nat} {p : List Nat} {y : Nat}
    (h : p ++ [y] <+ live ++ List.replicate k 0) (hy : y ≠ 0) : p ++ [y] <+ live := by
  rcases List.sublist_append_iff.1 h with ⟨l1, l2, e, h1, h2⟩
  cases hl2 : l2.getLast? with
  | none =>
    have : l2 = [] := by simpa using hl2
    subst this
    simp at e
    rw [e]
    exact h1
  | some z =>
    exfalso
    have hz : z ∈ l2 := List.mem_of_getLast?_eq_some hl2
    have hz0 : z = 0 := List.eq_of_mem_replicate (h2.subset hz)
    have : (p ++ [y]).getLast? = some z := by
      rw [e, List.getLast?_append, hl2]
      simp
    simp at this
    exact hy (this.trans hz0)

theorem brk_reachable_set_get (cfg : devs_config) (pc : Nat) (ctx : devs_ctx)
    (h : brk_reachable cfg ctx) : brk_reachable cfg (set_get cfg pc ctx) := by
  unfold set_get
  cases hs : devs_vm_set_breakpoint cfg ctx pc with
  | none => exact h
  | some p => exact brk_reachable.set ctx p.2 pc p.1 h hs

theorem brk_reachable_clear_get (cfg : devs_config) (pc : Nat) (ctx : devs_ctx)
    (h : brk_reachable cfg ctx) : brk_reachable cfg (clear_get cfg pc ctx) := by
  unfold clear_get
  cases hs : devs_vm_clear_breakpoint cfg ctx pc with
  | none => exact h
  | some p => exact brk_reachable.clear ctx p.2 pc p.1 h hs

theorem brk_reachable_sample : brk_reachable sample_config sample_ctx :=
  brk_reachable.empty sample_ctx rfl rfl

theorem brk_reachable_scenario : brk_reachable sample_config brk_scenario :=
  brk_reachable_set_get _ _ _ (brk_reachable_set_get _ _ _
    (brk_reachable_set_get _ _ _ brk_reachable_sample))

theorem brk_reachable_full : brk_reachable sample_config brk_full :=
  brk_reachable_set_get _ _ _ (brk_reachable_set_get _ _ _ (brk_reachable_set_get _ _ _
    (brk_reachable_set_get _ _ _ (brk_reachable_set_get _ _ _ (brk_reachable_set_get _ _ _
      (brk_reachable_set_get _ _ _ (brk_reachable_set_get _ _ _ brk_reachable_sample)))))))

/-! ## Claims on the breakpoint table -/

/-- C1 (evaluation of the code on the scenario of the spec).  After breakpoints 10, 5 and 20
are set on an empty table the three are live, but the check at program counter 10 returns
false: the entry sits in slot 0, and a jump-table value of 0 means an empty bucket.  The
checks at 5 and 20 hit, the check at 7 does not, the check at 37 (bucket of 5, not set) scans
over the zero slots and reads past the end of the array; after 5 is cleared the check at
20 hits and the check at 10 still does not. -/
theorem chk_brk_misses_slot_zero :
    brk_live brk_scenario = [10, 5, 20] ∧
    chk_at sample_config 10 brk_scenario = some false ∧
    chk_at sample_config 5 brk_scenario = some true ∧
    chk_at sample_config 20 brk_scenario = some true ∧
    chk_at sample_config 7 brk_scenario = some false ∧
    chk_at sample_config 37 brk_scenario = none ∧
    brk_live (clear_get sample_config 5 brk_scenario) = [10, 20] ∧
    chk_at sample_config 5 (clear_get sample_config 5 brk_scenario) = some false ∧
    chk_at sample_config 10 (clear_get sample_config 5 brk_scenario) = some false ∧
    chk_at sample_config 20 (clear_get sample_config 5 brk_scenario) = some true := by
  decide

theorem recompute_loop_zeros (cfg : devs_config) (k i : Nat) (tbl : List Nat) :
    recompute_loop cfg i (List.replicate k 0) tbl = tbl := by
  induction k generalizing i with
  | zero => rfl
  | succ k ih => simp [List.replicate_succ, recompute_loop, ih]

theorem chk_brk_zero_table (cfg : devs_config) (c : devs_ctx) (frame : devs_activation)
    (h : c.brk_jump_tbl = List.replicate cfg.DEVS_BRK_HASH_SIZE 0) :
    devs_vm_chk_brk cfg c frame = some (chk_brk_result.returned_false c) := by
  have hz : (List.replicate cfg.DEVS_BRK_HASH_SIZE 0).getD (brk_hash cfg frame.pc) 0 = 0 := by
    rw [List.getD_eq_getElem?_getD, List.getElem?_replicate]
    split <;> rfl
  unfold devs_vm_chk_brk
  simp only [h, hz]
  simp

/-- The first breakpoint set on an empty table is never hit, for all values of the
constants: `devs_vm_set_breakpoint` returns 1 and the program counter is live, but the jump
table is left all zero and `devs_vm_chk_brk` returns false at that program counter. -/
theorem first_breakpoint_never_hit (cfg : devs_config) (ctx : devs_ctx) (pc : Nat)
    (hempty : ctx.brk_list = []) (hpc : pc ≠ 0) (hfit : pc % 2 ^ cfg.devs_pc_bits = pc)
    (hmax : 0 < cfg.DEVS_BRK_MAX_COUNT) :
    ∃ ctx2, devs_vm_set_breakpoint cfg ctx pc = some (1, ctx2) ∧ brk_live ctx2 = [pc] ∧
      ∀ frame : devs_activation, frame.pc = pc →
        devs_vm_chk_brk cfg ctx2 frame = some (chk_brk_result.returned_false ctx2) := by
  have hinv : ctx.brk_list = [] ++ List.replicate 0 0 := by simp [hempty]
  rcases set_breakpoint_spec cfg ctx pc [] 0 hinv (by simp) (fun _ _ _ h => by simp at h)
      (fun _ _ h => by simp at h) hpc hfit with
    ⟨-, h, -⟩ | ⟨-, h, -⟩ | ⟨-, -, a, b, k2, e1, e, -, -, -⟩
  · simp at h
    omega
  · simp at h
  · have ha : a = [] := by
      cases a with
      | nil => rfl
      | cons x r => simp at e1
    have hb : b = [] := by
      cases b with
      | nil => rfl
      | cons x r => simp [ha] at e1
    subst ha hb
    refine ⟨_, e, ?_, ?_⟩
    · exact brk_live_eq _ [pc] k2 rfl (by simpa using hpc)
    · intro frame _
      apply chk_brk_zero_table
      simp [recompute_brk_jump_tbl, recompute_loop, hpc, recompute_loop_zeros]

/-- C2.  Bucket ordering invariant of every reachable breakpoint table: a nonzero slot is
never preceded by a zero slot (the live entries are a gap-free prefix); between two live
entries of one hash bucket every entry belongs to that bucket (one contiguous run per
bucket); a live entry is larger than every earlier entry of its bucket (strictly ascending
runs); and no program counter is stored twice. -/
theorem bucket_ordering_invariant (cfg : devs_config) (ctx : devs_ctx)
    (h : brk_reachable cfg ctx) :
    (∀ i j, i < j → j < ctx.brk_count → ctx.brk_list.getD j 0 ≠ 0 →
      ctx.brk_list.getD i 0 ≠ 0) ∧
    (∀ i j k, i < j → j < k → k < ctx.brk_count → ctx.brk_list.getD k 0 ≠ 0 →
      brk_hash cfg (ctx.brk_list.getD i 0) = brk_hash cfg (ctx.brk_list.getD k 0) →
      brk_hash cfg (ctx.brk_list.getD j 0) = brk_hash cfg (ctx.brk_list.getD i 0)) ∧
    (∀ i j, i < j → j < ctx.brk_count → ctx.brk_list.getD j 0 ≠ 0 →
      brk_hash cfg (ctx.brk_list.getD i 0) = brk_hash cfg (ctx.brk_list.getD j 0) →
      ctx.brk_list.getD i 0 < ctx.brk_list.getD j 0) ∧
    (∀ i j, i < j → j < ctx.brk_count → ctx.brk_list.getD j 0 ≠ 0 →
      ctx.brk_list.getD i 0 ≠ ctx.brk_list.getD j 0) := by
  obtain ⟨⟨live, k, hl, hnz, hc, ha⟩, -⟩ := brk_reachable_inv cfg ctx h
  unfold devs_ctx.brk_count
  have hasc : ∀ i j, i < j → j < ctx.brk_list.length → ctx.brk_list.getD j 0 ≠ 0 →
      brk_hash cfg (ctx.brk_list.getD i 0) = brk_hash cfg (ctx.brk_list.getD j 0) →
      ctx.brk_list.getD i 0 < ctx.brk_list.getD j 0 := by
    intro i j hij hj hne he
    have hs := idx2_sublist ctx.brk_list i j hij hj
    rw [hl] at hs hne he ⊢
    have hs2 : [(live ++ List.replicate k 0).getD i 0] ++ [(live ++ List.replicate k 0).getD j 0]
        <+ live := sub_live_of_last_ne_zero (by simpa using hs) hne
    exact ha _ _ (by simpa using hs2) he
  refine ⟨?_, ?_, hasc, ?_⟩
  rotate_left 2
  · intro i j hij hj hne heq
    have := hasc i j hij hj hne (by rw [heq])
    omega
  · intro i j hij hj hne
    have hs := idx2_sublist ctx.brk_list i j hij hj
    rw [hl] at hs hne ⊢
    have hs2 : [(live ++ List.replicate k 0).getD i 0] ++ [(live ++ List.replicate k 0).getD j 0]
        <+ live := sub_live_of_last_ne_zero (by simpa using hs) hne
    exact hnz _ (sub2_mem_left (by simpa using hs2))
  · intro i j m hij hjm hm hne he
    have hs := idx3_sublist ctx.brk_list i j m hij hjm hm
    rw [hl] at hs hne he ⊢
    have hs2 : [(live ++ List.replicate k 0).getD i 0, (live ++ List.replicate k 0).getD j 0]
        ++ [(live ++ List.replicate k 0).getD m 0] <+ live :=
      sub_live_of_last_ne_zero (by simpa using hs) hne
    exact hc _ _ _ (by simpa using hs2) he

/-- C2, instance: the table of the scenario (10, 5, 20 set in this order) is reachable and
its slots 0 and 1 satisfy the gap-free-prefix clause. -/
theorem bucket_ordering_invariant_witness :
    brk_reachable sample_config brk_scenario ∧ brk_scenario.brk_list.getD 1 0 ≠ 0 ∧
    brk_scenario.brk_list.getD 0 0 ≠ 0 :=
  ⟨brk_reachable_scenario, by decide,
    (bucket_ordering_invariant sample_config brk_scenario brk_reachable_scenario).1 0 1
      (by decide) (by decide) (by decide)⟩

/-- C9.  On a reachable table with fewer than `DEVS_BRK_MAX_COUNT` live entries, setting a
nonzero program counter that fits `devs_pc_t` and is not in the table returns 1, and the
live entries afterwards are the previous ones, in their previous order, with the new
program counter put in at one place. -/
theorem set_breakpoint_inserts (cfg : devs_config) (ctx : devs_ctx) (pc : Nat)
    (h : brk_reachable cfg ctx) (hpc : pc ≠ 0) (hfit : pc % 2 ^ cfg.devs_pc_bits = pc)
    (hnew : pc ∉ brk_live ctx) (hroom : (brk_live ctx).length < cfg.DEVS_BRK_MAX_COUNT) :
    ∃ ctx2 a b, devs_vm_set_breakpoint cfg ctx pc = some (1, ctx2) ∧
      brk_live ctx = a ++ b ∧ brk_live ctx2 = a ++ pc :: b ∧
      (∀ x, x ∈ brk_live ctx2 ↔ x = pc ∨ x ∈ brk_live ctx) ∧
      (brk_live ctx2).length = (brk_live ctx).length + 1 := by
  obtain ⟨⟨live, k, hl, hnz, hc, ha⟩, -⟩ := brk_reachable_inv cfg ctx h
  have hlive := brk_live_eq ctx live k hl hnz
  rw [hlive] at hnew hroom ⊢
  rcases set_breakpoint_spec cfg ctx pc live k hl hnz hc ha hpc hfit with
    ⟨-, hmax, -⟩ | ⟨-, hmem, -⟩ | ⟨-, -, a, b, k2, e1, e, -, -, -⟩
  · omega
  · exact absurd hmem hnew
  · have hnz2 : ∀ x ∈ a ++ pc :: b, x ≠ 0 := by
      intro x hx
      rcases List.mem_append.1 hx with hx | hx
      · exact hnz x (by rw [e1]; exact List.mem_append_left _ hx)
      · rcases List.mem_cons.1 hx with rfl | hx
        · exact hpc
        · exact hnz x (by rw [e1]; exact List.mem_append_right _ hx)
    have hlive2 : brk_live (recompute_brk_jump_tbl cfg
        { ctx with brk_list := a ++ pc :: b ++ List.replicate k2 0 }) = a ++ pc :: b :=
      brk_live_eq _ (a ++ pc :: b) k2 rfl hnz2
    refine ⟨_, a, b, e, e1, hlive2, ?_, ?_⟩
    · intro x
      rw [hlive2, e1]
      simp only [List.mem_append, List.mem_cons]
      tauto
    · rw [hlive2, e1]
      simp only [List.length_append, List.length_cons]
      omega

/-- C9, instance: setting 7 on the table of the scenario. -/
theorem set_breakpoint_inserts_witness :
    ∃ ctx2 a b, devs_vm_set_breakpoint sample_config brk_scenario 7 = some (1, ctx2) ∧
      brk_live brk_scenario = a ++ b ∧ brk_live ctx2 = a ++ 7 :: b ∧
      (∀ x, x ∈ brk_live ctx2 ↔ x = 7 ∨ x ∈ brk_live brk_scenario) ∧
      (brk_live ctx2).length = (brk_live brk_scenario).length + 1 :=
  set_breakpoint_inserts sample_config brk_scenario 7 brk_reachable_scenario
    (by decide) (by decide) (by decide) (by decide)

/-- C10 (evaluation of the code on a full table).  With `DEVS_BRK_MAX_COUNT = 8` and the
eight breakpoints 1 to 8 set, setting breakpoint 3 again returns -1, not 0. -/
theorem set_present_on_full_table :
    brk_live brk_full = [1, 2, 3, 4, 5, 6, 7, 8] ∧
    (devs_vm_set_breakpoint sample_config brk_full 3).map Prod.fst = some (-1) := by
  decide

/-- On a reachable table that holds `DEVS_BRK_MAX_COUNT` live entries every call of
`devs_vm_set_breakpoint` with a nonzero program counter returns -1 and changes nothing,
whether the program counter is in the table or not. -/
theorem set_breakpoint_full (cfg : devs_config) (ctx : devs_ctx) (pc : Nat)
    (h : brk_reachable cfg ctx) (hpc : pc ≠ 0) (hfit : pc % 2 ^ cfg.devs_pc_bits = pc)
    (hfull : (brk_live ctx).length = cfg.DEVS_BRK_MAX_COUNT) :
    devs_vm_set_breakpoint cfg ctx pc = some (-1, ctx) := by
  obtain ⟨⟨live, k, hl, hnz, hc, ha⟩, hlen⟩ := brk_reachable_inv cfg ctx h
  have hlive := brk_live_eq ctx live k hl hnz
  rw [hlive] at hfull
  rw [hl] at hlen
  simp only [List.length_append, List.length_replicate] at hlen
  rcases set_breakpoint_spec cfg ctx pc live k hl hnz hc ha hpc hfit with
    ⟨-, -, e⟩ | ⟨hno, -, -⟩ | ⟨hno, -, -⟩
  · exact e
  · exact absurd ⟨by omega, by omega⟩ hno
  · exact absurd ⟨by omega, by omega⟩ hno

/-- On a reachable table with fewer than `DEVS_BRK_MAX_COUNT` live entries, setting a
program counter that is in the table returns 0 and leaves the live entries, their order
and the jump table as they were. -/
theorem set_breakpoint_present (cfg : devs_config) (ctx : devs_ctx) (pc : Nat)
    (h : brk_reachable cfg ctx) (hfit : pc % 2 ^ cfg.devs_pc_bits = pc)
    (hmem : pc ∈ brk_live ctx) (hroom : (brk_live ctx).length < cfg.DEVS_BRK_MAX_COUNT) :
    ∃ ctx2, devs_vm_set_breakpoint cfg ctx pc = some (0, ctx2) ∧
      brk_live ctx2 = brk_live ctx ∧ ctx2.brk_jump_tbl = ctx.brk_jump_tbl := by
  obtain ⟨⟨live, k, hl, hnz, hc, ha⟩, -⟩ := brk_reachable_inv cfg ctx h
  have hlive := brk_live_eq ctx live k hl hnz
  rw [hlive] at hmem hroom ⊢
  have hpc : pc ≠ 0 := hnz pc hmem
  rcases set_breakpoint_spec cfg ctx pc live k hl hnz hc ha hpc hfit with
    ⟨-, hmax, -⟩ | ⟨-, -, k2, e, -⟩ | ⟨-, hno, -⟩
  · omega
  · exact ⟨_, e, brk_live_eq _ live (k2 + 1) rfl hnz, rfl⟩
  · exact absurd hmem hno

/-! ## Operand decoder -/

theorem frame_advance_frames (frame n : Nat) (ctx : devs_ctx) :
    (frame_advance frame n ctx).frames frame
      = { pc := (ctx.frames frame).pc + n, maxpc := (ctx.frames frame).maxpc } := by
  simp [frame_advance]

theorem frame_advance_img (frame n : Nat) (ctx : devs_ctx) :
    (frame_advance frame n ctx).img_data = ctx.img_data := rfl

theorem frame_advance_add (frame n m : Nat) (ctx : devs_ctx) :
    frame_advance frame m (frame_advance frame n ctx) = frame_advance frame (n + m) ctx := by
  simp [frame_advance, Nat.add_assoc]

theorem fetch_byte_in_range (frame : Nat) (ctx : devs_ctx)
    (h : (ctx.frames frame).pc < (ctx.frames frame).maxpc) :
    devs_vm_fetch_byte frame ctx
      = (ctx.img_data (ctx.frames frame).pc % 256, frame_advance frame 1 ctx) := by
  simp [devs_vm_fetch_byte, frame_advance, h]

/-- The accumulator of the decoding loop after the bytes `bs`. -/
theorem fetch_int_loop_bytes (frame : Nat) :
    ∀ (bs : List Nat) (r : Nat) (ctx : devs_ctx),
      (∀ i, i < bs.length → ctx.img_data ((ctx.frames frame).pc + i) = bs.getD i 0) →
      (∀ b ∈ bs, b < 256) →
      (ctx.frames frame).pc + bs.length ≤ (ctx.frames frame).maxpc →
      fetch_int_loop frame bs.length r ctx
        = (bs.foldl (fun a b => ((a * 256) % 2 ^ 32) ||| b) r,
            frame_advance frame bs.length ctx) := by
  intro bs
  induction bs with
  | nil =>
    intro r ctx _ _ _
    simp [fetch_int_loop, frame_advance]
  | cons b bs ih =>
    intro r ctx himg hb hlen
    simp only [List.length_cons] at hlen
    have h0 : ctx.img_data (ctx.frames frame).pc = b := by
      simpa using himg 0 (by simp)
    have hb256 : b < 256 := hb b (by simp)
    have hfetch := fetch_byte_in_range frame ctx (by omega)
    rw [h0, Nat.mod_eq_of_lt hb256] at hfetch
    simp only [List.length_cons, fetch_int_loop, hfetch, List.foldl_cons]
    rw [ih _ (frame_advance frame 1 ctx), frame_advance_add, Nat.add_comm 1]
    · intro i hi
      rw [frame_advance_img, frame_advance_frames]
      have := himg (i + 1) (by simpa using hi)
      simpa [Nat.add_assoc, Nat.add_comm 1 i] using this
    · intro x hx
      exact hb x (by simp [hx])
    · rw [frame_advance_frames]
      simp only
      omega

/-- While at most four bytes are accumulated the 32-bit accumulator holds the number the
bytes write. -/
theorem acc_fold_exact :
    ∀ (bs : List Nat) (r n : Nat), r < 256 ^ n → n + bs.length ≤ 4 → (∀ b ∈ bs, b < 256) →
      bs.foldl (fun a b => ((a * 256) % 2 ^ 32) ||| b) r
        = bs.foldl (fun a b => a * 256 + b) r ∧
      bs.foldl (fun a b => a * 256 + b) r < 256 ^ (n + bs.length) := by
  intro bs
  induction bs with
  | nil =>
    intro r n hr _ _
    simpa using hr
  | cons b bs ih =>
    intro r n hr hn hb
    simp only [List.length_cons] at hn
    have hb256 : b < 256 := hb b (by simp)
    have hn3 : n ≤ 3 := by omega
    have hr24 : r < 256 ^ 3 := lt_of_lt_of_le hr (Nat.pow_le_pow_right (by norm_num) hn3)
    have hstep : ((r * 256) % 2 ^ 32) ||| b = r * 256 + b := by
      have h1 : (r * 256) % 2 ^ 32 = 2 ^ 8 * r := by
        norm_num at hr24 ⊢
        omega
      rw [h1, ← Nat.mul_add_lt_is_or (by norm_num; exact hb256) r]
      norm_num
      omega
    have hr2 : r * 256 + b < 256 ^ (n + 1) := by
      rw [pow_succ]
      nlinarith
    have := ih (r * 256 + b) (n + 1) hr2 (by omega) (fun x hx => hb x (by simp [hx]))
    simp only [List.foldl_cons, List.length_cons, hstep]
    refine ⟨this.1, ?_⟩
    have e : n + 1 + bs.length = n + (bs.length + 1) := by omega
    rw [← e]
    exact this.2

theorem int32_of_bits_small (m : Nat) (h : m < 2 ^ 31) : int32_of_bits m = (m : Int) := by
  unfold int32_of_bits
  have : m % 2 ^ 32 = m := Nat.mod_eq_of_lt (by norm_num at h ⊢; omega)
  rw [this, if_pos h]

theorem int32_neg_magnitude (m : Nat) (h : m ≤ 2 ^ 31) :
    int32_wrap (- int32_of_bits m) = - (m : Int) := by
  unfold int32_wrap int32_of_bits
  have hm : m % 2 ^ 32 = m := Nat.mod_eq_of_lt (by norm_num at h ⊢; omega)
  rw [hm]
  norm_num at h ⊢
  split <;> omega

/-- C3.  Variable-length integer round trip: when the instruction stream of the frame holds
an encoding `bs` of an integer `x` of the `int32_t` range at `pc`, entirely below `maxpc`,
`devs_vm_fetch_int` returns `x`, advances `pc` by the length of the encoding and changes
nothing else (no failure is raised). -/
theorem fetch_int_round_trip (cfg : devs_config) (frame : Nat) (ctx : devs_ctx) (x : Int)
    (bs : List Nat) (henc : int_encoding cfg x bs)
    (hrange : -2 ^ 31 ≤ x ∧ x < 2 ^ 31)
    (himg : ∀ i, i < bs.length → ctx.img_data ((ctx.frames frame).pc + i) = bs.getD i 0)
    (hmax : (ctx.frames frame).pc + bs.length ≤ (ctx.frames frame).maxpc) :
    devs_vm_fetch_int cfg frame ctx = (x, frame_advance frame bs.length ctx) := by
  rcases henc with ⟨v, rfl, hv, hfirst, rfl⟩ | ⟨v, mag, rfl, hv, hfirst, hlen, hb, hx⟩
  · have h0 : ctx.img_data (ctx.frames frame).pc = v := by simpa using himg 0 (by simp)
    have hfetch := fetch_byte_in_range frame ctx (by simpa using hmax)
    rw [h0, Nat.mod_eq_of_lt hv] at hfetch
    simp [devs_vm_fetch_int, hfetch, hfirst]
  · simp only [List.length_cons] at hmax
    have h0 : ctx.img_data (ctx.frames frame).pc = v := by simpa using himg 0 (by simp)
    have hfetch := fetch_byte_in_range frame ctx (by omega)
    rw [h0, Nat.mod_eq_of_lt hv] at hfetch
    have hloop := fetch_int_loop_bytes frame mag 0 (frame_advance frame 1 ctx)
      (by
        intro i hi
        rw [frame_advance_img, frame_advance_frames]
        have := himg (i + 1) (by simpa using hi)
        simpa [Nat.add_assoc, Nat.add_comm 1 i] using this)
      hb
      (by
        rw [frame_advance_frames]
        simp only
        omega)
    have hle : v &&& 3 ≤ 3 := Nat.and_le_right
    have hacc := acc_fold_exact mag 0 0 (by norm_num) (by omega) hb
    rw [hacc.1] at hloop
    have hmag : be_value mag < 2 ^ 32 := by
      have h1 := hacc.2
      have h2 : 256 ^ (0 + mag.length) ≤ 256 ^ 4 :=
        Nat.pow_le_pow_right (by norm_num) (by omega)
      have h3 : (256 : Nat) ^ 4 = 2 ^ 32 := by norm_num
      unfold be_value
      omega
    have hnot : ¬ v < cfg.DEVS_FIRST_MULTIBYTE_INT := by omega
    rw [frame_advance_add, Nat.add_comm 1, hlen] at hloop
    rw [← hlen] at hloop
    simp only [devs_vm_fetch_int, hfetch, hnot, if_false, ← hlen, hloop, List.length_cons]
    have hfold : List.foldl (fun a b => a * 256 + b) 0 mag = be_value mag := rfl
    rw [hfold]
    by_cases hs : v &&& 4 = 0
    · have hx2 : x = (be_value mag : Int) := by simpa [hs] using hx
      have hsmall : be_value mag < 2 ^ 31 := by
        have := hrange.2
        rw [hx2] at this
        exact_mod_cast this
      simp [hs, hx2, int32_of_bits_small _ hsmall]
    · have hx2 : x = - (be_value mag : Int) := by simpa [hs] using hx
      have hsmall : be_value mag ≤ 2 ^ 31 := by
        have := hrange.1
        rw [hx2] at this
        have h4 : (be_value mag : Int) ≤ 2 ^ 31 := by linarith
        exact_mod_cast h4
      simp [hs, hx2, int32_neg_magnitude _ hsmall]

/-- C3, instance: the bytes `0xFD 0x01 0x00` (negative, two magnitude bytes) decode to
-256 and advance the program counter by 3. -/
theorem fetch_int_round_trip_witness :
    devs_vm_fetch_int sample_config 1
        (devs_ctx_zero sample_config (fun i => [253, 1, 0].getD i 0)
          (fun _ => { pc := 0, maxpc := 3 }))
      = (-256, frame_advance 1 3
        (devs_ctx_zero sample_config (fun i => [253, 1, 0].getD i 0)
          (fun _ => { pc := 0, maxpc := 3 }))) :=
  fetch_int_round_trip sample_config 1 _ (-256) [253, 1, 0]
    (Or.inr ⟨253, [1, 0], rfl, by decide, by decide, by decide, by decide, by decide⟩)
    (by decide)
    (by
      intro i hi
      simp [devs_ctx_zero])
    (by decide)

/-! ## Dispatch loop -/

theorem exec_handler_in_throw (cfg : devs_config) (host : devs_host) (op flags frame : Nat)
    (c : devs_ctx) :
    (exec_handler cfg host op flags frame c).in_throw
        = (handler_result cfg host op flags frame c).in_throw ∧
    (exec_handler cfg host op flags frame c).exn_val
        = (handler_result cfg host op flags frame c).exn_val ∧
    (exec_handler cfg host op flags frame c).curr_fiber
        = (handler_result cfg host op flags frame c).curr_fiber := by
  unfold exec_handler handler_result
  by_cases h : flags &&& cfg.DEVS_BYTECODEFLAG_IS_STMT ≠ 0
  · rw [if_pos h, if_pos h]
    by_cases h2 : (host.stmt_handler op frame c).stack_top ≠ 0
    · rw [if_pos h2]
      exact ⟨rfl, rfl, rfl⟩
    · rw [if_neg h2]
      exact ⟨rfl, rfl, rfl⟩
  · rw [if_neg h, if_neg h]
    unfold devs_vm_push
    by_cases h2 : (host.expr_handler op frame c).2.stack_top ≥ cfg.DEVS_MAX_STACK_DEPTH
    · simp only [h2, if_true]
      exact ⟨rfl, rfl, rfl⟩
    · simp only [h2, if_false]
      exact ⟨trivial, trivial, trivial⟩

theorem exec_throw_raised (host : devs_host) (c : devs_ctx) (h : c.in_throw ≠ 0) :
    (exec_throw host c).stack_top = 0 ∧ (exec_throw host c).in_throw = 0 ∧
    (exec_throw host c).curr_fiber = c.curr_fiber ∧
    (c.curr_fiber ≠ 0 → ((exec_throw host c).fibers c.curr_fiber).ret_val = c.exn_val) := by
  unfold exec_throw
  rw [if_pos h]
  by_cases hf : c.curr_fiber = 0
  · simp [hf]
  · simp [hf]

/-- C5.  Exception delivery: when a step of `devs_vm_exec_opcode` calls an opcode handler
(statement or expression) and the handler returns with `in_throw` set, then after the step
the stack height is 0, `in_throw` is 0 and, if a fiber is current, its `ret_val` is the
exception value the handler left in `exn_val`. -/
theorem exception_delivery (cfg : devs_config) (host : devs_host) (ctx : devs_ctx)
    (frame op flags : Nat) (c : devs_ctx)
    (hdec : exec_decode cfg host ctx frame = some (exec_decoded.dispatch op flags c))
    (hthrow : (handler_result cfg host op flags frame c).in_throw ≠ 0) :
    ∃ c2, devs_vm_exec_opcode cfg host ctx frame = some c2 ∧
      c2.stack_top = 0 ∧ c2.in_throw = 0 ∧
      c2.curr_fiber = (handler_result cfg host op flags frame c).curr_fiber ∧
      (c2.curr_fiber ≠ 0 →
        (c2.fibers c2.curr_fiber).ret_val
          = (handler_result cfg host op flags frame c).exn_val) := by
  obtain ⟨h1, h2, h3⟩ := exec_handler_in_throw cfg host op flags frame c
  obtain ⟨t1, t2, t3, t4⟩ := exec_throw_raised host (exec_handler cfg host op flags frame c)
    (by rw [h1]; exact hthrow)
  refine ⟨exec_throw host (exec_handler cfg host op flags frame c), ?_, t1, t2, ?_, ?_⟩
  · simp [devs_vm_exec_opcode, hdec]
  · rw [t3, h3]
  · intro hf
    rw [t3] at hf ⊢
    rw [t4 hf, h2]

/-- C5, instance: an expression handler that raises exception 77 while fiber 1 runs with
three values on the stack. -/
theorem exception_delivery_witness :
    ∃ c2, devs_vm_exec_opcode sample_config throw_host (run_ctx 3) 1 = some c2 ∧
      c2.stack_top = 0 ∧ c2.in_throw = 0 ∧
      c2.curr_fiber = (handler_result sample_config throw_host 1 0 1
        { frame_advance 1 1 (run_ctx 3) with stack_top_for_gc := 3 }).curr_fiber ∧
      (c2.curr_fiber ≠ 0 →
        (c2.fibers c2.curr_fiber).ret_val
          = (handler_result sample_config throw_host 1 0 1
            { frame_advance 1 1 (run_ctx 3) with stack_top_for_gc := 3 }).exn_val) :=
  exception_delivery sample_config throw_host (run_ctx 3) 1 1 0
    { frame_advance 1 1 (run_ctx 3) with stack_top_for_gc := 3 } (by rfl) (by decide)

/-- C6 as stated fails.  With one value on the stack before the instruction, a statement
handler that leaves the stack as it is (height 1 before, height 1 after the handler)
makes `devs_vm_exec_opcode` raise failure 60103. -/
theorem stmt_stack_check_counterexample :
    (run_ctx 1).stack_top = 1 ∧
    (idle_host.stmt_handler 1 1
      { frame_advance 1 1 (run_ctx 1) with stack_top_for_gc := 1 }).stack_top = 1 ∧
    (devs_vm_exec_opcode sample_config idle_host (run_ctx 1) 1).map
      (fun c => (c.stack_top, c.failures)) = some (1, [60103]) := by
  decide

/-- C6, amended.  For a statement-flagged opcode whose handler returns without raising an
exception, `devs_vm_exec_opcode` raises failure 60103 if and only if the stack height after
the handler is not zero, whatever the height before the instruction was; when no failure is
raised the step ends in the context the handler returned, with stack height 0. -/
theorem stmt_stack_discipline (cfg : devs_config) (host : devs_host) (ctx : devs_ctx)
    (frame op flags : Nat) (c : devs_ctx)
    (hdec : exec_decode cfg host ctx frame = some (exec_decoded.dispatch op flags c))
    (hstmt : flags &&& cfg.DEVS_BYTECODEFLAG_IS_STMT ≠ 0)
    (hquiet : (host.stmt_handler op frame c).in_throw = 0) :
    ∃ c2, devs_vm_exec_opcode cfg host ctx frame = some c2 ∧
      (c2.failures = (host.stmt_handler op frame c).failures ++ [60103] ↔
        (host.stmt_handler op frame c).stack_top ≠ 0) ∧
      ((host.stmt_handler op frame c).stack_top ≠ 0 →
        c2 = devs_runtime_failure (host.stmt_handler op frame c) 60103) ∧
      ((host.stmt_handler op frame c).stack_top = 0 →
        c2 = host.stmt_handler op frame c ∧ c2.stack_top = 0) := by
  by_cases h : (host.stmt_handler op frame c).stack_top = 0
  · refine ⟨host.stmt_handler op frame c, ?_, ?_, fun h2 => absurd h h2, fun _ => ⟨rfl, h⟩⟩
    · simp [devs_vm_exec_opcode, hdec, exec_handler, hstmt, h, exec_throw, hquiet]
    · simp [h]
  · refine ⟨devs_runtime_failure (host.stmt_handler op frame c) 60103, ?_, ?_, fun _ => rfl,
      fun h2 => absurd h2 h⟩
    · simp [devs_vm_exec_opcode, hdec, exec_handler, hstmt, h, exec_throw,
        devs_runtime_failure, hquiet]
    · simp [h, devs_runtime_failure]

/-- C6, amended, instance: a statement handler that leaves an empty stack empty. -/
theorem stmt_stack_discipline_witness :
    ∃ c2, devs_vm_exec_opcode sample_config idle_host (run_ctx 0) 1 = some c2 ∧
      c2.failures = [] ∧ c2.stack_top = 0 := by
  obtain ⟨c2, h1, h2, -, h4⟩ := stmt_stack_discipline sample_config idle_host (run_ctx 0) 1 1 8
    { frame_advance 1 1 (run_ctx 0) with stack_top_for_gc := 0 } (by rfl) (by decide)
    (by decide)
  have h5 := h4 (by decide)
  refine ⟨c2, h1, ?_, h5.2⟩
  rw [h5.1]
  rfl

theorem exec_steps_succ (cfg : devs_config) (host : devs_host) (ctx c1 : devs_ctx)
    (h : devs_vm_exec_opcode cfg host ctx ctx.curr_fn = some c1) (k : Nat) :
    exec_steps cfg host (k + 1) ctx = exec_steps cfg host k c1 := by
  simp [exec_steps, h]

/-- The loop of `devs_vm_exec_opcodes` entered with counter `m` on a run whose current frame
stays non-null: it makes `m - 1` steps and leaves with the counter at zero. -/
theorem exec_loop_runs_out (cfg : devs_config) (host : devs_host) :
    ∀ (m fuel steps : Nat) (ctx : devs_ctx), 0 < m → m < 2 ^ 32 → m ≤ fuel →
      (∀ k, k < m → ∃ c, exec_steps cfg host k ctx = some c ∧ c.curr_fn ≠ 0) →
      ∃ c, exec_steps cfg host (m - 1) ctx = some c ∧
        exec_loop cfg host fuel m steps ctx = some (0, steps + (m - 1), c) := by
  intro m
  induction m with
  | zero =>
    intro fuel steps ctx h
    exact absurd h (lt_irrefl 0)
  | succ n ih =>
    intro fuel steps ctx _ hlt hfuel hrun
    obtain ⟨c0, hc0, hfn⟩ := hrun 0 (Nat.succ_pos n)
    simp only [exec_steps, Option.some.injEq] at hc0
    subst hc0
    cases fuel with
    | zero => omega
    | succ fuel =>
      have hdec : (n + 1 + 2 ^ 32 - 1) % 2 ^ 32 = n := by
        have e : n + 1 + 2 ^ 32 - 1 = n + 2 ^ 32 := by omega
        rw [e, Nat.add_mod_right, Nat.mod_eq_of_lt (by omega)]
      cases n with
      | zero =>
        refine ⟨ctx, rfl, ?_⟩
        simp [exec_loop, hfn]
      | succ n =>
        obtain ⟨c1, hc1, -⟩ := hrun 1 (by omega)
        have hstep : devs_vm_exec_opcode cfg host ctx ctx.curr_fn = some c1 := by
          simp only [exec_steps] at hc1
          cases hs : devs_vm_exec_opcode cfg host ctx ctx.curr_fn with
          | none => simp [hs] at hc1
          | some c =>
            simp only [hs, Option.some.injEq] at hc1
            rw [hc1]
        have hrun2 : ∀ k, k < n + 1 →
            ∃ c, exec_steps cfg host k c1 = some c ∧ c.curr_fn ≠ 0 := by
          intro k hk
          obtain ⟨c, hc, hcf⟩ := hrun (k + 1) (by omega)
          rw [exec_steps_succ cfg host ctx c1 hstep] at hc
          exact ⟨c, hc, hcf⟩
        obtain ⟨c, hc, hl⟩ := ih fuel (steps + 1) c1 (by omega) (by omega) (by omega) hrun2
        refine ⟨c, ?_, ?_⟩
        · rw [show n + 1 + 1 - 1 = (n + 1 - 1) + 1 by omega,
            exec_steps_succ cfg host ctx c1 hstep]
          exact hc
        · have hne : n + 1 ≠ 0 := by omega
          simp only [exec_loop, hfn, if_false, hdec, hne, hstep, hl]
          have : steps + 1 + (n + 1 - 1) = steps + (n + 1 + 1 - 1) := by omega
          rw [this]

/-- The number of opcode steps before the timeout: on a run whose current frame never
becomes null `devs_vm_exec_opcodes` makes `DEVS_MAX_STEPS - 1` calls of
`devs_vm_exec_opcode` and then raises `DEVS_PANIC_TIMEOUT`. -/
theorem exec_opcodes_timeout_steps (cfg : devs_config) (host : devs_host) (ctx : devs_ctx)
    (hpos : 0 < cfg.DEVS_MAX_STEPS) (hlt : cfg.DEVS_MAX_STEPS < 2 ^ 32)
    (hrun : ∀ k, k < cfg.DEVS_MAX_STEPS →
      ∃ c, exec_steps cfg host k ctx = some c ∧ c.curr_fn ≠ 0) :
    ∃ c, exec_steps cfg host (cfg.DEVS_MAX_STEPS - 1) ctx = some c ∧
      devs_vm_exec_opcodes cfg host ctx
        = some (cfg.DEVS_MAX_STEPS - 1, devs_panic c cfg.DEVS_PANIC_TIMEOUT) := by
  obtain ⟨c, hc, hl⟩ := exec_loop_runs_out cfg host cfg.DEVS_MAX_STEPS (2 ^ 32 + 1) 0 ctx
    hpos hlt (by omega) hrun
  refine ⟨c, hc, ?_⟩
  unfold devs_vm_exec_opcodes
  rw [Nat.mod_eq_of_lt hlt, hl]
  simp

/-- C7 (evaluation of the code on the scenario).  With a step budget `DEVS_MAX_STEPS = 3`
and a program that jumps back to its start for ever, `devs_vm_exec_opcodes` executes two
opcode steps, not three, and then raises `DEVS_PANIC_TIMEOUT`. -/
theorem exec_opcodes_timeout_one_step_early :
    sample_config.DEVS_MAX_STEPS = 3 ∧
    (devs_vm_exec_opcodes sample_config jump_host (run_ctx 0)).map
      (fun r => (r.1, r.2.panics, r.2.failures)) = some (2, [2], []) := by
  decide

/-! ## Result pipe -/

theorem pipe_elements_succ (sz n : Nat) :
    pipe_elements sz (n + 1) = pipe_elements sz n ++ [(n * sz, sz)] := by
  simp [pipe_elements, List.range_succ]

theorem process_loop_closed (tr : Nat → jd_pipe_status) (fuel : Nat) (st : srv_state)
    (h : st.pipe_cmd = 0) : devsdbg_process_loop tr (fuel + 1) st = some st := by
  simp [devsdbg_process_loop, h]

theorem stop_pipe_closed (st : srv_state) :
    (devsdbg_stop_pipe st).pipe_cmd = 0 := by
  unfold devsdbg_stop_pipe
  by_cases h : st.pipe_cmd = 0
  · rw [if_pos h]
    exact h
  · rw [if_neg h]

theorem stop_pipe_inv (K sz : Nat) (st : srv_state) (h : pipe_inv K sz st) :
    pipe_inv K sz (devsdbg_stop_pipe st) ∧
    (devsdbg_stop_pipe st).pipe_curr_elt = st.pipe_curr_elt ∧
    (devsdbg_stop_pipe st).write_calls = st.write_calls := by
  unfold devsdbg_stop_pipe
  by_cases hc : st.pipe_cmd = 0
  · rw [if_pos hc]
    exact ⟨h, rfl, rfl⟩
  · rw [if_neg hc]
    obtain ⟨h1, h2, h3, h4, h5, _⟩ := h
    exact ⟨⟨h1, h2, h3, h4, h5, fun _ => rfl⟩, rfl, rfl⟩

/-- One run of the loop of `devsdbg_process` on an open pipe, for any transport: after `m`
accepted writes the loop ends because the cursor has reached the count (the pipe is
closed), because the transport asks to try again (the pipe stays open at the cursor), or
because the transport reports an error (the pipe is closed). -/
theorem process_loop_spec (tr : Nat → jd_pipe_status) (K sz : Nat) :
    ∀ (d fuel : Nat) (st : srv_state), pipe_inv K sz st → st.pipe_cmd ≠ 0 →
      K - st.pipe_curr_elt = d → d + 2 ≤ fuel →
      ∃ m st2, devsdbg_process_loop tr fuel st = some st2 ∧ pipe_inv K sz st2 ∧
        (∀ i, i < m → tr (st.write_calls + i) = jd_pipe_status.OK) ∧
        st2.pipe_curr_elt = st.pipe_curr_elt + m ∧
        ((st.pipe_curr_elt + m = K ∧ st2.pipe_cmd = 0 ∧
            st2.write_calls = st.write_calls + m) ∨
          (st.pipe_curr_elt + m < K ∧
            tr (st.write_calls + m) = jd_pipe_status.TRY_AGAIN ∧
            st2.pipe_cmd = st.pipe_cmd ∧ st2.write_calls = st.write_calls + m + 1) ∨
          (st.pipe_curr_elt + m < K ∧
            (∃ code, tr (st.write_calls + m) = jd_pipe_status.error code) ∧
            st2.pipe_cmd = 0 ∧ st2.write_calls = st.write_calls + m + 1)) := by
  intro d
  induction d with
  | zero =>
    intro fuel st hinv hopen hd hfuel
    obtain ⟨fuel, rfl⟩ : ∃ f, fuel = f + 2 := ⟨fuel - 2, by omega⟩
    have hinv2 := hinv
    obtain ⟨h1, h2, h3, h4, h5, h6⟩ := hinv
    have hge : st.pipe_curr_elt ≥ st.pipe_num_elts := by omega
    obtain ⟨s1, s2, s3⟩ := stop_pipe_inv K sz st hinv2
    refine ⟨0, devsdbg_stop_pipe st, ?_, s1, ?_, by simpa using s2, Or.inl ⟨by omega, ?_, ?_⟩⟩
    · rw [devsdbg_process_loop]
      rw [if_neg hopen, if_pos hge]
      exact process_loop_closed tr fuel _ (stop_pipe_closed st)
    · intro i hi
      omega
    · exact stop_pipe_closed st
    · simpa using s3
  | succ d ih =>
    intro fuel st hinv hopen hd hfuel
    obtain ⟨fuel, rfl⟩ : ∃ f, fuel = f + 1 := ⟨fuel - 1, by omega⟩
    have hinv2 := hinv
    obtain ⟨h1, h2, h3, h4, h5, h6⟩ := hinv
    have hlt : ¬ st.pipe_curr_elt ≥ st.pipe_num_elts := by omega
    rw [devsdbg_process_loop]
    rw [if_neg hopen, if_neg hlt]
    cases hr : tr st.write_calls with
    | OK =>
      have hmod : (st.pipe_curr_elt + 1) % 2 ^ 16 = st.pipe_curr_elt + 1 :=
        Nat.mod_eq_of_lt (by omega)
      have hinv1 : pipe_inv K sz
          { (jd_opipe_write tr st (st.pipe_curr_elt * st.pipe_elt_size) st.pipe_elt_size).2 with
            pipe_curr_elt :=
              ((jd_opipe_write tr st (st.pipe_curr_elt * st.pipe_elt_size)
                st.pipe_elt_size).2.pipe_curr_elt + 1) % 2 ^ 16 } := by
        refine ⟨h1, h2, ?_, h4, ?_, ?_⟩
        · simp only [jd_opipe_write, hmod]
          omega
        · simp only [jd_opipe_write, hr, if_true, hmod, h5, h2, pipe_elements_succ]
        · intro hz
          exact absurd hz hopen
      obtain ⟨m, st2, e1, e2, e3, e4, e5⟩ := ih fuel _ hinv1 hopen
        (by simp only [jd_opipe_write, hmod]; omega) (by omega)
      simp only [jd_opipe_write, hmod] at e3 e4 e5
      refine ⟨m + 1, st2, ?_, e2, ?_, by omega, ?_⟩
      · simp only [jd_opipe_write, hr] at e1 ⊢
        exact e1
      · intro i hi
        cases i with
        | zero => simpa using hr
        | succ i =>
          have := e3 i (by omega)
          rw [← this]
          congr 1
          omega
      · rcases e5 with ⟨a1, a2, a3⟩ | ⟨a1, a2, a3, a4⟩ | ⟨a1, ⟨code, a2⟩, a3, a4⟩
        · exact Or.inl ⟨by omega, a2, by omega⟩
        · refine Or.inr (Or.inl ⟨by omega, ?_, a3, by omega⟩)
          rw [← a2]
          congr 1
          omega
        · refine Or.inr (Or.inr ⟨by omega, ⟨code, ?_⟩, a3, by omega⟩)
          rw [← a2]
          congr 1
          omega
    | TRY_AGAIN =>
      refine ⟨0, (jd_opipe_write tr st (st.pipe_curr_elt * st.pipe_elt_size)
        st.pipe_elt_size).2, ?_, ?_, ?_, rfl, Or.inr (Or.inl ⟨by omega, by simpa using hr, rfl, rfl⟩)⟩
      · simp only [jd_opipe_write, hr]
      · refine ⟨h1, h2, h3, h4, ?_, h6⟩
        simp only [jd_opipe_write, hr]
        exact h5
      · intro i hi
        omega
    | error code =>
      obtain ⟨fuel, rfl⟩ : ∃ f, fuel = f + 1 := ⟨fuel - 1, by omega⟩
      have hinvw : pipe_inv K sz
          (jd_opipe_write tr st (st.pipe_curr_elt * st.pipe_elt_size) st.pipe_elt_size).2 := by
        refine ⟨h1, h2, h3, h4, ?_, h6⟩
        simp only [jd_opipe_write, hr]
        exact h5
      obtain ⟨s1, s2, s3⟩ := stop_pipe_inv K sz _ hinvw
      refine ⟨0, devsdbg_stop_pipe (jd_opipe_write tr st (st.pipe_curr_elt * st.pipe_elt_size)
        st.pipe_elt_size).2, ?_, s1, ?_, ?_,
        Or.inr (Or.inr ⟨by omega, ⟨code, by simpa using hr⟩, stop_pipe_closed _, ?_⟩)⟩
      · simp only [jd_opipe_write, hr]
        exact process_loop_closed tr fuel _ (stop_pipe_closed _)
      · intro i hi
        omega
      · rw [s2]
        rfl
      · rw [s3]
        rfl

theorem process_closed (tr : Nat → jd_pipe_status) (st : srv_state) (h : st.pipe_cmd = 0) :
    devsdbg_process tr st = some st := by
  unfold devsdbg_process
  exact process_loop_closed tr _ st h

theorem pump_closed (tr : Nat → jd_pipe_status) (st : srv_state) (h : st.pipe_cmd = 0) :
    ∀ n, pump tr n st = some st := by
  intro n
  induction n with
  | zero => rfl
  | succ n ih => simp [pump, process_closed tr st h, ih]

theorem pump_add (tr : Nat → jd_pipe_status) :
    ∀ (n j : Nat) (st st2 : srv_state), pump tr n st = some st2 →
      pump tr (n + j) st = pump tr j st2 := by
  intro n
  induction n with
  | zero =>
    intro j st st2 h
    simp only [pump, Option.some.injEq] at h
    rw [h, Nat.zero_add]
  | succ n ih =>
    intro j st st2 h
    rw [show n + 1 + j = (n + j) + 1 by omega]
    simp only [pump] at h ⊢
    cases hp : devsdbg_process tr st with
    | none => simp [hp] at h
    | some s1 =>
      simp only [hp] at h ⊢
      exact ih j s1 st2 h

/-- A call of `devsdbg_process` on an open pipe: the loop run of `process_loop_spec`. -/
theorem process_spec (tr : Nat → jd_pipe_status) (K sz : Nat) (st : srv_state)
    (hinv : pipe_inv K sz st) (hopen : st.pipe_cmd ≠ 0) :
    ∃ m st2, devsdbg_process tr st = some st2 ∧ pipe_inv K sz st2 ∧
      (∀ i, i < m → tr (st.write_calls + i) = jd_pipe_status.OK) ∧
      st2.pipe_curr_elt = st.pipe_curr_elt + m ∧
      ((st.pipe_curr_elt + m = K ∧ st2.pipe_cmd = 0 ∧
          st2.write_calls = st.write_calls + m) ∨
        (st.pipe_curr_elt + m < K ∧
          tr (st.write_calls + m) = jd_pipe_status.TRY_AGAIN ∧
          st2.pipe_cmd = st.pipe_cmd ∧ st2.write_calls = st.write_calls + m + 1) ∨
        (st.pipe_curr_elt + m < K ∧
          (∃ code, tr (st.write_calls + m) = jd_pipe_status.error code) ∧
          st2.pipe_cmd = 0 ∧ st2.write_calls = st.write_calls + m + 1)) := by
  unfold devsdbg_process
  exact process_loop_spec tr K sz (K - st.pipe_curr_elt) _ st hinv hopen rfl
    (by rw [hinv.1])

theorem process_inv (tr : Nat → jd_pipe_status) (K sz : Nat) (st : srv_state)
    (hinv : pipe_inv K sz st) :
    ∃ st2, devsdbg_process tr st = some st2 ∧ pipe_inv K sz st2 := by
  by_cases hopen : st.pipe_cmd = 0
  · exact ⟨st, process_closed tr st hopen, hinv⟩
  · obtain ⟨_, st2, h1, h2, -⟩ := process_spec tr K sz st hinv hopen
    exact ⟨st2, h1, h2⟩

theorem pump_inv (tr : Nat → jd_pipe_status) (K sz : Nat) :
    ∀ (n : Nat) (st st2 : srv_state), pipe_inv K sz st → pump tr n st = some st2 →
      pipe_inv K sz st2 := by
  intro n
  induction n with
  | zero =>
    intro st st2 hinv h
    simp only [pump, Option.some.injEq] at h
    rw [← h]
    exact hinv
  | succ n ih =>
    intro st st2 hinv h
    obtain ⟨s1, hp, hinv1⟩ := process_inv tr K sz st hinv
    simp only [pump, hp] at h
    exact ih s1 st2 hinv1 h

/-- With a transport that answers `JD_PIPE_OK` or `JD_PIPE_TRY_AGAIN` only, and
`JD_PIPE_TRY_AGAIN` at no call from the `B`-th on, an open pipe is drained by finitely
many calls of `devsdbg_process`. -/
theorem pump_completes (tr : Nat → jd_pipe_status) (K sz B : Nat)
    (hB : ∀ i, B ≤ i → tr i ≠ jd_pipe_status.TRY_AGAIN) :
    ∀ (n : Nat) (st : srv_state), B - st.write_calls ≤ n → pipe_inv K sz st →
      st.pipe_cmd ≠ 0 →
      (∀ i, st.write_calls ≤ i → tr i = jd_pipe_status.OK ∨ tr i = jd_pipe_status.TRY_AGAIN) →
      ∃ k st2, pump tr k st = some st2 ∧ st2.pipe_cmd = 0 ∧ st2.pipe_data = none ∧
        st2.results_pipe.accepted = pipe_elements sz K := by
  intro n
  induction n with
  | zero =>
    intro st hn hinv hopen hok
    obtain ⟨m, st2, h1, h2, h3, h4, h5⟩ := process_spec tr K sz st hinv hopen
    rcases h5 with ⟨a1, a2, -⟩ | ⟨-, a2, -, -⟩ | ⟨-, ⟨code, a2⟩, -, -⟩
    · refine ⟨1, st2, by simp [pump, h1], a2, h2.2.2.2.2.2 a2, ?_⟩
      rw [h2.2.2.2.2.1, h4, a1]
    · exact absurd a2 (hB _ (by omega))
    · rcases hok (st.write_calls + m) (by omega) with h | h
      · rw [h] at a2
        cases a2
      · rw [h] at a2
        cases a2
  | succ n ih =>
    intro st hn hinv hopen hok
    obtain ⟨m, st2, h1, h2, h3, h4, h5⟩ := process_spec tr K sz st hinv hopen
    rcases h5 with ⟨a1, a2, -⟩ | ⟨-, a2, a3, a4⟩ | ⟨-, ⟨code, a2⟩, -, -⟩
    · refine ⟨1, st2, by simp [pump, h1], a2, h2.2.2.2.2.2 a2, ?_⟩
      rw [h2.2.2.2.2.1, h4, a1]
    · have hlt : st.write_calls + m < B := by
        by_contra hge
        exact hB _ (by omega) a2
      obtain ⟨k, st3, e1, e2, e3, e4⟩ := ih st2 (by omega) h2 (by rw [a3]; exact hopen)
        (fun i hi => hok i (by omega))
      refine ⟨k + 1, st3, ?_, e2, e3, e4⟩
      simp [pump, h1, e1]
    · rcases hok (st.write_calls + m) (by omega) with h | h
      · rw [h] at a2
        cases a2
      · rw [h] at a2
        cases a2

/-- An error answer of the transport, after `m` accepted writes of the same call, closes
the pipe at the element that failed. -/
theorem process_error (tr : Nat → jd_pipe_status) (K sz : Nat) (st : srv_state)
    (hinv : pipe_inv K sz st) (hopen : st.pipe_cmd ≠ 0) (m : Nat) (code : Int)
    (hok : ∀ i, i < m → tr (st.write_calls + i) = jd_pipe_status.OK)
    (herr : tr (st.write_calls + m) = jd_pipe_status.error code)
    (hj : st.pipe_curr_elt + m < K) :
    ∃ st2, devsdbg_process tr st = some st2 ∧ st2.pipe_cmd = 0 ∧ st2.pipe_data = none ∧
      st2.results_pipe.accepted = pipe_elements sz (st.pipe_curr_elt + m) := by
  obtain ⟨m2, st2, h1, h2, h3, h4, h5⟩ := process_spec tr K sz st hinv hopen
  have hm : m2 = m := by
    rcases Nat.lt_trichotomy m2 m with hlt | heq | hgt
    · exfalso
      have hokm := hok m2 hlt
      rcases h5 with ⟨a1, -, -⟩ | ⟨-, a2, -, -⟩ | ⟨-, ⟨c, a2⟩, -, -⟩
      · omega
      · rw [hokm] at a2
        cases a2
      · rw [hokm] at a2
        cases a2
    · exact heq
    · exfalso
      have := h3 m hgt
      rw [herr] at this
      cases this
  subst hm
  rcases h5 with ⟨a1, -, -⟩ | ⟨-, a2, -, -⟩ | ⟨-, -, a3, -⟩
  · omega
  · rw [herr] at a2
    cases a2
  · refine ⟨st2, h1, a3, h2.2.2.2.2.2 a3, ?_⟩
    rw [h2.2.2.2.2.1, h4]

/-- The pipe opened by `devsdbg_open_results_pipe` on an enabled and suspended service
when the allocation succeeds. -/
theorem open_results_pipe_eq (cfg : devs_config) (st0 : srv_state)
    (cmd elt_size K : Nat) (hen : st0.enabled ≠ 0) (hsu : st0.suspended ≠ 0)
    (hsz : elt_size < cfg.JD_SERIAL_PAYLOAD_SIZE - 8) (hfit : elt_size < 2 ^ 8)
    (hK : K < 1000) :
    devsdbg_open_results_pipe cfg st0 cmd elt_size K true
      = some (if K = 0 then none else some (elt_size * K),
          { devsdbg_stop_pipe st0 with
            pipe_elt_size := elt_size, pipe_num_elts := K, pipe_curr_elt := 0,
            pipe_data := if K = 0 then none else some (elt_size * K),
            results_pipe := { opened := true, accepted := [] },
            pipe_cmd := cmd % 2 ^ 8 }) := by
  have hgate : ¬ (st0.enabled = 0 ∨ st0.suspended = 0) := by
    intro h
    rcases h with h | h
    · exact hen h
    · exact hsu h
  have hK16 : K % 2 ^ 16 = K := Nat.mod_eq_of_lt (by omega)
  have hE8 : elt_size % 2 ^ 8 = elt_size := Nat.mod_eq_of_lt hfit
  unfold devsdbg_open_results_pipe devsdbg_pipe_alloc
  rw [if_neg hgate]
  simp only [hsz, not_true_eq_false, if_false, hK, hK16, hE8]
  by_cases hz : K = 0
  · subst hz
    simp
  · simp [hz]

/-- The pipe opened by `devsdbg_open_results_pipe` when the service is not both enabled
and suspended. -/
theorem open_results_pipe_gated_eq (cfg : devs_config) (st0 : srv_state)
    (cmd elt_size num_elts : Nat) (alloc_ok : Bool)
    (hgate : st0.enabled = 0 ∨ st0.suspended = 0)
    (hsz : elt_size < cfg.JD_SERIAL_PAYLOAD_SIZE - 8) :
    devsdbg_open_results_pipe cfg st0 cmd elt_size num_elts alloc_ok
      = some (none,
          { devsdbg_stop_pipe st0 with
            pipe_elt_size := elt_size % 2 ^ 8, pipe_num_elts := 0, pipe_curr_elt := 0,
            pipe_data := none,
            results_pipe := { opened := true, accepted := [] },
            pipe_cmd := cmd % 2 ^ 8 }) := by
  unfold devsdbg_open_results_pipe devsdbg_pipe_alloc
  rw [if_pos hgate]
  simp [hsz]

/-- C4.  Pipe draining completeness.  On an enabled and suspended service, with a
successful allocation, `devsdbg_open_results_pipe` with count `K` opens a pipe such that:
(1) if the transport answers every write with `JD_PIPE_OK` or `JD_PIPE_TRY_AGAIN`, the
latter finitely often, then after some number of `devsdbg_process` calls the transport has
accepted exactly the elements `0 .. K-1`, once each and in cursor order, the pipe is
closed (`pipe_cmd = 0`) and its buffer released, and further calls change nothing;
(2) if in some call the write of element `j` (after `m` accepted writes of that call) is
answered with any other status, that call closes the pipe and releases the buffer with
exactly the elements `0 .. j-1` accepted. -/
theorem pipe_draining_completeness (cfg : devs_config) (st0 : srv_state)
    (cmd elt_size K : Nat) (tr : Nat → jd_pipe_status)
    (hen : st0.enabled ≠ 0) (hsu : st0.suspended ≠ 0) (hcmd : cmd % 2 ^ 8 ≠ 0)
    (hsz : elt_size < cfg.JD_SERIAL_PAYLOAD_SIZE - 8) (hfit : elt_size < 2 ^ 8)
    (hK : K < 1000) :
    ∃ data st1, devsdbg_open_results_pipe cfg st0 cmd elt_size K true = some (data, st1) ∧
      ((∀ i, st1.write_calls ≤ i →
          tr i = jd_pipe_status.OK ∨ tr i = jd_pipe_status.TRY_AGAIN) →
        (∃ B, ∀ i, B ≤ i → tr i ≠ jd_pipe_status.TRY_AGAIN) →
        ∃ n st2, pump tr n st1 = some st2 ∧ st2.pipe_cmd = 0 ∧ st2.pipe_data = none ∧
          st2.results_pipe.accepted = pipe_elements elt_size K ∧
          ∀ j, pump tr (n + j) st1 = some st2) ∧
      (∀ (n : Nat) (st : srv_state) (m : Nat) (code : Int),
        pump tr n st1 = some st → st.pipe_cmd ≠ 0 →
        (∀ i, i < m → tr (st.write_calls + i) = jd_pipe_status.OK) →
        tr (st.write_calls + m) = jd_pipe_status.error code →
        st.pipe_curr_elt + m < K →
        ∃ st2, pump tr (n + 1) st1 = some st2 ∧ st2.pipe_cmd = 0 ∧ st2.pipe_data = none ∧
          st2.results_pipe.accepted = pipe_elements elt_size (st.pipe_curr_elt + m)) := by
  have hopen := open_results_pipe_eq cfg st0 cmd elt_size K hen hsu hsz hfit hK
  refine ⟨_, _, hopen, ?_, ?_⟩
  · intro hok hfin
    obtain ⟨B, hB⟩ := hfin
    have hinv : pipe_inv K elt_size
        { devsdbg_stop_pipe st0 with
          pipe_elt_size := elt_size, pipe_num_elts := K, pipe_curr_elt := 0,
          pipe_data := if K = 0 then none else some (elt_size * K),
          results_pipe := { opened := true, accepted := [] },
          pipe_cmd := cmd % 2 ^ 8 } :=
      ⟨rfl, rfl, Nat.zero_le _, by omega, rfl, fun h => absurd h hcmd⟩
    obtain ⟨k, st2, e1, e2, e3, e4⟩ := pump_completes tr K elt_size B hB _ _ (Nat.le_refl _)
      hinv hcmd hok
    refine ⟨k, st2, e1, e2, e3, e4, ?_⟩
    intro j
    rw [pump_add tr k j _ st2 e1]
    exact pump_closed tr st2 e2 j
  · intro n st m code hp hopen2 hokm herr hj
    have hinv : pipe_inv K elt_size
        { devsdbg_stop_pipe st0 with
          pipe_elt_size := elt_size, pipe_num_elts := K, pipe_curr_elt := 0,
          pipe_data := if K = 0 then none else some (elt_size * K),
          results_pipe := { opened := true, accepted := [] },
          pipe_cmd := cmd % 2 ^ 8 } :=
      ⟨rfl, rfl, Nat.zero_le _, by omega, rfl, fun h => absurd h hcmd⟩
    have hinv2 := pump_inv tr K elt_size n _ st hinv hp
    obtain ⟨st2, e1, e2, e3, e4⟩ := process_error tr K elt_size st hinv2 hopen2 m code hokm
      herr hj
    refine ⟨st2, ?_, e2, e3, e4⟩
    rw [pump_add tr n 1 _ st hp]
    simp [pump, e1]

/-- C4, instance: two elements of four bytes, opened by command 0x80 on an idle service;
the transport asks once to try again. -/
theorem pipe_draining_completeness_witness :
    ∃ data st1,
      devsdbg_open_results_pipe sample_config (srv_idle 1 1) 128 4 2 true = some (data, st1) ∧
      ∃ n st2, pump tr_busy_once n st1 = some st2 ∧ st2.pipe_cmd = 0 ∧
        st2.pipe_data = none ∧ st2.results_pipe.accepted = pipe_elements 4 2 := by
  obtain ⟨data, st1, h1, h2, -⟩ := pipe_draining_completeness sample_config (srv_idle 1 1)
    128 4 2 tr_busy_once (by decide) (by decide) (by decide) (by decide) (by decide)
    (by decide)
  obtain ⟨n, st2, e1, e2, e3, e4, -⟩ := h2
    (by
      intro i _
      unfold tr_busy_once
      by_cases hi : i = 1
      · exact Or.inr (by simp [hi])
      · exact Or.inl (by simp [hi]))
    ⟨2, by
      intro i hi
      unfold tr_busy_once
      have : i ≠ 1 := by omega
      simp [this]⟩
  exact ⟨data, st1, h1, n, st2, e1, e2, e3, e4⟩

theorem process_inert (tr : Nat → jd_pipe_status) (sz : Nat) (st : srv_state)
    (hinv : pipe_inv 0 sz st) :
    ∃ st2, devsdbg_process tr st = some st2 ∧ pipe_inv 0 sz st2 ∧
      st2.write_calls = st.write_calls := by
  by_cases hopen : st.pipe_cmd = 0
  · exact ⟨st, process_closed tr st hopen, hinv, rfl⟩
  · obtain ⟨m, st2, h1, h2, -, -, h5⟩ := process_spec tr 0 sz st hinv hopen
    rcases h5 with ⟨a1, -, a3⟩ | ⟨a1, -⟩ | ⟨a1, -⟩
    · exact ⟨st2, h1, h2, by omega⟩
    · omega
    · omega

theorem pump_inert (tr : Nat → jd_pipe_status) (sz : Nat) :
    ∀ (n : Nat) (st : srv_state), pipe_inv 0 sz st →
      ∃ st2, pump tr n st = some st2 ∧ pipe_inv 0 sz st2 ∧
        st2.write_calls = st.write_calls := by
  intro n
  induction n with
  | zero =>
    intro st hinv
    exact ⟨st, rfl, hinv, rfl⟩
  | succ n ih =>
    intro st hinv
    obtain ⟨s1, hp, hinv1, hw1⟩ := process_inert tr sz st hinv
    obtain ⟨s2, hp2, hinv2, hw2⟩ := ih s1 hinv1
    refine ⟨s2, ?_, hinv2, by omega⟩
    simp [pump, hp, hp2]

/-- C8.  Pipe gating: when the service is not enabled or not suspended,
`devsdbg_open_results_pipe` returns `NULL` and leaves a pipe with `pipe_num_elts = 0`, no
buffer, cursor 0 and `pipe_cmd` equal to the opening command, whatever element size (within
the asserted bound) and count were asked for; and no later sequence of `devsdbg_process`
calls makes a transport write. -/
theorem pipe_gating (cfg : devs_config) (st0 : srv_state)
    (cmd elt_size num_elts : Nat) (alloc_ok : Bool)
    (hgate : st0.enabled = 0 ∨ st0.suspended = 0)
    (hsz : elt_size < cfg.JD_SERIAL_PAYLOAD_SIZE - 8) (hcmd : cmd < 2 ^ 8) :
    ∃ st1, devsdbg_open_results_pipe cfg st0 cmd elt_size num_elts alloc_ok
        = some (none, st1) ∧
      st1.pipe_num_elts = 0 ∧ st1.pipe_data = none ∧ st1.pipe_curr_elt = 0 ∧
      st1.pipe_cmd = cmd ∧ st1.results_pipe.accepted = [] ∧
      ∀ (tr : Nat → jd_pipe_status) (n : Nat), ∃ st2, pump tr n st1 = some st2 ∧
        st2.results_pipe.accepted = [] ∧ st2.write_calls = st1.write_calls := by
  refine ⟨_, open_results_pipe_gated_eq cfg st0 cmd elt_size num_elts alloc_ok hgate hsz,
    rfl, rfl, rfl, Nat.mod_eq_of_lt hcmd, rfl, ?_⟩
  intro tr n
  have hinv : pipe_inv 0 (elt_size % 2 ^ 8)
      { devsdbg_stop_pipe st0 with
        pipe_elt_size := elt_size % 2 ^ 8, pipe_num_elts := 0, pipe_curr_elt := 0,
        pipe_data := none,
        results_pipe := { opened := true, accepted := [] },
        pipe_cmd := cmd % 2 ^ 8 } :=
    ⟨rfl, rfl, Nat.le_refl _, by norm_num, rfl, fun _ => rfl⟩
  obtain ⟨st2, h1, h2, h3⟩ := pump_inert tr (elt_size % 2 ^ 8) n _ hinv
  refine ⟨st2, h1, ?_, h3⟩
  obtain ⟨-, -, c3, -, c5, -⟩ := h2
  have : st2.pipe_curr_elt = 0 := by omega
  rw [c5, this]
  rfl

/-- C8, instance: a request for five elements of twelve bytes on a service that is enabled
but not suspended. -/
theorem pipe_gating_witness :
    ∃ st1, devsdbg_open_results_pipe sample_config (srv_idle 1 0) 128 12 5 true
        = some (none, st1) ∧
      st1.pipe_num_elts = 0 ∧ st1.pipe_data = none ∧ st1.pipe_curr_elt = 0 ∧
      st1.pipe_cmd = 128 ∧ st1.results_pipe.accepted = [] ∧
      ∀ (tr : Nat → jd_pipe_status) (n : Nat), ∃ st2, pump tr n st1 = some st2 ∧
        st2.results_pipe.accepted = [] ∧ st2.write_calls = st1.write_calls :=
  pipe_gating sample_config (srv_idle 1 0) 128 12 5 true (by decide) (by decide) (by decide)

/-! ## Failure exits of `devs_vm_set_breakpoint`, removal, bounded scan -/

/-- The two failure exits named by the specification.  On a reachable table and for a
program counter that fits `devs_pc_t`, `devs_vm_set_breakpoint` returns -2 exactly when the
program counter is 0; for a nonzero program counter that is not in the table it returns -1
exactly when the table holds `DEVS_BRK_MAX_COUNT` live entries; a call that returns -2 or
-1 leaves the context (list, capacity, jump table) as it was; and the capacity `brk_count`
is at most `DEVS_BRK_MAX_COUNT` before and after the call.  Nothing is said here about a
program counter that is in the table. -/
theorem set_breakpoint_failures (cfg : devs_config) (ctx : devs_ctx) (pc : Nat)
    (h : brk_reachable cfg ctx) (hfit : pc % 2 ^ cfg.devs_pc_bits = pc) :
    ∃ r ctx2, devs_vm_set_breakpoint cfg ctx pc = some (r, ctx2) ∧
      (r = -2 ↔ pc = 0) ∧
      (pc ≠ 0 → pc ∉ brk_live ctx →
        (r = -1 ↔ (brk_live ctx).length = cfg.DEVS_BRK_MAX_COUNT)) ∧
      (r = -2 ∨ r = -1 → ctx2 = ctx) ∧
      ctx.brk_count ≤ cfg.DEVS_BRK_MAX_COUNT ∧ ctx2.brk_count ≤ cfg.DEVS_BRK_MAX_COUNT := by
  obtain ⟨⟨live, k, hl, hnz, hc, ha⟩, hlen⟩ := brk_reachable_inv cfg ctx h
  have hlive := brk_live_eq ctx live k hl hnz
  have hlen2 : live.length + k ≤ cfg.DEVS_BRK_MAX_COUNT := by
    rw [hl] at hlen
    simpa using hlen
  by_cases hpc : pc = 0
  · refine ⟨-2, ctx, ?_, ?_, ?_, fun _ => rfl, hlen, hlen⟩
    · simp [devs_vm_set_breakpoint, hpc]
    · simp [hpc]
    · intro h0
      exact absurd hpc h0
  · have hreach2 : ∀ r ctx2, devs_vm_set_breakpoint cfg ctx pc = some (r, ctx2) →
        ctx2.brk_count ≤ cfg.DEVS_BRK_MAX_COUNT := fun r ctx2 e =>
      (brk_reachable_inv cfg ctx2 (brk_reachable.set ctx ctx2 pc r h e)).2
    rcases set_breakpoint_spec cfg ctx pc live k hl hnz hc ha hpc hfit with
      ⟨hk, hmax, e⟩ | ⟨hno, hmem, k2, e, -⟩ | ⟨hno, hmem, a, b, k2, e1, e, -, -, -⟩
    · refine ⟨-1, ctx, e, ?_, ?_, fun _ => rfl, hlen, hlen⟩
      · constructor
        · intro h2
          omega
        · intro h2
          exact absurd h2 hpc
      · intro _ _
        rw [hlive]
        constructor
        · intro _
          omega
        · intro _
          rfl
    · refine ⟨0, _, e, ?_, ?_, ?_, hlen, hreach2 _ _ e⟩
      · constructor
        · intro h2
          omega
        · intro h2
          exact absurd h2 hpc
      · intro _ hnot
        rw [hlive] at hnot
        exact absurd hmem hnot
      · intro h2
        omega
    · refine ⟨1, _, e, ?_, ?_, ?_, hlen, hreach2 _ _ e⟩
      · constructor
        · intro h2
          omega
        · intro h2
          exact absurd h2 hpc
      · intro _ _
        rw [hlive]
        constructor
        · intro h2
          omega
        · intro h2
          exact absurd ⟨by omega, by omega⟩ hno
      · intro h2
        omega

/-- An instance of the two failure exits: setting 9 on the full table of breakpoints 1
to 8. -/
theorem set_breakpoint_failures_witness :
    ∃ r ctx2, devs_vm_set_breakpoint sample_config brk_full 9 = some (r, ctx2) ∧
      (r = -2 ↔ 9 = 0) ∧
      (9 ≠ 0 → 9 ∉ brk_live brk_full →
        (r = -1 ↔ (brk_live brk_full).length = sample_config.DEVS_BRK_MAX_COUNT)) ∧
      (r = -2 ∨ r = -1 → ctx2 = brk_full) ∧
      brk_full.brk_count ≤ sample_config.DEVS_BRK_MAX_COUNT ∧
      ctx2.brk_count ≤ sample_config.DEVS_BRK_MAX_COUNT :=
  set_breakpoint_failures sample_config brk_full 9 brk_reachable_full (by decide)

/-- C11 (evaluation of the code).  A third failing case.  The table is reachable and full
(`DEVS_BRK_MAX_COUNT = 8`, breakpoints 1 to 8 set).  The program counter 5 is not 0 and is
in the table, so the call is in neither of the two failing cases, yet
`devs_vm_set_breakpoint` returns -1; the array and the jump table are as before. -/
theorem set_breakpoint_third_failure :
    brk_reachable sample_config brk_full ∧
    (brk_live brk_full).length = sample_config.DEVS_BRK_MAX_COUNT ∧
    5 ∈ brk_live brk_full ∧
    (devs_vm_set_breakpoint sample_config brk_full 5).map Prod.fst = some (-1) ∧
    (devs_vm_set_breakpoint sample_config brk_full 5).map
        (fun r => (r.2.brk_list, r.2.brk_jump_tbl))
      = some (brk_full.brk_list, brk_full.brk_jump_tbl) :=
  ⟨brk_reachable_full, by decide, by decide, by decide, by decide⟩

/-- C12.  On a reachable table and for a program counter that fits `devs_pc_t`,
`devs_vm_clear_breakpoint` returns true exactly when the program counter is a live entry.
When it returns true the live entries afterwards are the previous ones without that
program counter, in their previous order, the capacity is unchanged and the last slot is
zero.  When it returns false (also for program counter 0) the context is unchanged. -/
theorem clear_breakpoint_removes (cfg : devs_config) (ctx : devs_ctx) (pc : Nat)
    (h : brk_reachable cfg ctx) (hfit : pc % 2 ^ cfg.devs_pc_bits = pc) :
    ∃ r ctx2, devs_vm_clear_breakpoint cfg ctx pc = some (r, ctx2) ∧
      (r = true ↔ pc ∈ brk_live ctx) ∧
      (r = true → ∃ a b, brk_live ctx = a ++ pc :: b ∧ brk_live ctx2 = a ++ b ∧
        pc ∉ brk_live ctx2 ∧ ctx2.brk_count = ctx.brk_count ∧
        ctx2.brk_list.getD (ctx2.brk_count - 1) 0 = 0) ∧
      (r = false → ctx2 = ctx) := by
  obtain ⟨⟨live, k, hl, hnz, hc, ha⟩, -⟩ := brk_reachable_inv cfg ctx h
  have hlive := brk_live_eq ctx live k hl hnz
  by_cases hpc : pc = 0
  · refine ⟨false, ctx, by simp [devs_vm_clear_breakpoint, hpc], ?_, ?_, fun _ => rfl⟩
    · rw [hlive]
      constructor
      · intro h2
        cases h2
      · intro h2
        exact absurd hpc (hnz pc h2)
    · intro h2
      cases h2
  · rcases clear_breakpoint_spec cfg ctx pc live k hl hpc hfit with
      ⟨hno, e⟩ | ⟨a, b, e1, hna, e⟩
    · refine ⟨false, ctx, e, ?_, ?_, fun _ => rfl⟩
      · rw [hlive]
        constructor
        · intro h2
          cases h2
        · intro h2
          exact absurd h2 hno
      · intro h2
        cases h2
    · have hnb : pc ∉ b := by
        intro hb
        have hs : [pc, pc] <+ live := by
          rw [e1]
          have e2 : [pc, pc] <+ pc :: b := by simpa using hb
          exact e2.trans (List.sublist_append_right _ _)
        have := ha pc pc hs rfl
        omega
      have hnz2 : ∀ x ∈ a ++ b, x ≠ 0 := by
        intro x hx
        refine hnz x ?_
        rw [e1]
        rcases List.mem_append.1 hx with hx | hx
        · exact List.mem_append_left _ hx
        · exact List.mem_append_right _ (List.mem_cons_of_mem _ hx)
      have hlive2 : brk_live (recompute_brk_jump_tbl cfg
          { ctx with brk_list := a ++ b ++ List.replicate (k + 1) 0 }) = a ++ b :=
        brk_live_eq _ (a ++ b) (k + 1) rfl hnz2
      refine ⟨true, _, e, ?_, ?_, ?_⟩
      · rw [hlive, e1]
        simp
      · intro _
        refine ⟨a, b, by rw [hlive, e1], hlive2, ?_, ?_, ?_⟩
        · rw [hlive2]
          intro hx
          rcases List.mem_append.1 hx with hx | hx
          · exact hna hx
          · exact hnb hx
        · simp only [devs_ctx.brk_count, recompute_brk_jump_tbl, hl, e1, List.length_append,
            List.length_replicate, List.length_cons]
          omega
        · simp only [devs_ctx.brk_count, recompute_brk_jump_tbl]
          rw [brk_last_slot, List.replicate_succ', ← List.append_assoc, List.getLast?_concat]
          rfl
      · intro h2
        cases h2

/-- C12, instance: clearing 5 on the table of the scenario (10, 5, 20). -/
theorem clear_breakpoint_removes_witness :
    ∃ r ctx2, devs_vm_clear_breakpoint sample_config brk_scenario 5 = some (r, ctx2) ∧
      (r = true ↔ 5 ∈ brk_live brk_scenario) ∧
      (r = true → ∃ a b, brk_live brk_scenario = a ++ 5 :: b ∧ brk_live ctx2 = a ++ b ∧
        5 ∉ brk_live ctx2 ∧ ctx2.brk_count = brk_scenario.brk_count ∧
        ctx2.brk_list.getD (ctx2.brk_count - 1) 0 = 0) ∧
      (r = false → ctx2 = brk_scenario) :=
  clear_breakpoint_removes sample_config brk_scenario 5 brk_reachable_scenario (by decide)

/-- The scan loop of `devs_vm_chk_brk` reads past the last readable word exactly when every
word from its entry index on, zero slots included, is below the program counter. -/
theorem chk_scan_none_iff (pc : Nat) (l : List Nat) :
    chk_scan pc l = none ↔ ∀ x ∈ l, x < pc := by
  induction l with
  | nil => simp [chk_scan]
  | cons x rest ih =>
    by_cases h1 : pc ≥ x
    · by_cases h2 : pc = x
      · simp [chk_scan, h2]
      · simp only [chk_scan, h1, h2, if_true, if_false, ih, List.mem_cons, forall_eq_or_imp]
        constructor
        · intro h
          exact ⟨by omega, h⟩
        · intro h
          exact h.2
    · simp only [chk_scan, h1, if_false, List.mem_cons, forall_eq_or_imp]
      constructor
      · intro h
        cases h
      · intro h
        omega

/-- C13 (evaluation of the code).  On the reachable table of the scenario (10, 5, 20 set on
an empty table: eight slots, three live) the check at program counter 37, which is not set
and shares the bucket of 5, enters the scan at index 1, does not stop at the zero slot at
index 3, and goes on to read index 8, which is `brk_count`. -/
theorem chk_brk_scan_leaves_table :
    brk_scenario.brk_list = [10, 5, 20, 0, 0, 0, 0, 0] ∧ brk_scenario.brk_count = 8 ∧
    chk_brk_reads sample_config brk_scenario { pc := 37, maxpc := 38 }
      = [1, 2, 3, 4, 5, 6, 7, 8] ∧
    (devs_vm_chk_brk sample_config brk_scenario { pc := 37, maxpc := 38 }).isNone = true := by
  decide

/-! ## Bounded fetch and bounded stack -/

theorem fetch_byte_out_of_range (frame : Nat) (ctx : devs_ctx)
    (h : (ctx.frames frame).maxpc ≤ (ctx.frames frame).pc) :
    devs_vm_fetch_byte frame ctx = (0, devs_runtime_failure ctx 60100) := by
  have : ¬ (ctx.frames frame).pc < (ctx.frames frame).maxpc := by omega
  simp [devs_vm_fetch_byte, this]

/-- The effect of `n` byte requests of the operand loop: the program counter advances over
the bytes that are below `maxpc`, every further request raises failure 60100. -/
theorem fetch_int_loop_bounded (frame : Nat) :
    ∀ (n r : Nat) (ctx : devs_ctx),
      ((fetch_int_loop frame n r ctx).2.frames frame).pc
          = (ctx.frames frame).pc + min n ((ctx.frames frame).maxpc - (ctx.frames frame).pc) ∧
      ((fetch_int_loop frame n r ctx).2.frames frame).maxpc = (ctx.frames frame).maxpc ∧
      (fetch_int_loop frame n r ctx).2.failures
          = ctx.failures ++
            List.replicate (n - ((ctx.frames frame).maxpc - (ctx.frames frame).pc)) 60100 := by
  intro n
  induction n with
  | zero =>
    intro r ctx
    simp [fetch_int_loop]
  | succ n ih =>
    intro r ctx
    by_cases h : (ctx.frames frame).pc < (ctx.frames frame).maxpc
    · have hf := fetch_byte_in_range frame ctx h
      simp only [fetch_int_loop, hf]
      obtain ⟨h1, h2, h3⟩ := ih ((r * 256) % 2 ^ 32 ||| ctx.img_data (ctx.frames frame).pc % 256)
        (frame_advance frame 1 ctx)
      rw [frame_advance_frames] at h1 h2 h3
      simp only at h1 h2 h3
      refine ⟨?_, h2, ?_⟩
      · rw [h1]
        omega
      · rw [h3]
        have e : n - ((ctx.frames frame).maxpc - ((ctx.frames frame).pc + 1))
            = n + 1 - ((ctx.frames frame).maxpc - (ctx.frames frame).pc) := by omega
        rw [e]
        rfl
    · have hf := fetch_byte_out_of_range frame ctx (by omega)
      simp only [fetch_int_loop, hf]
      obtain ⟨h1, h2, h3⟩ := ih ((r * 256) % 2 ^ 32 ||| 0) (devs_runtime_failure ctx 60100)
      have e0 : (ctx.frames frame).maxpc - (ctx.frames frame).pc = 0 := by omega
      refine ⟨?_, h2, ?_⟩
      · rw [h1]
        simp only [devs_runtime_failure]
        omega
      · rw [h3]
        simp only [devs_runtime_failure, e0, Nat.sub_zero, List.append_assoc]
        rw [List.replicate_succ]
        rfl

theorem fetch_byte_img_indep (frame : Nat) (ctx : devs_ctx) (img2 : Nat → Nat)
    (h : ∀ i, i < (ctx.frames frame).maxpc → img2 i = ctx.img_data i) :
    devs_vm_fetch_byte frame { ctx with img_data := img2 }
      = ((devs_vm_fetch_byte frame ctx).1,
          { (devs_vm_fetch_byte frame ctx).2 with img_data := img2 }) := by
  by_cases hp : (ctx.frames frame).pc < (ctx.frames frame).maxpc
  · simp [devs_vm_fetch_byte, hp, h _ hp]
  · simp [devs_vm_fetch_byte, hp, devs_runtime_failure]

theorem fetch_byte_keeps (frame : Nat) (ctx : devs_ctx) :
    ((devs_vm_fetch_byte frame ctx).2.frames frame).maxpc = (ctx.frames frame).maxpc ∧
    (devs_vm_fetch_byte frame ctx).2.img_data = ctx.img_data := by
  by_cases hp : (ctx.frames frame).pc < (ctx.frames frame).maxpc
  · simp [devs_vm_fetch_byte, hp]
  · simp [devs_vm_fetch_byte, hp, devs_runtime_failure]

theorem fetch_int_loop_img_indep (frame : Nat) (img2 : Nat → Nat) :
    ∀ (n r : Nat) (ctx : devs_ctx),
      (∀ i, i < (ctx.frames frame).maxpc → img2 i = ctx.img_data i) →
      fetch_int_loop frame n r { ctx with img_data := img2 }
        = ((fetch_int_loop frame n r ctx).1,
            { (fetch_int_loop frame n r ctx).2 with img_data := img2 }) := by
  intro n
  induction n with
  | zero =>
    intro r ctx _
    rfl
  | succ n ih =>
    intro r ctx h
    obtain ⟨k1, k2⟩ := fetch_byte_keeps frame ctx
    simp only [fetch_int_loop, fetch_byte_img_indep frame ctx img2 h]
    exact ih _ _ (by
      intro i hi
      rw [k2]
      exact h i (by rw [← k1]; exact hi))

/-- C14.  Bounded instruction fetch.  `devs_vm_fetch_byte` with `pc < maxpc` returns the
byte at `pc` and advances `pc` by 1; with `pc ≥ maxpc` it raises failure 60100, returns 0
and leaves `pc` where it was.  The byte requests of the operand loop of
`devs_vm_fetch_int` behave the same way, so an operand that runs into `maxpc` raises the
failure once for every byte that is missing and `pc` stops at `maxpc`.  Neither function
reads the image at an index from `maxpc` on: their results do not depend on those
bytes. -/
theorem bounded_fetch (cfg : devs_config) (frame : Nat) (ctx : devs_ctx) :
    ((ctx.frames frame).pc < (ctx.frames frame).maxpc →
      devs_vm_fetch_byte frame ctx
        = (ctx.img_data (ctx.frames frame).pc % 256, frame_advance frame 1 ctx)) ∧
    ((ctx.frames frame).maxpc ≤ (ctx.frames frame).pc →
      devs_vm_fetch_byte frame ctx = (0, devs_runtime_failure ctx 60100) ∧
      ((devs_vm_fetch_byte frame ctx).2.frames frame).pc = (ctx.frames frame).pc) ∧
    (∀ n r,
      ((fetch_int_loop frame n r ctx).2.frames frame).pc
          = (ctx.frames frame).pc + min n ((ctx.frames frame).maxpc - (ctx.frames frame).pc) ∧
      (fetch_int_loop frame n r ctx).2.failures
          = ctx.failures ++
            List.replicate (n - ((ctx.frames frame).maxpc - (ctx.frames frame).pc)) 60100) ∧
    (∀ img2 : Nat → Nat, (∀ i, i < (ctx.frames frame).maxpc → img2 i = ctx.img_data i) →
      devs_vm_fetch_byte frame { ctx with img_data := img2 }
        = ((devs_vm_fetch_byte frame ctx).1,
            { (devs_vm_fetch_byte frame ctx).2 with img_data := img2 }) ∧
      devs_vm_fetch_int cfg frame { ctx with img_data := img2 }
        = ((devs_vm_fetch_int cfg frame ctx).1,
            { (devs_vm_fetch_int cfg frame ctx).2 with img_data := img2 })) := by
  refine ⟨fetch_byte_in_range frame ctx, ?_, ?_, ?_⟩
  · intro h
    have e := fetch_byte_out_of_range frame ctx h
    refine ⟨e, ?_⟩
    rw [e]
    rfl
  · intro n r
    obtain ⟨h1, -, h3⟩ := fetch_int_loop_bounded frame n r ctx
    exact ⟨h1, h3⟩
  · intro img2 h
    have hb := fetch_byte_img_indep frame ctx img2 h
    refine ⟨hb, ?_⟩
    obtain ⟨k1, k2⟩ := fetch_byte_keeps frame ctx
    have hl := fetch_int_loop_img_indep frame img2
      (((devs_vm_fetch_byte frame ctx).1 &&& 3) + 1) 0 (devs_vm_fetch_byte frame ctx).2 (by
        intro i hi
        rw [k2]
        exact h i (by rw [← k1]; exact hi))
    simp only [devs_vm_fetch_int, hb, hl]
    split <;> rfl

/-- C15.  Value-stack bound: `devs_vm_push` keeps `stack_top ≤ DEVS_MAX_STACK_DEPTH`.  Below
the bound it stores the value at the old top, adds 1 to `stack_top`, leaves every other slot
as it was and raises no failure; at the bound it raises failure 60101 and leaves
`stack_top` and every slot as they were. -/
theorem push_bounded (cfg : devs_config) (ctx : devs_ctx) (v : value_t)
    (h : ctx.stack_top ≤ cfg.DEVS_MAX_STACK_DEPTH) :
    (devs_vm_push cfg ctx v).stack_top ≤ cfg.DEVS_MAX_STACK_DEPTH ∧
    (ctx.stack_top < cfg.DEVS_MAX_STACK_DEPTH →
      (devs_vm_push cfg ctx v).stack_top = ctx.stack_top + 1 ∧
      (devs_vm_push cfg ctx v).the_stack ctx.stack_top = v ∧
      (∀ i, i ≠ ctx.stack_top → (devs_vm_push cfg ctx v).the_stack i = ctx.the_stack i) ∧
      (devs_vm_push cfg ctx v).failures = ctx.failures) ∧
    (ctx.stack_top = cfg.DEVS_MAX_STACK_DEPTH →
      devs_vm_push cfg ctx v = devs_runtime_failure ctx 60101 ∧
      (devs_vm_push cfg ctx v).stack_top = ctx.stack_top ∧
      (devs_vm_push cfg ctx v).the_stack = ctx.the_stack ∧
      (devs_vm_push cfg ctx v).failures = ctx.failures ++ [60101]) := by
  by_cases hfull : ctx.stack_top ≥ cfg.DEVS_MAX_STACK_DEPTH
  · have e : devs_vm_push cfg ctx v = devs_runtime_failure ctx 60101 := by
      simp [devs_vm_push, hfull]
    rw [e]
    refine ⟨h, fun h2 => by omega, fun _ => ⟨rfl, rfl, rfl, rfl⟩⟩
  · have e : devs_vm_push cfg ctx v
        = { ctx with
            the_stack := Function.update ctx.the_stack ctx.stack_top v
            stack_top := ctx.stack_top + 1 } := by
      simp [devs_vm_push, hfull]
    rw [e]
    refine ⟨by simp only; omega, fun _ => ⟨rfl, by simp, ?_, rfl⟩, fun h2 => by omega⟩
    intro i hi
    simp [Function.update, hi]

/-- C15, instance: a push on a stack that holds its ten values. -/
theorem push_bounded_witness :
    (devs_vm_push sample_config (run_ctx 10) 7).stack_top ≤ 10 ∧
    (devs_vm_push sample_config (run_ctx 10) 7).failures = [60101] := by
  obtain ⟨h1, -, h3⟩ := push_bounded sample_config (run_ctx 10) 7 (by decide)
  obtain ⟨-, -, -, h4⟩ := h3 (by decide)
  exact ⟨h1, h4⟩

/-- C14, instances: a fetch inside the code of the frame returns the byte and advances; a
fetch at `pc = maxpc` returns 0, raises 60100 and leaves `pc` at 4. -/
theorem bounded_fetch_witness :
    (devs_vm_fetch_byte 1 (run_ctx 0)).1 = 1 ∧
    (((devs_vm_fetch_byte 1 (run_ctx 0)).2).frames 1).pc = 1 ∧
    (devs_vm_fetch_byte 1 end_ctx).1 = 0 ∧
    (devs_vm_fetch_byte 1 end_ctx).2.failures = [60100] ∧
    (((devs_vm_fetch_byte 1 end_ctx).2).frames 1).pc = 4 :=
  ⟨congrArg Prod.fst ((bounded_fetch sample_config 1 (run_ctx 0)).1 (by decide)),
    congrArg (fun r => ((r.2).frames 1).pc)
      ((bounded_fetch sample_config 1 (run_ctx 0)).1 (by decide)),
    congrArg Prod.fst ((bounded_fetch sample_config 1 end_ctx).2.1 (by decide)).1,
    congrArg (fun r => r.2.failures)
      ((bounded_fetch sample_config 1 end_ctx).2.1 (by decide)).1,
    ((bounded_fetch sample_config 1 end_ctx).2.1 (by decide)).2⟩

/-! ## Backpressure -/

/-- The loop of `devsdbg_process` on an open pipe when the transport accepts `m` writes and
then asks to try again: the loop stops with the cursor at the element that was refused. -/
theorem process_loop_try_again (tr : Nat → jd_pipe_status) :
    ∀ (m fuel : Nat) (st : srv_state), st.pipe_cmd ≠ 0 → st.pipe_num_elts < 2 ^ 16 →
      st.pipe_curr_elt + m < st.pipe_num_elts → m + 1 ≤ fuel →
      (∀ i, i < m → tr (st.write_calls + i) = jd_pipe_status.OK) →
      tr (st.write_calls + m) = jd_pipe_status.TRY_AGAIN →
      ∃ st2, devsdbg_process_loop tr fuel st = some st2 ∧
        st2.pipe_curr_elt = st.pipe_curr_elt + m ∧ st2.pipe_num_elts = st.pipe_num_elts ∧
        st2.pipe_elt_size = st.pipe_elt_size ∧ st2.pipe_data = st.pipe_data ∧
        st2.pipe_cmd = st.pipe_cmd ∧ st2.write_calls = st.write_calls + m + 1 := by
  intro m
  induction m with
  | zero =>
    intro fuel st hopen _ hlt hfuel _ hta
    obtain ⟨fuel, rfl⟩ : ∃ f, fuel = f + 1 := ⟨fuel - 1, by omega⟩
    have hnot : ¬ st.pipe_curr_elt ≥ st.pipe_num_elts := by omega
    simp only [Nat.add_zero] at hta
    refine ⟨(jd_opipe_write tr st (st.pipe_curr_elt * st.pipe_elt_size) st.pipe_elt_size).2,
      ?_, rfl, rfl, rfl, rfl, rfl, rfl⟩
    rw [devsdbg_process_loop]
    rw [if_neg hopen, if_neg hnot]
    simp only [jd_opipe_write, hta]
  | succ m ih =>
    intro fuel st hopen hnum hlt hfuel hok hta
    obtain ⟨fuel, rfl⟩ : ∃ f, fuel = f + 1 := ⟨fuel - 1, by omega⟩
    have hnot : ¬ st.pipe_curr_elt ≥ st.pipe_num_elts := by omega
    have h0 : tr st.write_calls = jd_pipe_status.OK := by simpa using hok 0 (by omega)
    have hmod : (st.pipe_curr_elt + 1) % 2 ^ 16 = st.pipe_curr_elt + 1 :=
      Nat.mod_eq_of_lt (by omega)
    obtain ⟨st2, e1, e2, e3, e4, e5, e6, e7⟩ := ih fuel
      { (jd_opipe_write tr st (st.pipe_curr_elt * st.pipe_elt_size) st.pipe_elt_size).2 with
        pipe_curr_elt :=
          ((jd_opipe_write tr st (st.pipe_curr_elt * st.pipe_elt_size)
            st.pipe_elt_size).2.pipe_curr_elt + 1) % 2 ^ 16 }
      hopen hnum (by simp only [jd_opipe_write, hmod]; omega) (by omega)
      (by
        intro i hi
        have := hok (i + 1) (by omega)
        simp only [jd_opipe_write]
        rw [← this]
        congr 1
        omega)
      (by
        simp only [jd_opipe_write]
        rw [← hta]
        congr 1
        omega)
    simp only [jd_opipe_write, hmod] at e2 e3 e4 e5 e6 e7
    refine ⟨st2, ?_, by omega, e3, e4, e5, e6, by omega⟩
    rw [devsdbg_process_loop]
    rw [if_neg hopen, if_neg hnot]
    simp only [jd_opipe_write, h0] at e1 ⊢
    exact e1

/-- C20.  Backpressure keeps position.  (1) On an open pipe with the cursor below the
count, a `devsdbg_process` call whose write is answered `JD_PIPE_TRY_AGAIN` makes that one
write, stops, and leaves the cursor, the count, the element size, the buffer, the opening
command and the accepted elements as they were.  (2) When the refusal comes after `m`
accepted writes of the same call, the call stops with the cursor at the refused element and
the other fields unchanged.  (3) On a closed pipe (`pipe_cmd = 0`) `devsdbg_process`
returns the state as it was: no write, no change. -/
theorem backpressure_keeps_position (tr : Nat → jd_pipe_status) (st : srv_state) :
    (st.pipe_cmd ≠ 0 → st.pipe_curr_elt < st.pipe_num_elts →
      tr st.write_calls = jd_pipe_status.TRY_AGAIN →
      devsdbg_process tr st = some { st with write_calls := st.write_calls + 1 }) ∧
    (∀ m, st.pipe_cmd ≠ 0 → st.pipe_num_elts < 2 ^ 16 →
      st.pipe_curr_elt + m < st.pipe_num_elts →
      (∀ i, i < m → tr (st.write_calls + i) = jd_pipe_status.OK) →
      tr (st.write_calls + m) = jd_pipe_status.TRY_AGAIN →
      ∃ st2, devsdbg_process tr st = some st2 ∧
        st2.pipe_curr_elt = st.pipe_curr_elt + m ∧ st2.pipe_num_elts = st.pipe_num_elts ∧
        st2.pipe_elt_size = st.pipe_elt_size ∧ st2.pipe_data = st.pipe_data ∧
        st2.pipe_cmd = st.pipe_cmd ∧ st2.write_calls = st.write_calls + m + 1) ∧
    (st.pipe_cmd = 0 → devsdbg_process tr st = some st) := by
  refine ⟨?_, ?_, process_closed tr st⟩
  · intro hopen hlt hta
    have hnot : ¬ st.pipe_curr_elt ≥ st.pipe_num_elts := by omega
    unfold devsdbg_process
    rw [devsdbg_process_loop]
    rw [if_neg hopen, if_neg hnot]
    simp [jd_opipe_write, hta]
  · intro m hopen hnum hlt hok hta
    unfold devsdbg_process
    exact process_loop_try_again tr m _ st hopen hnum hlt (by omega) hok hta

/-- C20, instance: the transport refuses the first write on an open pipe of three
elements. -/
theorem backpressure_keeps_position_witness :
    srv_open3.pipe_cmd ≠ 0 ∧ srv_open3.pipe_curr_elt < srv_open3.pipe_num_elts ∧
    devsdbg_process (fun _ => jd_pipe_status.TRY_AGAIN) srv_open3 =
      some { srv_open3 with write_calls := srv_open3.write_calls + 1 } :=
  ⟨by decide, by decide,
    (backpressure_keeps_position (fun _ => jd_pipe_status.TRY_AGAIN) srv_open3).1
      (by decide) (by decide) rfl⟩

/-! ## Debugger: two-pass property enumeration -/

theorem kv_add_all_length (dc : dbg_config) (host : dbg_host) (ctx : devs_ctx) :
    ∀ (l : List (value_t × value_t)) (recs : List jd_devs_dbg_key_value_t),
      kv_add_all dc host ctx l = some recs → recs.length = l.length := by
  intro l
  induction l with
  | nil => intro recs h; simp [kv_add_all] at h; subst h; rfl
  | cons p rest ih =>
    intro recs h
    unfold kv_add_all at h
    cases h1 : expand_key_value dc host ctx p.1 p.2 with
    | none => simp [h1] at h
    | some r =>
      cases h2 : kv_add_all dc host ctx rest with
      | none => simp [h1, h2] at h
      | some rs =>
        simp [h1, h2] at h
        subst h
        simp [ih rs h2]

theorem kv_add_all_some (dc : dbg_config) (host : dbg_host) (ctx : devs_ctx) :
    ∀ (l : List (value_t × value_t)),
      (∀ p ∈ l, (expand_key_value dc host ctx p.1 p.2).isSome = true) →
      ∃ recs, kv_add_all dc host ctx l = some recs := by
  intro l
  induction l with
  | nil => intro _; exact ⟨[], rfl⟩
  | cons p rest ih =>
    intro h
    obtain ⟨rs, hrs⟩ := ih (fun q hq => h q (List.mem_cons_of_mem _ hq))
    have hp := h p (List.mem_cons_self _ _)
    obtain ⟨r, hr⟩ := Option.isSome_iff_exists.mp hp
    exact ⟨r :: rs, by simp [kv_add_all, hr, hrs]⟩

theorem kv_add_all_append (dc : dbg_config) (host : dbg_host) (ctx : devs_ctx)
    (p : value_t × value_t) (rest : List (value_t × value_t)) :
    kv_add_all dc host ctx ([p] ++ rest) =
      match expand_key_value dc host ctx p.1 p.2 with
      | none => none
      | some r =>
        match kv_add_all dc host ctx rest with
        | none => none
        | some rs => some (r :: rs) := by
  simp [kv_add_all]

/-- The buffered call of `obj_get_props` on a value with an attached object: the records are
those of `props_pairs`, the count is that of the prototype plus what the iterator returns. -/
theorem obj_get_props_eq (dc : dbg_config) (host : dbg_host) (ctx : devs_ctx) (v : value_t)
    (hobj : host.devs_object_get_attached_enum ctx v ≠ 0) :
    obj_get_props dc host ctx v =
      (kv_add_all dc host ctx
        (props_pairs dc host ctx (host.devs_object_get_attached_enum ctx v))).map
        (fun recs =>
          ((if visible_proto dc host ctx (host.devs_object_get_attached_enum ctx v) ≠ 0
              then 1 else 0) +
            (host.devs_maplike_iter_cb ctx (host.devs_object_get_attached_enum ctx v)).1,
           recs)) := by
  unfold obj_get_props props_pairs
  simp only [hobj, if_false]
  by_cases hp : visible_proto dc host ctx (host.devs_object_get_attached_enum ctx v) = 0
  · simp [hp]
    cases kv_add_all dc host ctx
      (host.devs_maplike_iter_cb ctx (host.devs_object_get_attached_enum ctx v)).2 <;> rfl
  · simp only [ne_eq, hp, not_false_eq_true, if_true, kv_add_all_append]
    cases expand_key_value dc host ctx
        (host.devs_builtin_string dc.DEVS_BUILTIN_STRING___PROTO__)
        (host.devs_maplike_to_value ctx
          (visible_proto dc host ctx (host.devs_object_get_attached_enum ctx v))) with
    | none => rfl
    | some r =>
      simp only [Option.map_some']
      cases kv_add_all dc host ctx
        (host.devs_maplike_iter_cb ctx (host.devs_object_get_attached_enum ctx v)).2 <;> rfl

theorem visible_proto_half_static (dc : dbg_config) (host : dbg_host) (ctx : devs_ctx)
    (obj : Nat) (hmap : host.devs_maplike_is_map ctx obj = true)
    (htag : host.devs_gc_tag ctx obj = dc.DEVS_GC_TAG_HALF_STATIC_MAP) :
    visible_proto dc host ctx obj = 0 := by
  unfold visible_proto
  by_cases hp : host.devs_maplike_get_proto ctx obj = 0
  · simp [hp]
  · simp [hp, hmap, htag]

/-- Whenever the buffered call of `obj_get_props` returns, its count is the count of the
bufferless call and the number of records written, given an iterator that reports the same
count in both passes and calls back once per reported pair. -/
theorem obj_get_props_counts (dc : dbg_config) (host : dbg_host) (ctx : devs_ctx) (v : value_t)
    (hcount : (host.devs_maplike_iter_cb ctx (host.devs_object_get_attached_enum ctx v)).1 =
      host.devs_maplike_iter_count ctx (host.devs_object_get_attached_enum ctx v))
    (hcalls : (host.devs_maplike_iter_cb ctx (host.devs_object_get_attached_enum ctx v)).2.length =
      (host.devs_maplike_iter_cb ctx (host.devs_object_get_attached_enum ctx v)).1)
    (n : Nat) (recs : List jd_devs_dbg_key_value_t)
    (h : obj_get_props dc host ctx v = some (n, recs)) :
    n = obj_get_props_null dc host ctx v ∧ recs.length = n := by
  by_cases hobj : host.devs_object_get_attached_enum ctx v = 0
  · simp [obj_get_props, hobj] at h
    obtain ⟨rfl, rfl⟩ := h
    simp [obj_get_props_null, hobj]
  · rw [obj_get_props_eq dc host ctx v hobj] at h
    cases hk : kv_add_all dc host ctx
        (props_pairs dc host ctx (host.devs_object_get_attached_enum ctx v)) with
    | none => simp [hk] at h
    | some rs =>
      simp [hk] at h
      obtain ⟨hn, hr⟩ := h
      subst hr
      have hl := kv_add_all_length dc host ctx _ _ hk
      refine ⟨?_, ?_⟩
      · simp only [obj_get_props_null, hobj, if_false, ← hn, hcount]
        simp
      · rw [hl, ← hn]
        unfold props_pairs
        by_cases hp : visible_proto dc host ctx (host.devs_object_get_attached_enum ctx v) = 0
        · simp [hp, hcalls]
        · simp [hp, hcalls]; omega

/-- C17.  Two-pass enumeration consistency.  For a value with an attached map-like object,
an iterator that reports the same count with and without a callback and calls back once per
reported pair, and keys that pass the assertions of `expand_key_value`: the buffered call of
`obj_get_props` returns the count of the bufferless call, writes exactly that many records,
writes the `__proto__` record first when a prototype is visible, and writes no such record
for a half-static map. -/
theorem two_pass_enumeration (dc : dbg_config) (host : dbg_host) (ctx : devs_ctx) (v : value_t)
    (hobj : host.devs_object_get_attached_enum ctx v ≠ 0)
    (hcount : (host.devs_maplike_iter_cb ctx (host.devs_object_get_attached_enum ctx v)).1 =
      host.devs_maplike_iter_count ctx (host.devs_object_get_attached_enum ctx v))
    (hcalls : (host.devs_maplike_iter_cb ctx (host.devs_object_get_attached_enum ctx v)).2.length =
      (host.devs_maplike_iter_cb ctx (host.devs_object_get_attached_enum ctx v)).1)
    (hasrt : ∀ p ∈ props_pairs dc host ctx (host.devs_object_get_attached_enum ctx v),
      (expand_key_value dc host ctx p.1 p.2).isSome = true) :
    ∃ recs,
      obj_get_props dc host ctx v = some (obj_get_props_null dc host ctx v, recs) ∧
      recs.length = obj_get_props_null dc host ctx v ∧
      (visible_proto dc host ctx (host.devs_object_get_attached_enum ctx v) ≠ 0 →
        ∃ r rest, recs = r :: rest ∧
          expand_key_value dc host ctx
            (host.devs_builtin_string dc.DEVS_BUILTIN_STRING___PROTO__)
            (host.devs_maplike_to_value ctx
              (host.devs_maplike_get_proto ctx (host.devs_object_get_attached_enum ctx v)))
            = some r ∧
          kv_add_all dc host ctx
            (host.devs_maplike_iter_cb ctx (host.devs_object_get_attached_enum ctx v)).2
            = some rest ∧
          rest.length =
            host.devs_maplike_iter_count ctx (host.devs_object_get_attached_enum ctx v)) ∧
      (host.devs_maplike_is_map ctx (host.devs_object_get_attached_enum ctx v) = true ∧
        host.devs_gc_tag ctx (host.devs_object_get_attached_enum ctx v)
          = dc.DEVS_GC_TAG_HALF_STATIC_MAP →
        kv_add_all dc host ctx
            (host.devs_maplike_iter_cb ctx (host.devs_object_get_attached_enum ctx v)).2
            = some recs ∧
          recs.length =
            host.devs_maplike_iter_count ctx (host.devs_object_get_attached_enum ctx v)) := by
  obtain ⟨recs, hk⟩ := kv_add_all_some dc host ctx _ hasrt
  have hget := obj_get_props_eq dc host ctx v hobj
  rw [hk] at hget
  simp only [Option.map_some'] at hget
  obtain ⟨hn, hlen⟩ := obj_get_props_counts dc host ctx v hcount hcalls _ _ hget
  refine ⟨recs, ?_, ?_, ?_, ?_⟩
  · rw [hget, hn]
  · rw [hlen, hn]
  · intro hp
    have hvis : visible_proto dc host ctx (host.devs_object_get_attached_enum ctx v) =
        host.devs_maplike_get_proto ctx (host.devs_object_get_attached_enum ctx v) := by
      simp only [visible_proto] at hp ⊢
      by_cases hc : host.devs_maplike_get_proto ctx
          (host.devs_object_get_attached_enum ctx v) ≠ 0 ∧
          host.devs_maplike_is_map ctx (host.devs_object_get_attached_enum ctx v) = true ∧
          host.devs_gc_tag ctx (host.devs_object_get_attached_enum ctx v)
            = dc.DEVS_GC_TAG_HALF_STATIC_MAP
      · rw [if_pos hc] at hp; exact absurd rfl hp
      · rw [if_neg hc]
    unfold props_pairs at hk
    simp only [ne_eq, hp, not_false_eq_true, if_true, kv_add_all_append] at hk
    rw [hvis] at hk
    cases h1 : expand_key_value dc host ctx
        (host.devs_builtin_string dc.DEVS_BUILTIN_STRING___PROTO__)
        (host.devs_maplike_to_value ctx
          (host.devs_maplike_get_proto ctx (host.devs_object_get_attached_enum ctx v))) with
    | none => simp [h1] at hk
    | some r =>
      cases h2 : kv_add_all dc host ctx
          (host.devs_maplike_iter_cb ctx (host.devs_object_get_attached_enum ctx v)).2 with
      | none => simp [h1, h2] at hk
      | some rest =>
        simp [h1, h2] at hk
        refine ⟨r, rest, hk.symm, rfl, rfl, ?_⟩
        rw [kv_add_all_length dc host ctx _ _ h2, hcalls, hcount]
  · rintro ⟨hmap, htag⟩
    have hz := visible_proto_half_static dc host ctx _ hmap htag
    unfold props_pairs at hk
    simp only [hz, ne_eq, not_true_eq_false, if_false, List.nil_append] at hk
    refine ⟨hk, ?_⟩
    rw [kv_add_all_length dc host ctx _ _ hk, hcalls, hcount]

/-- C17 at the sample heap: object 7 (a map with two properties and a visible prototype). -/
theorem two_pass_enumeration_witness :
    sample_dbg_host.devs_object_get_attached_enum sample_dbg_ctx (mk_handle 4 7) = 7 ∧
    obj_get_props_null sample_dbg_config sample_dbg_host sample_dbg_ctx (mk_handle 4 7) = 3 ∧
    ∃ recs,
      obj_get_props sample_dbg_config sample_dbg_host sample_dbg_ctx (mk_handle 4 7) =
        some (obj_get_props_null sample_dbg_config sample_dbg_host sample_dbg_ctx
          (mk_handle 4 7), recs) ∧
      recs.length =
        obj_get_props_null sample_dbg_config sample_dbg_host sample_dbg_ctx (mk_handle 4 7) :=
  ⟨by decide, by decide,
    (two_pass_enumeration sample_dbg_config sample_dbg_host sample_dbg_ctx (mk_handle 4 7)
      (by decide) (by decide) (by decide) (by decide)).imp
      (fun _ h => ⟨h.1, h.2.1⟩)⟩

/-! ## Debugger: the `READ_VALUE` command -/

/-- For the return-value index and a handle that identifies a fiber, `read_value` responds
with the expansion of `ctx->exn_val`; the fiber found is not read. -/
theorem read_value_return_value_found (dc : dbg_config) (host : dbg_host) (w : dbg_world)
    (pkt : jd_packet_t) (ctx : devs_ctx)
    (hidx : pkt.read_value_index = dc.JD_DEVS_DBG_VALUE_INDEX_RETURN_VALUE)
    (hne : dc.JD_DEVS_DBG_VALUE_INDEX_RETURN_VALUE ≠ dc.JD_DEVS_DBG_VALUE_INDEX_CURRENT_EXCEPTION)
    (hf : host.devs_fiber_by_tag ctx pkt.read_value_arg ≠ 0) :
    read_value dc host w pkt ctx = respond_value dc host w pkt ctx ctx.exn_val := by
  unfold read_value
  rw [if_neg (by rw [hidx]; exact hne), if_pos hidx]
  simp only [hf, ne_eq, not_false_eq_true, if_true]

/-- For the return-value index and a handle that identifies no fiber, `read_value` sends
the no-value record. -/
theorem read_value_return_value_no_fiber (dc : dbg_config) (host : dbg_host) (w : dbg_world)
    (pkt : jd_packet_t) (ctx : devs_ctx)
    (hidx : pkt.read_value_index = dc.JD_DEVS_DBG_VALUE_INDEX_RETURN_VALUE)
    (hne : dc.JD_DEVS_DBG_VALUE_INDEX_RETURN_VALUE ≠ dc.JD_DEVS_DBG_VALUE_INDEX_CURRENT_EXCEPTION)
    (hf : host.devs_fiber_by_tag ctx pkt.read_value_arg = 0) :
    read_value dc host w pkt ctx = some (respond_no_value dc w pkt) := by
  unfold read_value
  rw [if_neg (by rw [hidx]; exact hne), if_pos hidx]
  simp [hf]

/-- C18 (evaluation of the code on the scenario).  The fiber with handle tag 5 is live and
its `ret_val` is 42; no exception is pending.  The `READ_VALUE` request for the return value
of that fiber is answered with the expansion of `ctx->exn_val` (the special value null),
not with the expansion of the return value of the fiber (the number 42). -/
theorem read_value_return_value_ignores_fiber :
    sample_dbg_host.devs_fiber_by_tag sample_dbg_ctx 5 = 1 ∧
    (sample_dbg_ctx.fibers 1).ret_val = sample_42 ∧
    sample_dbg_ctx.exn_val = sample_null ∧
    (devsdbg_handle_packet sample_config sample_dbg_config sample_dbg_host sample_world
        (read_return_value_pkt 5) true).map (fun w => w.sent) =
      some [(1, 0x84, { tag := 0x02, v0 := 1, v1 := 0xAAAAAAAA, fn_idx := 0xAAAA })] ∧
    expand_value sample_dbg_config sample_dbg_host sample_dbg_ctx
        sample_dbg_host.uninit_value (sample_dbg_ctx.fibers 1).ret_val =
      some { tag := 0x01, v0 := 0, v1 := 0x40450000, fn_idx := 0xAAAA } ∧
    (devsdbg_handle_packet sample_config sample_dbg_config sample_dbg_host sample_world
        (read_return_value_pkt 6) true).map (fun w => w.sent) =
      some [(1, 0x84, { tag := 0x07, v0 := 0, v1 := 0, fn_idx := 0 })] := by
  decide

/-! ## Debugger: commands without a context -/

theorem open_pipe_zero (cfg : devs_config) (w : dbg_world) (pkt : jd_packet_t)
    (elt_size : Nat) (alloc_ok : Bool) (hsz : elt_size < cfg.JD_SERIAL_PAYLOAD_SIZE - 8) :
    open_pipe cfg w pkt elt_size 0 alloc_ok = some (none, zero_pipe_world w pkt elt_size) := by
  simp [open_pipe, devsdbg_open_results_pipe, devsdbg_pipe_alloc, hsz, zero_pipe_world]

theorem zero_pipe_world_spec (w : dbg_world) (pkt : jd_packet_t) (elt_size : Nat)
    (hctx : w.ctx = none) :
    (zero_pipe_world w pkt elt_size).state.pipe_num_elts = 0 ∧
    (zero_pipe_world w pkt elt_size).state.pipe_curr_elt = 0 ∧
    (zero_pipe_world w pkt elt_size).state.pipe_data = none ∧
    (zero_pipe_world w pkt elt_size).state.results_pipe = { opened := true, accepted := [] } ∧
    (zero_pipe_world w pkt elt_size).state.pipe_cmd = pkt.service_command % 2 ^ 8 ∧
    (zero_pipe_world w pkt elt_size).pipe_cells = [] ∧
    (zero_pipe_world w pkt elt_size).sent = w.sent ∧
    (zero_pipe_world w pkt elt_size).ctx = none ∧
    (zero_pipe_world w pkt elt_size).not_implemented = w.not_implemented := by
  simp [zero_pipe_world, hctx]

/-- C19.  No-context soft failure.  When `devicescriptmgr_get_ctx()` returns `NULL`,
`devsdbg_handle_packet` returns for every read, breakpoint, halt and resume command:
`READ_FIBERS`, `READ_STACK`, `READ_INDEXED_VALUES` and `READ_NAMED_VALUES` open a result
pipe of zero elements (no buffer) and send nothing else, `READ_VALUE` sends one record
tagged unhandled, and the breakpoint, halt and resume commands change nothing.  Hypotheses:
the command codes are pairwise distinct and the element sizes pass the assertion of
`devsdbg_pipe_alloc`. -/
theorem no_context_soft_failure (cfg : devs_config) (dc : dbg_config) (host : dbg_host)
    (w : dbg_world) (pkt : jd_packet_t) (alloc_ok : Bool)
    (hctx : w.ctx = none)
    (hcmds : (dbg_commands dc).Nodup)
    (hword : 4 < cfg.JD_SERIAL_PAYLOAD_SIZE - 8)
    (hframe : dc.sizeof_stackframe < cfg.JD_SERIAL_PAYLOAD_SIZE - 8) :
    ((pkt.service_command = dc.JD_DEVS_DBG_CMD_READ_FIBERS ∨
        pkt.service_command = dc.JD_DEVS_DBG_CMD_READ_STACK ∨
        pkt.service_command = dc.JD_DEVS_DBG_CMD_READ_INDEXED_VALUES ∨
        pkt.service_command = dc.JD_DEVS_DBG_CMD_READ_NAMED_VALUES) →
      ∃ w2, devsdbg_handle_packet cfg dc host w pkt alloc_ok = some w2 ∧
        w2.state.pipe_num_elts = 0 ∧ w2.state.pipe_curr_elt = 0 ∧
        w2.state.pipe_data = none ∧
        w2.state.results_pipe = { opened := true, accepted := [] } ∧
        w2.state.pipe_cmd = pkt.service_command % 2 ^ 8 ∧
        w2.pipe_cells = [] ∧ w2.sent = w.sent ∧ w2.ctx = none ∧
        w2.not_implemented = w.not_implemented) ∧
    (pkt.service_command = dc.JD_DEVS_DBG_CMD_READ_VALUE →
      devsdbg_handle_packet cfg dc host w pkt alloc_ok =
        some { w with
          sent := w.sent ++ [(pkt.service_index, pkt.service_command,
            { tag := dc.JD_DEVS_DBG_VALUE_TAG_UNHANDLED, v0 := 0, v1 := 0, fn_idx := 0 })] }) ∧
    ((pkt.service_command = dc.JD_DEVS_DBG_CMD_CLEAR_BREAKPOINT ∨
        pkt.service_command = dc.JD_DEVS_DBG_CMD_CLEAR_BREAKPOINTS ∨
        pkt.service_command = dc.JD_DEVS_DBG_CMD_SET_BREAKPOINT ∨
        pkt.service_command = dc.JD_DEVS_DBG_CMD_HALT ∨
        pkt.service_command = dc.JD_DEVS_DBG_CMD_RESUME) →
      devsdbg_handle_packet cfg dc host w pkt alloc_ok = some w) := by
  have hone : 1 < cfg.JD_SERIAL_PAYLOAD_SIZE - 8 := by omega
  simp only [dbg_commands, List.nodup_cons, List.mem_cons, List.mem_singleton, not_or,
    List.not_mem_nil, not_false_eq_true, List.nodup_nil, and_true] at hcmds
  obtain ⟨⟨h01, h02, h03, h04, h05, h06, h07, h08, h09, h0a⟩,
    ⟨h12, h13, h14, h15, h16, h17, h18, h19, h1a⟩,
    ⟨h23, h24, h25, h26, h27, h28, h29, h2a⟩,
    ⟨h34, h35, h36, h37, h38, h39, h3a⟩,
    ⟨h45, h46, h47, h48, h49, h4a⟩,
    ⟨h56, h57, h58, h59, h5a⟩,
    ⟨h67, h68, h69, h6a⟩,
    ⟨h78, h79, h7a⟩,
    ⟨h89, h8a⟩, h9a⟩ := hcmds
  refine ⟨?_, ?_, ?_⟩
  · rintro (h | h | h | h)
    · refine ⟨zero_pipe_world w pkt 4, ?_, zero_pipe_world_spec w pkt 4 hctx⟩
      unfold devsdbg_handle_packet
      simp only [h, hctx, if_true, List.length_nil]
      rw [open_pipe_zero cfg w pkt 4 alloc_ok hword]
    · refine ⟨zero_pipe_world w pkt dc.sizeof_stackframe, ?_,
        zero_pipe_world_spec w pkt dc.sizeof_stackframe hctx⟩
      unfold devsdbg_handle_packet
      simp only [h, hctx, Ne.symm h01, if_true, if_false, List.length_nil]
      rw [open_pipe_zero cfg w pkt dc.sizeof_stackframe alloc_ok hframe]
    · refine ⟨zero_pipe_world w pkt 1, ?_, zero_pipe_world_spec w pkt 1 hctx⟩
      unfold devsdbg_handle_packet
      simp only [h, hctx, Ne.symm h02, Ne.symm h12, if_true, if_false, send_empty]
      rw [open_pipe_zero cfg w pkt 1 alloc_ok hone]
      rfl
    · refine ⟨zero_pipe_world w pkt 1, ?_, zero_pipe_world_spec w pkt 1 hctx⟩
      unfold devsdbg_handle_packet
      simp only [h, hctx, Ne.symm h03, Ne.symm h13, Ne.symm h23, if_true, if_false, send_empty]
      rw [open_pipe_zero cfg w pkt 1 alloc_ok hone]
      rfl
  · intro h
    unfold devsdbg_handle_packet
    simp only [h, hctx, Ne.symm h04, Ne.symm h14, Ne.symm h24, Ne.symm h34, if_true, if_false,
      respond_no_value, jd_send]
  · rintro (h | h | h | h | h)
    · unfold devsdbg_handle_packet
      simp only [h, hctx, Ne.symm h05, Ne.symm h15, Ne.symm h25, Ne.symm h35, Ne.symm h45,
        if_true, if_false]
    · unfold devsdbg_handle_packet
      simp only [h, hctx, Ne.symm h06, Ne.symm h16, Ne.symm h26, Ne.symm h36, Ne.symm h46,
        Ne.symm h56, if_true, if_false]
    · unfold devsdbg_handle_packet
      simp only [h, hctx, Ne.symm h07, Ne.symm h17, Ne.symm h27, Ne.symm h37, Ne.symm h47,
        Ne.symm h57, Ne.symm h67, if_true, if_false]
    · unfold devsdbg_handle_packet
      simp only [h, hctx, Ne.symm h08, Ne.symm h18, Ne.symm h28, Ne.symm h38, Ne.symm h48,
        Ne.symm h58, Ne.symm h68, Ne.symm h78, if_true, if_false]
    · unfold devsdbg_handle_packet
      simp only [h, hctx, Ne.symm h09, Ne.symm h19, Ne.symm h29, Ne.symm h39, Ne.symm h49,
        Ne.symm h59, Ne.symm h69, Ne.symm h79, Ne.symm h89, if_true, if_false]

/-- C19 at the sample configuration: a `READ_VALUE` request without a context is answered
with the record tagged unhandled. -/
theorem no_context_soft_failure_witness :
    no_ctx_world.ctx = none ∧ (dbg_commands sample_dbg_config).Nodup ∧
    4 < sample_config.JD_SERIAL_PAYLOAD_SIZE - 8 ∧
    sample_dbg_config.sizeof_stackframe < sample_config.JD_SERIAL_PAYLOAD_SIZE - 8 ∧
    devsdbg_handle_packet sample_config sample_dbg_config sample_dbg_host no_ctx_world
        (read_return_value_pkt 5) true =
      some { no_ctx_world with
        sent := no_ctx_world.sent ++ [((read_return_value_pkt 5).service_index,
          (read_return_value_pkt 5).service_command,
          { tag := sample_dbg_config.JD_DEVS_DBG_VALUE_TAG_UNHANDLED,
            v0 := 0, v1 := 0, fn_idx := 0 })] } :=
  ⟨rfl, by decide, by decide, by decide,
    (no_context_soft_failure sample_config sample_dbg_config sample_dbg_host no_ctx_world
      (read_return_value_pkt 5) true rfl (by decide) (by decide) (by decide)).2.1 rfl⟩

/-! ## The jump table -/

theorem getD_set_cases (tbl : List Nat) (k v h : Nat) :
    (tbl.set k v).getD h 0 = tbl.getD h 0 ∨ (h = k ∧ (tbl.set k v).getD h 0 = v) := by
  by_cases e : k = h
  · subst e
    by_cases hl : k < tbl.length
    · right
      simp [List.getD_eq_getElem?_getD, List.getElem?_set, hl]
    · left
      rw [List.set_eq_of_length_le (by omega)]
  · left
    simp [List.getD_eq_getElem?_getD, List.getElem?_set, e]

theorem getD_set_ne (tbl : List Nat) (k v h : Nat) (e : k ≠ h) :
    (tbl.set k v).getD h 0 = tbl.getD h 0 := by
  simp [List.getD_eq_getElem?_getD, List.getElem?_set, e]

theorem getD_set_self (tbl : List Nat) (k v : Nat) (hl : k < tbl.length) :
    (tbl.set k v).getD k 0 = v := by
  simp [List.getD_eq_getElem?_getD, List.getElem?_set, hl]

theorem brk_hash_lt (cfg : devs_config) (x : Nat) (h : 0 < cfg.DEVS_BRK_HASH_SIZE) :
    brk_hash cfg x < cfg.DEVS_BRK_HASH_SIZE := by
  have := @Nat.and_le_right x (cfg.DEVS_BRK_HASH_SIZE - 1)
  unfold brk_hash
  omega

theorem recompute_loop_length (cfg : devs_config) :
    ∀ (l : List Nat) (i : Nat) (tbl : List Nat),
      (recompute_loop cfg i l tbl).length = tbl.length := by
  intro l
  induction l with
  | nil => intro i tbl; rfl
  | cons x rest ih =>
    intro i tbl
    unfold recompute_loop
    split
    · rw [ih, List.length_set]
    · rw [ih]

/-- The loop of `recompute_brk_jump_tbl` never overwrites a nonzero entry. -/
theorem recompute_loop_keep (cfg : devs_config) (h : Nat) :
    ∀ (l : List Nat) (i : Nat) (tbl : List Nat), tbl.getD h 0 ≠ 0 →
      (recompute_loop cfg i l tbl).getD h 0 = tbl.getD h 0 := by
  intro l
  induction l with
  | nil => intro i tbl _; rfl
  | cons x rest ih =>
    intro i tbl hnz
    unfold recompute_loop
    split
    · rename_i hc
      have hne : brk_hash cfg x ≠ h := by
        intro e
        rw [e] at hc
        exact hnz hc.2
      have e := getD_set_ne tbl (brk_hash cfg x) (i % 256) h hne
      rw [ih (i + 1) _ (by rw [e]; exact hnz), e]
    · exact ih (i + 1) tbl hnz

/-- The loop of `recompute_brk_jump_tbl` skips the zero slots at the end of the array. -/
theorem recompute_loop_append_zeros (cfg : devs_config) (k : Nat) :
    ∀ (l : List Nat) (i : Nat) (tbl : List Nat),
      recompute_loop cfg i (l ++ List.replicate k 0) tbl = recompute_loop cfg i l tbl := by
  intro l
  induction l with
  | nil =>
    intro i tbl
    simp only [List.nil_append, recompute_loop_zeros]
    rfl
  | cons x rest ih =>
    intro i tbl
    have e : (x :: rest) ++ List.replicate k 0 = x :: (rest ++ List.replicate k 0) := rfl
    rw [e]
    unfold recompute_loop
    rw [ih, ih]

/-- Every nonzero entry that the loop of `recompute_brk_jump_tbl` leaves in the table was
there before or is the (byte-sized) index of a live slot of its bucket. -/
theorem recompute_loop_sound (cfg : devs_config) (h : Nat) :
    ∀ (l : List Nat) (i : Nat) (tbl : List Nat),
      (recompute_loop cfg i l tbl).getD h 0 = tbl.getD h 0 ∨
      ∃ j, j < l.length ∧ l.getD j 0 ≠ 0 ∧ brk_hash cfg (l.getD j 0) = h ∧
        (recompute_loop cfg i l tbl).getD h 0 = (i + j) % 256 := by
  intro l
  induction l with
  | nil => intro i tbl; left; rfl
  | cons x rest ih =>
    intro i tbl
    unfold recompute_loop
    split
    · rename_i hc
      rcases ih (i + 1) (tbl.set (brk_hash cfg x) (i % 256)) with e | ⟨j, hj, hnz, hh, e⟩
      · rcases getD_set_cases tbl (brk_hash cfg x) (i % 256) h with e2 | ⟨e2, e3⟩
        · left
          rw [e, e2]
        · right
          refine ⟨0, by simp, ?_, ?_, ?_⟩
          · simpa using hc.1
          · simpa using e2.symm
          · rw [e, e3]
            rfl
      · right
        refine ⟨j + 1, by simpa using hj, ?_, ?_, ?_⟩
        · simpa using hnz
        · simpa using hh
        · rw [e]
          congr 1
          omega
    · rcases ih (i + 1) tbl with e | ⟨j, hj, hnz, hh, e⟩
      · left
        exact e
      · right
        refine ⟨j + 1, by simpa using hj, ?_, ?_, ?_⟩
        · simpa using hnz
        · simpa using hh
        · rw [e]
          congr 1
          omega

/-- The loop of `recompute_brk_jump_tbl` stores, for a bucket whose entry is still zero, the
index of the first live slot of the bucket whose (byte-sized) index is not zero. -/
theorem recompute_loop_first (cfg : devs_config) (h : Nat) :
    ∀ (l : List Nat) (i j : Nat) (tbl : List Nat), tbl.getD h 0 = 0 → h < tbl.length →
      j < l.length → l.getD j 0 ≠ 0 → brk_hash cfg (l.getD j 0) = h → (i + j) % 256 ≠ 0 →
      (∀ j2, j2 < j → l.getD j2 0 ≠ 0 → brk_hash cfg (l.getD j2 0) = h → (i + j2) % 256 = 0) →
      (recompute_loop cfg i l tbl).getD h 0 = (i + j) % 256 := by
  intro l
  induction l with
  | nil => intro i j tbl _ _ hj; simp at hj
  | cons x rest ih =>
    intro i j tbl hz hlen hj hnz hh hmod hfirst
    cases j with
    | zero =>
      simp only [List.getD_cons_zero] at hnz hh
      have hc : x ≠ 0 ∧ tbl.getD (brk_hash cfg x) 0 = 0 := ⟨hnz, by rw [hh]; exact hz⟩
      unfold recompute_loop
      rw [if_pos hc, hh]
      have e := getD_set_self tbl h (i % 256) hlen
      rw [recompute_loop_keep cfg h rest (i + 1) _ (by rw [e]; simpa using hmod), e]
      rfl
    | succ j =>
      simp only [List.getD_cons_succ] at hnz hh
      have hj2 : j < rest.length := by simpa using hj
      have hmod2 : (i + 1 + j) % 256 ≠ 0 := by
        have : i + 1 + j = i + (j + 1) := by omega
        rw [this]
        exact hmod
      have hfirst2 : ∀ j2, j2 < j → rest.getD j2 0 ≠ 0 → brk_hash cfg (rest.getD j2 0) = h →
          (i + 1 + j2) % 256 = 0 := by
        intro j2 h1 h2 h3
        have := hfirst (j2 + 1) (by omega) (by simpa using h2) (by simpa using h3)
        have e : i + 1 + j2 = i + (j2 + 1) := by omega
        rw [e]
        exact this
      have e : i + (j + 1) = i + 1 + j := by omega
      rw [e]
      unfold recompute_loop
      split
      · rename_i hc
        have hz2 : (tbl.set (brk_hash cfg x) (i % 256)).getD h 0 = 0 := by
          rcases getD_set_cases tbl (brk_hash cfg x) (i % 256) h with e2 | ⟨e2, e3⟩
          · rw [e2]
            exact hz
          · rw [e3]
            have := hfirst 0 (by omega) (by simpa using hc.1) (by simpa using e2.symm)
            simpa using this
        exact ih (i + 1) j _ hz2 (by rw [List.length_set]; exact hlen) hj2 hnz hh hmod2 hfirst2
      · exact ih (i + 1) j tbl hz hlen hj2 hnz hh hmod2 hfirst2

/-- The jump table of a reachable context is the one `recompute_brk_jump_tbl` computes from
its breakpoint array. -/
theorem brk_reachable_tbl (cfg : devs_config) (ctx : devs_ctx) (h : brk_reachable cfg ctx) :
    ctx.brk_jump_tbl =
      recompute_loop cfg 0 ctx.brk_list (List.replicate cfg.DEVS_BRK_HASH_SIZE 0) := by
  induction h with
  | empty ctx h1 h2 =>
    rw [h1, h2]
    rfl
  | set ctx ctx2 pc r hr hs ih =>
    obtain ⟨⟨live, k, hl, hnz, hc, ha⟩, -⟩ := brk_reachable_inv cfg ctx hr
    by_cases hfit : pc % 2 ^ cfg.devs_pc_bits = pc
    · by_cases hpc : pc = 0
      · simp [devs_vm_set_breakpoint, hpc] at hs
        rw [← hs.2]
        exact ih
      · rcases set_breakpoint_spec cfg ctx pc live k hl hnz hc ha hpc hfit with
          ⟨-, -, e⟩ | ⟨-, -, k2, e, -⟩ | ⟨-, -, a, b, k2, -, e, -, -, -⟩
        · rw [e] at hs
          simp at hs
          rw [← hs.2]
          exact ih
        · rw [e] at hs
          simp at hs
          rw [← hs.2]
          simp only
          rw [ih, hl, recompute_loop_append_zeros, recompute_loop_append_zeros]
        · rw [e] at hs
          simp at hs
          rw [← hs.2]
          rfl
    · simp [devs_vm_set_breakpoint, hfit] at hs
  | clear ctx ctx2 pc r hr hs ih =>
    obtain ⟨⟨live, k, hl, -, -, -⟩, -⟩ := brk_reachable_inv cfg ctx hr
    by_cases hpc : pc = 0
    · simp [devs_vm_clear_breakpoint, hpc] at hs
      rw [← hs.2]
      exact ih
    · by_cases hfit : pc % 2 ^ cfg.devs_pc_bits = pc
      · rcases clear_breakpoint_spec cfg ctx pc live k hl hpc hfit with
          ⟨-, e⟩ | ⟨a, b, -, -, e⟩
        · rw [e] at hs
          simp at hs
          rw [← hs.2]
          exact ih
        · rw [e] at hs
          simp at hs
          rw [← hs.2]
          rfl
      · simp [devs_vm_clear_breakpoint, hpc, hfit] at hs
  | clear_all ctx _ _ => rfl

theorem mem_brk_live_of_getD (ctx : devs_ctx) (j : Nat) (h : ctx.brk_list.getD j 0 ≠ 0) :
    ctx.brk_list.getD j 0 ∈ brk_live ctx := by
  unfold brk_live
  rw [List.mem_filter]
  refine ⟨?_, by simpa using h⟩
  by_cases hj : j < ctx.brk_list.length
  · rw [List.getD_eq_getElem _ _ hj]
    exact List.getElem_mem _
  · rw [List.getD_eq_default _ _ (by omega)] at h
    exact absurd rfl h

/-- What the jump table of a reachable context holds, when the indices fit its byte-sized
entries: a nonzero entry is the index of a live slot of its bucket; the entry of a bucket
without live entry is zero; and the entry of a bucket is the first index from 1 on of a
live slot of the bucket, so that a live entry in slot 0 is not designated. -/
theorem jump_tbl_entries (cfg : devs_config) (ctx : devs_ctx) (h : brk_reachable cfg ctx)
    (hhash : 0 < cfg.DEVS_BRK_HASH_SIZE) (hbyte : cfg.DEVS_BRK_MAX_COUNT ≤ 256) (b : Nat) :
    (ctx.brk_jump_tbl.getD b 0 ≠ 0 →
      ctx.brk_jump_tbl.getD b 0 < ctx.brk_count ∧
      ctx.brk_list.getD (ctx.brk_jump_tbl.getD b 0) 0 ≠ 0 ∧
      brk_hash cfg (ctx.brk_list.getD (ctx.brk_jump_tbl.getD b 0) 0) = b) ∧
    ((∀ x ∈ brk_live ctx, brk_hash cfg x ≠ b) → ctx.brk_jump_tbl.getD b 0 = 0) ∧
    (∀ j, 1 ≤ j → j < ctx.brk_count → ctx.brk_list.getD j 0 ≠ 0 →
      brk_hash cfg (ctx.brk_list.getD j 0) = b →
      (∀ j2, 1 ≤ j2 → j2 < j → ctx.brk_list.getD j2 0 ≠ 0 →
        brk_hash cfg (ctx.brk_list.getD j2 0) ≠ b) →
      ctx.brk_jump_tbl.getD b 0 = j) := by
  have htbl := brk_reachable_tbl cfg ctx h
  have hlen := (brk_reachable_inv cfg ctx h).2
  have hzero : (List.replicate cfg.DEVS_BRK_HASH_SIZE 0).getD b 0 = 0 := by
    rw [List.getD_eq_getElem?_getD, List.getElem?_replicate]
    split <;> rfl
  have hsound : ctx.brk_jump_tbl.getD b 0 ≠ 0 →
      ctx.brk_jump_tbl.getD b 0 < ctx.brk_count ∧
      ctx.brk_list.getD (ctx.brk_jump_tbl.getD b 0) 0 ≠ 0 ∧
      brk_hash cfg (ctx.brk_list.getD (ctx.brk_jump_tbl.getD b 0) 0) = b := by
    intro hnz
    rcases recompute_loop_sound cfg b ctx.brk_list 0 (List.replicate cfg.DEVS_BRK_HASH_SIZE 0)
      with e | ⟨j, hj, h1, h2, e⟩
    · rw [← htbl, hzero] at e
      exact absurd e hnz
    · rw [← htbl] at e
      have e2 : ctx.brk_jump_tbl.getD b 0 = j := by
        rw [e, Nat.zero_add]
        exact Nat.mod_eq_of_lt (by omega)
      rw [e2]
      exact ⟨hj, h1, h2⟩
  refine ⟨hsound, ?_, ?_⟩
  · intro hno
    by_contra hnz
    obtain ⟨-, h1, h2⟩ := hsound hnz
    exact hno _ (mem_brk_live_of_getD ctx _ h1) h2
  · intro j hj1 hj hnz hh hfirst
    have hj' : j < ctx.brk_list.length := hj
    have hb : b < (List.replicate cfg.DEVS_BRK_HASH_SIZE 0).length := by
      rw [List.length_replicate, ← hh]
      exact brk_hash_lt cfg _ hhash
    have hm : (0 + j) % 256 = j := by
      rw [Nat.zero_add]
      exact Nat.mod_eq_of_lt (by omega)
    have e := recompute_loop_first cfg b ctx.brk_list 0 j
      (List.replicate cfg.DEVS_BRK_HASH_SIZE 0) hzero hb hj' hnz hh (by rw [hm]; omega)
      (by
        intro j2 h1 h2 h3
        by_cases hz : j2 = 0
        · rw [hz]
        · exact absurd h3 (hfirst j2 (by omega) h1 h2))
    rw [htbl, e, hm]

/-- C21 (evaluation of the code).  After breakpoints 5 and 37, which fall in bucket 5, are
set on an empty table, the array is `[5, 37, 0, ...]`: the first index of the bucket is 0
(the entry 5), but the jump table entry of the bucket is 1 (the entry 37), so the check
starts behind the smallest entry of the bucket and misses 5.  After a single breakpoint 10
on an empty table the entry of its bucket is 0, the value of a bucket without entries. -/
theorem jump_tbl_skips_slot_zero :
    brk_pair.brk_list = [5, 37, 0, 0, 0, 0, 0, 0] ∧
    brk_hash sample_config 5 = 5 ∧ brk_hash sample_config 37 = 5 ∧
    brk_pair.brk_jump_tbl.getD 5 0 = 1 ∧
    chk_at sample_config 5 brk_pair = some false ∧
    chk_at sample_config 37 brk_pair = some true ∧
    (set_get sample_config 10 sample_ctx).brk_list = [10, 0, 0, 0, 0, 0, 0, 0] ∧
    (set_get sample_config 10 sample_ctx).brk_jump_tbl.getD (brk_hash sample_config 10) 0
      = 0 := by
  decide

/-! ## Breakpoint hits -/

theorem chk_scan_true_mem (pc : Nat) :
    ∀ l : List Nat, chk_scan pc l = some true → pc ∈ l := by
  intro l
  induction l with
  | nil => intro h; simp [chk_scan] at h
  | cons x rest ih =>
    intro h
    unfold chk_scan at h
    by_cases h1 : pc ≥ x
    · by_cases h2 : pc = x
      · rw [h2]
        exact List.mem_cons_self _ _
      · rw [if_pos h1, if_neg h2] at h
        exact List.mem_cons_of_mem _ (ih h)
    · rw [if_neg h1] at h
      simp at h

/-- A nonzero jump-table entry of a reachable context is the index of a live slot. -/
theorem jump_tbl_sound (cfg : devs_config) (ctx : devs_ctx) (h : brk_reachable cfg ctx)
    (hbyte : cfg.DEVS_BRK_MAX_COUNT ≤ 256) (b : Nat) (hnz : ctx.brk_jump_tbl.getD b 0 ≠ 0) :
    ctx.brk_jump_tbl.getD b 0 < ctx.brk_list.length ∧
    ctx.brk_list.getD (ctx.brk_jump_tbl.getD b 0) 0 ≠ 0 := by
  have htbl := brk_reachable_tbl cfg ctx h
  have hlen := (brk_reachable_inv cfg ctx h).2
  have hzero : (List.replicate cfg.DEVS_BRK_HASH_SIZE 0).getD b 0 = 0 := by
    rw [List.getD_eq_getElem?_getD, List.getElem?_replicate]
    split <;> rfl
  rcases recompute_loop_sound cfg b ctx.brk_list 0 (List.replicate cfg.DEVS_BRK_HASH_SIZE 0)
    with e | ⟨j, hj, h1, -, e⟩
  · rw [← htbl, hzero] at e
    exact absurd e hnz
  · rw [← htbl] at e
    have e2 : ctx.brk_jump_tbl.getD b 0 = j := by
      rw [e, Nat.zero_add]
      exact Nat.mod_eq_of_lt (by omega)
    rw [e2]
    exact ⟨hj, h1⟩

/-- On a reachable table the check at program counter 0 returns false, whatever the memory
behind the array holds. -/
theorem chk_brk_pc_zero (cfg : devs_config) (ctx : devs_ctx) (frame : devs_activation)
    (h : brk_reachable cfg ctx) (hbyte : cfg.DEVS_BRK_MAX_COUNT ≤ 256) (hpc : frame.pc = 0) :
    devs_vm_chk_brk cfg ctx frame = some (chk_brk_result.returned_false ctx) := by
  unfold devs_vm_chk_brk
  simp only [hpc]
  by_cases hi : ctx.brk_jump_tbl.getD (brk_hash cfg 0) 0 = 0
  · rw [if_neg (not_not_intro hi)]
  · obtain ⟨hlt, hnz⟩ := jump_tbl_sound cfg ctx h hbyte _ hi
    rw [List.getD_eq_getElem _ _ hlt] at hnz
    have hlt2 : ctx.brk_jump_tbl.getD (brk_hash cfg 0) 0
        < (ctx.brk_list ++ ctx.brk_behind).length := by
      rw [List.length_append]
      omega
    rw [if_pos hi, List.drop_eq_getElem_cons hlt2, List.getElem_append_left hlt]
    have hno : ¬ (0 ≥ ctx.brk_list[ctx.brk_jump_tbl.getD (brk_hash cfg 0) 0]) := by omega
    simp only [chk_scan, hno, if_false]

/-- When the check of `devs_vm_chk_brk` hits, the call ends in `devs_vm_suspend` with the
breakpoint cause, and the program counter is a word of the array or of the memory behind
it. -/
theorem chk_brk_hit_eq (cfg : devs_config) (ctx : devs_ctx) (frame : devs_activation)
    (hhit : (devs_vm_chk_brk cfg ctx frame).map chk_brk_result.is_hit = some true) :
    devs_vm_chk_brk cfg ctx frame
      = some (chk_brk_result.suspend_stop
          (devs_vm_suspend ctx cfg.JD_DEVS_DBG_SUSPENSION_TYPE_BREAKPOINT)) ∧
    (frame.pc ∈ ctx.brk_list ∨ frame.pc ∈ ctx.brk_behind) := by
  unfold devs_vm_chk_brk at hhit ⊢
  simp only at hhit ⊢
  by_cases hi : ctx.brk_jump_tbl.getD (brk_hash cfg frame.pc) 0 = 0
  · rw [if_neg (not_not_intro hi)] at hhit
    simp [chk_brk_result.is_hit] at hhit
  · rw [if_pos hi] at hhit ⊢
    cases hs : chk_scan frame.pc
        ((ctx.brk_list ++ ctx.brk_behind).drop
          (ctx.brk_jump_tbl.getD (brk_hash cfg frame.pc) 0)) with
    | none =>
      rw [hs] at hhit
      simp at hhit
    | some r =>
      cases r with
      | false =>
        rw [hs] at hhit
        simp [chk_brk_result.is_hit] at hhit
      | true =>
        refine ⟨rfl, ?_⟩
        exact List.mem_append.1 (List.mem_of_mem_drop (chk_scan_true_mem _ _ hs))

/-- Hits inside the table are genuine: on every table reachable by set, clear and clear-all
(with indices that fit the byte-sized jump table), a hit of the check is at a live entry or
at a word of the memory behind the array; at program counter 0 the check returns false; and
right after `devs_vm_clear_breakpoints` the check returns false at every program counter. -/
theorem hit_is_live_or_behind (cfg : devs_config) (ctx : devs_ctx) (frame : devs_activation)
    (h : brk_reachable cfg ctx) (hbyte : cfg.DEVS_BRK_MAX_COUNT ≤ 256) :
    ((devs_vm_chk_brk cfg ctx frame).map chk_brk_result.is_hit = some true →
      frame.pc ∈ brk_live ctx ∨ frame.pc ∈ ctx.brk_behind) ∧
    (frame.pc = 0 →
      devs_vm_chk_brk cfg ctx frame = some (chk_brk_result.returned_false ctx)) ∧
    devs_vm_chk_brk cfg (devs_vm_clear_breakpoints cfg ctx) frame
      = some (chk_brk_result.returned_false (devs_vm_clear_breakpoints cfg ctx)) := by
  refine ⟨?_, chk_brk_pc_zero cfg ctx frame h hbyte, chk_brk_zero_table cfg _ frame rfl⟩
  intro hhit
  have hpc : frame.pc ≠ 0 := by
    intro e
    rw [chk_brk_pc_zero cfg ctx frame h hbyte e] at hhit
    simp [chk_brk_result.is_hit] at hhit
  rcases (chk_brk_hit_eq cfg ctx frame hhit).2 with hm | hm
  · left
    unfold brk_live
    rw [List.mem_filter]
    exact ⟨hm, by simpa using hpc⟩
  · right
    exact hm

/-- C23 (evaluation of the code).  The table is the reachable one of the scenario (10, 5, 20
set on an empty table), and the heap word behind the array holds 37.  The check at program
counter 37, which was never set, enters the scan at index 1, passes the zero slots, reads
index 8 (`brk_count`) behind the array, finds 37 there and ends in `devs_vm_suspend`: a hit
at a program counter that is not a live entry. -/
theorem false_breakpoint_hit :
    brk_reachable sample_config brk_behind_scenario ∧
    brk_behind_scenario.brk_list = [10, 5, 20, 0, 0, 0, 0, 0] ∧
    brk_behind_scenario.brk_behind = [37] ∧
    brk_live brk_behind_scenario = [10, 5, 20] ∧
    chk_brk_reads sample_config brk_behind_scenario { pc := 37, maxpc := 38 }
      = [1, 2, 3, 4, 5, 6, 7, 8] ∧
    chk_at sample_config 37 brk_behind_scenario = some true ∧
    ((devs_vm_chk_brk sample_config brk_behind_scenario { pc := 37, maxpc := 38 }).map
      (fun r => match r with
        | chk_brk_result.suspend_stop c => c.suspension
        | chk_brk_result.returned_false c => c.suspension)) = some 2 :=
  ⟨brk_reachable_set_get _ _ _ (brk_reachable_set_get _ _ _ (brk_reachable_set_get _ _ _
      (brk_reachable.empty _ rfl rfl))),
    by decide, by decide, by decide, by decide, by decide, by decide⟩

/-! ## A breakpoint hit consumes nothing -/

/-- C22 (the claim as stated fails).  The frame stands at the live breakpoint 5 and the
check hits, but the step does not return: `devs_vm_suspend` ends in `TODO()`, the
not-implemented stop, so `devs_vm_exec_opcode` has no result. -/
theorem breakpoint_hit_step_does_not_return :
    chk_at sample_config 5 hit_ctx = some true ∧
    (hit_ctx.frames 1).pc = 5 ∧
    (devs_vm_exec_opcode sample_config idle_host hit_ctx 1).isNone = true := by
  decide

/-- C22 (amended).  A breakpoint hit consumes nothing.  When the breakpoint check hits at the
program counter of the frame, the step ends inside the check: `devs_vm_suspend` stores the
breakpoint cause in `suspension` and the program stops at its `TODO()`, so the step does not
return.  In the context at the stop the frames (with their `pc`), the value stack and its
height, `literal_int`, `jmp_pc`, `stack_top_for_gc`, the image and the failures are as
before the step; no opcode is fetched, and the outcome is the same for every table of
opcode handlers, so no handler is called. -/
theorem breakpoint_hit_consumes_nothing (cfg : devs_config) (host : devs_host)
    (ctx : devs_ctx) (frame : Nat)
    (hhit : (devs_vm_chk_brk cfg ctx (ctx.frames frame)).map chk_brk_result.is_hit
      = some true) :
    exec_decode cfg host ctx frame
      = some (exec_decoded.suspended
          (devs_vm_suspend ctx cfg.JD_DEVS_DBG_SUSPENSION_TYPE_BREAKPOINT)) ∧
    devs_vm_exec_opcode cfg host ctx frame = none ∧
    (devs_vm_suspend ctx cfg.JD_DEVS_DBG_SUSPENSION_TYPE_BREAKPOINT).suspension
      = cfg.JD_DEVS_DBG_SUSPENSION_TYPE_BREAKPOINT ∧
    (devs_vm_suspend ctx cfg.JD_DEVS_DBG_SUSPENSION_TYPE_BREAKPOINT).not_implemented
      = ctx.not_implemented + 1 ∧
    (devs_vm_suspend ctx cfg.JD_DEVS_DBG_SUSPENSION_TYPE_BREAKPOINT).frames = ctx.frames ∧
    (devs_vm_suspend ctx cfg.JD_DEVS_DBG_SUSPENSION_TYPE_BREAKPOINT).the_stack
      = ctx.the_stack ∧
    (devs_vm_suspend ctx cfg.JD_DEVS_DBG_SUSPENSION_TYPE_BREAKPOINT).stack_top
      = ctx.stack_top ∧
    (devs_vm_suspend ctx cfg.JD_DEVS_DBG_SUSPENSION_TYPE_BREAKPOINT).literal_int
      = ctx.literal_int ∧
    (devs_vm_suspend ctx cfg.JD_DEVS_DBG_SUSPENSION_TYPE_BREAKPOINT).jmp_pc = ctx.jmp_pc ∧
    (devs_vm_suspend ctx cfg.JD_DEVS_DBG_SUSPENSION_TYPE_BREAKPOINT).stack_top_for_gc
      = ctx.stack_top_for_gc ∧
    (devs_vm_suspend ctx cfg.JD_DEVS_DBG_SUSPENSION_TYPE_BREAKPOINT).img_data
      = ctx.img_data ∧
    (devs_vm_suspend ctx cfg.JD_DEVS_DBG_SUSPENSION_TYPE_BREAKPOINT).failures
      = ctx.failures ∧
    ∀ host2 : devs_host,
      exec_decode cfg host2 ctx frame = exec_decode cfg host ctx frame := by
  have e := (chk_brk_hit_eq cfg ctx (ctx.frames frame) hhit).1
  have hx : ∀ hst : devs_host, exec_decode cfg hst ctx frame
      = some (exec_decoded.suspended
          (devs_vm_suspend ctx cfg.JD_DEVS_DBG_SUSPENSION_TYPE_BREAKPOINT)) := by
    intro hst
    unfold exec_decode
    rw [e]
  refine ⟨hx host, ?_, rfl, rfl, rfl, rfl, rfl, rfl, rfl, rfl, rfl, rfl, ?_⟩
  · unfold devs_vm_exec_opcode
    rw [hx host]
  · intro host2
    rw [hx host2, hx host]

/-- C22 (amended) at the scenario table: the frame stands at the breakpoint 5. -/
theorem breakpoint_hit_consumes_nothing_witness :
    (devs_vm_chk_brk sample_config hit_ctx (hit_ctx.frames 1)).map chk_brk_result.is_hit
      = some true ∧
    devs_vm_exec_opcode sample_config idle_host hit_ctx 1 = none ∧
    (devs_vm_suspend hit_ctx sample_config.JD_DEVS_DBG_SUSPENSION_TYPE_BREAKPOINT).suspension
      = 2 :=
  ⟨by decide,
    (breakpoint_hit_consumes_nothing sample_config idle_host hit_ctx 1 (by decide)).2.1,
    (breakpoint_hit_consumes_nothing sample_config idle_host hit_ctx 1 (by decide)).2.2.1⟩

/-! ## Termination of the pump and the bound of its cursor -/

theorem process_run_closed (tr : Nat → jd_pipe_status) (fuel : Nat) (st : srv_state)
    (h : st.pipe_cmd = 0) : process_run tr (fuel + 1) st = some (st, 0, []) := by
  simp [process_run, h]

theorem stop_pipe_fields (st : srv_state) :
    (devsdbg_stop_pipe st).pipe_num_elts = st.pipe_num_elts ∧
    (devsdbg_stop_pipe st).pipe_elt_size = st.pipe_elt_size ∧
    (devsdbg_stop_pipe st).pipe_curr_elt = st.pipe_curr_elt := by
  unfold devsdbg_stop_pipe
  by_cases hc : st.pipe_cmd = 0
  · rw [if_pos hc]
    exact ⟨rfl, rfl, rfl⟩
  · rw [if_neg hc]
    exact ⟨rfl, rfl, rfl⟩

/-- One run of the loop of `devsdbg_process` from a cursor that is `d` elements before the
count `K`: the loop ends within `d + 1` executions of its body, the traced run and the
loop end in the same state, every offset passed to the transport is that of an element
below `K`, and the cursor stays at or below `K`. -/
theorem process_run_spec (tr : Nat → jd_pipe_status) (K sz : Nat) (hK : K < 2 ^ 16) :
    ∀ (d fuel : Nat) (st : srv_state), st.pipe_num_elts = K → st.pipe_elt_size = sz →
      st.pipe_curr_elt ≤ K → K - st.pipe_curr_elt = d → d + 2 ≤ fuel →
      ∃ st2 n offs, process_run tr fuel st = some (st2, n, offs) ∧
        devsdbg_process_loop tr fuel st = some st2 ∧ n ≤ d + 1 ∧
        (∀ off ∈ offs, ∃ c, st.pipe_curr_elt ≤ c ∧ c < K ∧ off = c * sz) ∧
        st2.pipe_curr_elt ≤ K ∧ st2.pipe_num_elts = K ∧ st2.pipe_elt_size = sz := by
  intro d
  induction d with
  | zero =>
    intro fuel st h1 h2 h3 hd hfuel
    obtain ⟨fuel, rfl⟩ : ∃ f, fuel = f + 2 := ⟨fuel - 2, by omega⟩
    by_cases hopen : st.pipe_cmd = 0
    · exact ⟨st, 0, [], process_run_closed tr _ st hopen, process_loop_closed tr _ st hopen,
        by omega, by simp, h3, h1, h2⟩
    · have hge : st.pipe_curr_elt ≥ st.pipe_num_elts := by omega
      obtain ⟨s1, s2, s3⟩ := stop_pipe_fields st
      refine ⟨devsdbg_stop_pipe st, 1, [], ?_, ?_, by omega, by simp, by omega,
        by rw [s1, h1], by rw [s2, h2]⟩
      · rw [process_run]
        rw [if_neg hopen, if_pos hge, process_run_closed tr fuel _ (stop_pipe_closed st)]
        rfl
      · rw [devsdbg_process_loop]
        rw [if_neg hopen, if_pos hge]
        exact process_loop_closed tr fuel _ (stop_pipe_closed st)
  | succ d ih =>
    intro fuel st h1 h2 h3 hd hfuel
    obtain ⟨fuel, rfl⟩ : ∃ f, fuel = f + 1 := ⟨fuel - 1, by omega⟩
    by_cases hopen : st.pipe_cmd = 0
    · exact ⟨st, 0, [], process_run_closed tr _ st hopen, process_loop_closed tr _ st hopen,
        by omega, by simp, h3, h1, h2⟩
    · have hlt : ¬ st.pipe_curr_elt ≥ st.pipe_num_elts := by omega
      have hoff : ∃ c, st.pipe_curr_elt ≤ c ∧ c < K ∧
          st.pipe_curr_elt * st.pipe_elt_size = c * sz :=
        ⟨st.pipe_curr_elt, Nat.le_refl _, by omega, by rw [h2]⟩
      rw [process_run, devsdbg_process_loop]
      rw [if_neg hopen, if_neg hlt, if_neg hopen, if_neg hlt]
      cases hr : tr st.write_calls with
      | OK =>
        have hmod : (st.pipe_curr_elt + 1) % 2 ^ 16 = st.pipe_curr_elt + 1 :=
          Nat.mod_eq_of_lt (by omega)
        obtain ⟨st2, n, offs, e1, e2, e3, e4, e5, e6, e7⟩ := ih fuel
          { (jd_opipe_write tr st (st.pipe_curr_elt * st.pipe_elt_size) st.pipe_elt_size).2 with
            pipe_curr_elt :=
              ((jd_opipe_write tr st (st.pipe_curr_elt * st.pipe_elt_size)
                st.pipe_elt_size).2.pipe_curr_elt + 1) % 2 ^ 16 }
          h1 h2 (by simp only [jd_opipe_write, hmod]; omega)
          (by simp only [jd_opipe_write, hmod]; omega) (by omega)
        simp only [jd_opipe_write, hmod] at e4
        refine ⟨st2, n + 1, st.pipe_curr_elt * st.pipe_elt_size :: offs, ?_, ?_, by omega,
          ?_, e5, e6, e7⟩
        · simp only [jd_opipe_write, hr] at e1 ⊢
          rw [e1]
          rfl
        · simp only [jd_opipe_write, hr] at e2 ⊢
          exact e2
        · intro off hoffm
          rcases List.mem_cons.1 hoffm with rfl | hm
          · exact hoff
          · obtain ⟨c, c1, c2, c3⟩ := e4 off hm
            exact ⟨c, by omega, c2, c3⟩
      | TRY_AGAIN =>
        refine ⟨(jd_opipe_write tr st (st.pipe_curr_elt * st.pipe_elt_size)
          st.pipe_elt_size).2, 1, [st.pipe_curr_elt * st.pipe_elt_size], ?_, ?_, by omega,
          ?_, h3, h1, h2⟩
        · simp only [jd_opipe_write, hr]
        · simp only [jd_opipe_write, hr]
        · intro off hoffm
          rw [List.mem_singleton] at hoffm
          rw [hoffm]
          exact hoff
      | error code =>
        obtain ⟨fuel, rfl⟩ : ∃ f, fuel = f + 1 := ⟨fuel - 1, by omega⟩
        obtain ⟨s1, s2, s3⟩ := stop_pipe_fields
          (jd_opipe_write tr st (st.pipe_curr_elt * st.pipe_elt_size) st.pipe_elt_size).2
        refine ⟨devsdbg_stop_pipe (jd_opipe_write tr st
          (st.pipe_curr_elt * st.pipe_elt_size) st.pipe_elt_size).2, 1,
          [st.pipe_curr_elt * st.pipe_elt_size], ?_, ?_, by omega, ?_, ?_, ?_, ?_⟩
        · simp only [jd_opipe_write, hr]
          rw [process_run_closed tr fuel _ (stop_pipe_closed _)]
          rfl
        · simp only [jd_opipe_write, hr]
          exact process_loop_closed tr fuel _ (stop_pipe_closed _)
        · intro off hoffm
          rw [List.mem_singleton] at hoffm
          rw [hoffm]
          exact hoff
        · rw [s3]
          exact h3
        · rw [s1]
          exact h1
        · rw [s2]
          exact h2

/-- C24.  Pump termination and cursor bound.  For every service state with the cursor at or
below the count (a 16-bit field) and every transport, `devsdbg_process` returns; the loop
body is executed at most `pipe_num_elts - pipe_curr_elt + 1` times; every write passed to
the transport lies inside the buffer of `pipe_num_elts * pipe_elt_size` bytes (its offset
is below that size when the element size is not zero); and the cursor is at or below the
count on exit. -/
theorem pump_termination (tr : Nat → jd_pipe_status) (st : srv_state)
    (hle : st.pipe_curr_elt ≤ st.pipe_num_elts) (hnum : st.pipe_num_elts < 2 ^ 16) :
    ∃ st2 n offs,
      process_run tr (st.pipe_num_elts - st.pipe_curr_elt + 2) st = some (st2, n, offs) ∧
      devsdbg_process tr st = some st2 ∧
      n ≤ st.pipe_num_elts - st.pipe_curr_elt + 1 ∧
      (∀ off ∈ offs,
        off + st.pipe_elt_size ≤ st.pipe_num_elts * st.pipe_elt_size ∧
        (0 < st.pipe_elt_size → off < st.pipe_num_elts * st.pipe_elt_size)) ∧
      st2.pipe_curr_elt ≤ st2.pipe_num_elts := by
  obtain ⟨st2, n, offs, e1, e2, e3, e4, e5, e6, -⟩ :=
    process_run_spec tr st.pipe_num_elts st.pipe_elt_size hnum
      (st.pipe_num_elts - st.pipe_curr_elt) _ st rfl rfl hle rfl (Nat.le_refl _)
  refine ⟨st2, n, offs, e1, e2, e3, ?_, by rw [e6]; exact e5⟩
  intro off hm
  obtain ⟨c, -, c2, c3⟩ := e4 off hm
  have hmul : (c + 1) * st.pipe_elt_size ≤ st.pipe_num_elts * st.pipe_elt_size :=
    Nat.mul_le_mul_right _ (by omega)
  rw [Nat.add_mul, Nat.one_mul] at hmul
  rw [c3]
  exact ⟨hmul, fun hpos => by omega⟩

/-- C24, instance: an open pipe of three elements of twelve bytes and a transport that
accepts every write.  The body runs four times and the offsets are 0, 12 and 24. -/
theorem pump_termination_witness :
    srv_open3.pipe_curr_elt ≤ srv_open3.pipe_num_elts ∧ srv_open3.pipe_num_elts < 2 ^ 16 ∧
    (process_run (fun _ => jd_pipe_status.OK) 5 srv_open3).map (fun r => r.2)
      = some (4, [0, 12, 24]) ∧
    ∃ st2 n offs,
      process_run (fun _ => jd_pipe_status.OK)
        (srv_open3.pipe_num_elts - srv_open3.pipe_curr_elt + 2) srv_open3
        = some (st2, n, offs) ∧
      devsdbg_process (fun _ => jd_pipe_status.OK) srv_open3 = some st2 ∧
      n ≤ srv_open3.pipe_num_elts - srv_open3.pipe_curr_elt + 1 ∧
      st2.pipe_curr_elt ≤ st2.pipe_num_elts :=
  ⟨by decide, by decide, by decide,
    (pump_termination (fun _ => jd_pipe_status.OK) srv_open3 (by decide) (by decide)).imp
      (fun _ h1 => h1.imp (fun _ h2 => h2.imp (fun _ h3 =>
        ⟨h3.1, h3.2.1, h3.2.2.1, h3.2.2.2.2⟩)))⟩

end DeviceScript
